import Mathlib

/-!
# timkit: calendar arithmetic, period boundaries and differences

A shallow embedding of `src/timekit.go` (package `timkit`).

The repository wraps Go's `time.Time`.  The standard library is not part of the
repository, so the part of it that the toolkit calls is embedded first
(`Time`, `Date`, `AddDate`, `Add`, the field accessors), following the
documented behaviour of package `time`: the proleptic Gregorian calendar,
`Date` normalising out-of-range fields, `Add` adding a fixed duration.

The program is embedded twice.  The first embedding, directly below, reads
the arithmetic on mathematical integers and a location as one offset; it
carries the properties that depend on neither the 64-bit range nor a change
of offset.  The second embedding, in the namespace `Zoned` after it, has
locations with an identity and with transitions, and the wrap-around of the
toolkit's 64-bit arithmetic; the properties that depend on either are stated
and proved there, and the first embedding serves them as the calendar of a
location without transitions.

Conventions of the first embedding:

* Go's `int`, `int64` and `time.Duration` are embedded as `Int`; the toolkit's
  arithmetic is read on mathematical integers (no wrap-around at 64 bits).
  Go's truncating `/` and `%` are `quo` and `rem`.
* A `*time.Location` is embedded as a fixed offset in seconds east of UTC.

Conventions of both embeddings:

* A method that mutates its receiver and returns it becomes a function
  `TimeKit → TimeKit`.  The mutex `lock` guards concurrent writers only and
  has no counterpart here.
* A `for` loop whose exit depends on the data takes a bound on the number of
  times its body may run and returns `none` when the bound is exhausted.
* A call that can stop with a run-time failure returns an `Except`.
-/

namespace Timkit

/-! ## Go integer operators -/

/-- Go's integer quotient `a / b`, which truncates toward zero. -/
def quo (a b : Int) : Int := Int.tdiv a b

/-- Go's integer remainder `a % b`, which takes the sign of `a`. -/
def rem (a b : Int) : Int := Int.tmod a b

/-! ## Constants of `timekit.go` -/

def secondsPerMinute : Int := 60
def minutesPerHour : Int := 60
def hoursPerDay : Int := 24
def daysPerWeek : Int := 7
def monthsPerQuarter : Int := 3
def monthsPerYear : Int := 12
def yearsPerCenturies : Int := 100

/-- The layout `DefaultFormat`. -/
def DefaultFormat : String := "2006-01-02 15:04:05"

/-! ## Package `time`: the calendar -/

/-- The durations `time.Second`, `time.Minute`, `time.Hour`, in nanoseconds. -/
def Second : Int := 1000000000
def Minute : Int := 60 * Second
def Hour : Int := 60 * Minute

/-- The values of `time.Weekday`, an integer type: Sunday = 0, ..., Saturday = 6. -/
def Sunday : Int := 0
def Monday : Int := 1
def Tuesday : Int := 2
def Wednesday : Int := 3
def Thursday : Int := 4
def Friday : Int := 5
def Saturday : Int := 6

/-- Leap years of the proleptic Gregorian calendar (`time.isLeap`). -/
def isLeap (year : Int) : Bool :=
  year % 4 = 0 && (year % 100 ≠ 0 || year % 400 = 0)

/-- The table `time.daysBefore`: `daysBefore m` is the number of days in a
non-leap year before month `m + 1` starts (`m` counted from 0). -/
def daysBefore (m : Int) : Int :=
  if m ≤ 0 then 0
  else if m = 1 then 31
  else if m = 2 then 59
  else if m = 3 then 90
  else if m = 4 then 120
  else if m = 5 then 151
  else if m = 6 then 181
  else if m = 7 then 212
  else if m = 8 then 243
  else if m = 9 then 273
  else if m = 10 then 304
  else if m = 11 then 334
  else 365

/-- Number of days of month `month` (1 to 12) of `year`. -/
def daysIn (year month : Int) : Int :=
  if month = 2 ∧ isLeap year = true then 29
  else daysBefore month - daysBefore (month - 1)

/-- Number of days from 1970-01-01 to January 1st of `year`. -/
def daysSinceEpoch (year : Int) : Int :=
  365 * (year - 1) + (year - 1) / 4 - (year - 1) / 100 + (year - 1) / 400 - 719162

/-- The carry `time.norm`: returns `nhi, nlo` with `hi * base + lo =
nhi * base + nlo` and `0 ≤ nlo < base`. -/
def norm (hi lo base : Int) : Int × Int :=
  let n1 := if lo < 0 then quo (-lo - 1) base + 1 else 0
  let hi1 := hi - n1
  let lo1 := lo + n1 * base
  let n2 := if lo1 ≥ base then quo lo1 base else 0
  (hi1 + n2, lo1 - n2 * base)

/-- Number of days from 1970-01-01 to the given civil date, for a month that
is already in 1..12; the day may lie outside the month. -/
def daysFromCivil (year month day : Int) : Int :=
  daysSinceEpoch year + daysBefore (month - 1)
    + (if isLeap year = true ∧ month ≥ 3 then 1 else 0) + (day - 1)

/-- Year and zero-based day of the year of a day counted from 1970-01-01:
whole 400-year, 100-year, 4-year and 1-year cycles are cut off in turn. -/
def yearOfDays (d : Int) : Int × Int :=
  let a := d + 719162
  let n400 := a / 146097
  let d1 := a % 146097
  let n100 := min (d1 / 36524) 3
  let d2 := d1 - 36524 * n100
  let n4 := d2 / 1461
  let d3 := d2 % 1461
  let n1 := min (d3 / 365) 3
  (400 * n400 + 100 * n100 + 4 * n4 + n1 + 1, d3 - 365 * n1)

/-- Month (1 to 12) and day of the month of a zero-based day of the year. -/
def monthDayOfYday (leap : Bool) (yday : Int) : Int × Int :=
  if leap = true ∧ yday = 31 + 29 - 1 then (2, 29)
  else
    let day := if leap = true ∧ yday > 31 + 29 - 1 then yday - 1 else yday
    let month := day / 31
    let fin := daysBefore (month + 1)
    if day ≥ fin then (month + 2, day - fin + 1)
    else (month + 1, day - daysBefore month + 1)

/-! ## Package `time`: instants -/

/-- An instant in a location. -/
structure Time where
  /-- Seconds elapsed since 1970-01-01 00:00:00 UTC. -/
  unix : Int
  /-- Nanoseconds within the second. -/
  nsec : Int
  /-- The location: its offset in seconds east of UTC. -/
  loc : Int
deriving DecidableEq, Repr

namespace Time

/-- The instants package `time` builds: the nanosecond field is within the second. -/
def Valid (t : Time) : Prop := 0 ≤ t.nsec ∧ t.nsec < 1000000000

instance (t : Time) : Decidable t.Valid := by
  unfold Valid; infer_instance

/-- Seconds since 1970-01-01 00:00:00 on the wall clock of the location. -/
def wall (t : Time) : Int := t.unix + t.loc

/-- Day number of the wall-clock date, counted from 1970-01-01. -/
def absDay (t : Time) : Int := t.wall / 86400

/-- Seconds elapsed since midnight on the wall clock. -/
def secOfDay (t : Time) : Int := t.wall % 86400

def Year (t : Time) : Int := (yearOfDays t.absDay).1

def YearDay (t : Time) : Int := (yearOfDays t.absDay).2

def Month (t : Time) : Int := (monthDayOfYday (isLeap t.Year) t.YearDay).1

def Day (t : Time) : Int := (monthDayOfYday (isLeap t.Year) t.YearDay).2

def Hour (t : Time) : Int := t.secOfDay / 3600

def Minute (t : Time) : Int := t.secOfDay % 3600 / 60

def Second (t : Time) : Int := t.secOfDay % 60

def Nanosecond (t : Time) : Int := t.nsec

/-- Day of the week; 1970-01-01 was a Thursday. -/
def Weekday (t : Time) : Int := (t.absDay + 4) % 7

def Unix (t : Time) : Int := t.unix

def Location (t : Time) : Int := t.loc

/-- The same instant shown in another location. -/
def In (t : Time) (loc : Int) : Time := { t with loc := loc }

/-- Whether `t` is later than `u`. -/
def After (t u : Time) : Bool :=
  decide (t.unix > u.unix ∨ (t.unix = u.unix ∧ t.nsec > u.nsec))

/-- The instant `time.Unix(sec, 0)`; package `time` puts it in the local
zone, which the caller replaces with `In`. -/
def ofUnix (sec : Int) (loc : Int) : Time := { unix := sec, nsec := 0, loc := loc }

/-- The addition `t.Add(d)` of a duration of `d` nanoseconds. -/
def Add (t : Time) (d : Int) : Time :=
  let dsec := quo d 1000000000
  let nsec := t.nsec + rem d 1000000000
  if nsec ≥ 1000000000 then { t with unix := t.unix + (dsec + 1), nsec := nsec - 1000000000 }
  else if nsec < 0 then { t with unix := t.unix + (dsec - 1), nsec := nsec + 1000000000 }
  else { t with unix := t.unix + dsec, nsec := nsec }

end Time

/-- The constructor `time.Date`: every field may lie outside its usual range
and is normalised, month overflowing into year and nanoseconds, seconds,
minutes, hours overflowing into the day. -/
def Date (year month day hour min sec nsec : Int) (loc : Int) : Time :=
  let ym := norm year (month - 1) 12
  let year := ym.1
  let month := ym.2 + 1
  let sn := norm sec nsec 1000000000
  let ms := norm min sn.1 60
  let hm := norm hour ms.1 60
  let dh := norm day hm.1 24
  let d := daysFromCivil year month dh.1
  { unix := d * 86400 + (dh.2 * 3600 + hm.2 * 60 + ms.2) - loc, nsec := sn.2, loc := loc }

/-- The calendar addition `t.AddDate(years, months, days)`. -/
def Time.AddDate (t : Time) (years months days : Int) : Time :=
  Date (t.Year + years) (t.Month + months) (t.Day + days)
    t.Hour t.Minute t.Second t.Nanosecond t.Location

/-! ## The toolkit: `TimeKit` and its construction -/

/-- The type `TimeKit`: an instant with its display format, its weekend days
and the days on which its weeks start and end. -/
structure TimeKit where
  Time : Timkit.Time
  format : String
  weekendDays : List Int
  weekStartAt : Int
  weekEndAt : Int
deriving DecidableEq, Repr

/-- The type `Option` of `timekit.go`: a setting applied to a value under construction. -/
abbrev OptionFn := TimeKit → TimeKit

/-- The constructor `NewOptions`; `now` is the reading of the clock it starts from. -/
def NewOptions (now : Time) (opt : List OptionFn) : TimeKit :=
  opt.foldl (fun t o => o t)
    { Time := now
      format := DefaultFormat
      weekendDays := [Saturday, Sunday]
      weekStartAt := Monday
      weekEndAt := Sunday }

def OptionSetFormat (format : String) : OptionFn :=
  fun t => { t with format := format }

def OptionSetWeekStartAt (s : Int) : OptionFn :=
  fun t => { t with weekStartAt := s }

def OptionSetWeekEndAt (e : Int) : OptionFn :=
  fun t => { t with weekStartAt := e }

def OptionSetTime (datetime : Time) : OptionFn :=
  fun t => { t with Time := datetime }

/-- The constructor `NewTimeKit`.  The clock reading `NewOptions` starts from is
overwritten by `OptionSetTime`, so `t` itself is passed for it. -/
def NewTimeKit (t : Time) : TimeKit :=
  NewOptions t [OptionSetTime t]

def createFromTimestamp (timestamp : Int) (l : Int) : TimeKit :=
  NewTimeKit ((Time.ofUnix timestamp 0).In l)

namespace TimeKit

def SetFormat (tk : TimeKit) (format : String) : TimeKit :=
  { tk with format := format }

def SetTime (tk : TimeKit) (t : Timkit.Time) : TimeKit :=
  { tk with Time := t }

def SetWeekStartsAt (tk : TimeKit) (start : Int) : TimeKit :=
  { tk with weekStartAt := start }

def SetWeekEndsAt (tk : TimeKit) (e : Int) : TimeKit :=
  { tk with weekEndAt := e }

def SetTimestamp (tk : TimeKit) (sec : Int) : TimeKit :=
  tk.SetTime ((Time.ofUnix sec 0).In tk.Time.Location)

def Timestamp (tk : TimeKit) : Int := tk.Time.Unix

def Copy (tk : TimeKit) : TimeKit :=
  createFromTimestamp tk.Time.Unix tk.Time.Location

/-! ## Arithmetic operations -/

def AddCenturies (tk : TimeKit) (centuries : Int) : TimeKit :=
  tk.SetTime (tk.Time.AddDate (yearsPerCenturies * centuries) 0 0)

def SubCenturies (tk : TimeKit) (centuries : Int) : TimeKit :=
  tk.AddCenturies (-centuries)

def AddDays (tk : TimeKit) (d : Int) : TimeKit :=
  tk.SetTime (tk.Time.AddDate 0 0 d)

def SubDays (tk : TimeKit) (d : Int) : TimeKit :=
  tk.AddDays (-d)

def AddHours (tk : TimeKit) (h : Int) : TimeKit :=
  let d := h * Hour
  tk.SetTime (tk.Time.Add d)

def SubHours (tk : TimeKit) (h : Int) : TimeKit :=
  tk.AddHours (-h)

def AddMinutes (tk : TimeKit) (m : Int) : TimeKit :=
  let d := m * Minute
  tk.SetTime (tk.Time.Add d)

def SubMinutes (tk : TimeKit) (m : Int) : TimeKit :=
  tk.AddMinutes (-m)

def AddMonths (tk : TimeKit) (m : Int) : TimeKit :=
  tk.SetTime (tk.Time.AddDate 0 m 0)

def SubMonths (tk : TimeKit) (m : Int) : TimeKit :=
  tk.AddMonths (-m)

/-- The method `LastDayOfPreMonth`: the receiver moved back by its own day of the month. -/
def LastDayOfPreMonth (tk : TimeKit) : Timkit.Time :=
  tk.Time.AddDate 0 0 (-tk.Time.Day)

/-- The method `AddMonthsNoOverflow`.  The receiver is written only by the final
`SetTime`, so `LastDayOfPreMonth` is taken of the instant before the addition. -/
def AddMonthsNoOverflow (tk : TimeKit) (m : Int) : TimeKit :=
  let newDate := tk.Time.AddDate 0 m 0
  let newDate := if tk.Time.Day ≠ newDate.Day then tk.LastDayOfPreMonth else newDate
  tk.SetTime newDate

def SubMonthsNoOverflow (tk : TimeKit) (m : Int) : TimeKit :=
  tk.AddMonthsNoOverflow (-m)

def AddQuarters (tk : TimeKit) (q : Int) : TimeKit :=
  tk.SetTime (tk.Time.AddDate 0 (monthsPerQuarter * q) 0)

def SubQuarters (tk : TimeKit) (q : Int) : TimeKit :=
  tk.AddQuarters (-q)

def AddSeconds (tk : TimeKit) (s : Int) : TimeKit :=
  let d := s * Second
  tk.SetTime (tk.Time.Add d)

def SubSeconds (tk : TimeKit) (s : Int) : TimeKit :=
  tk.AddSeconds (-s)

def AddWeeks (tk : TimeKit) (w : Int) : TimeKit :=
  tk.SetTime (tk.Time.AddDate 0 0 (daysPerWeek * w))

def SubWeeks (tk : TimeKit) (w : Int) : TimeKit :=
  tk.AddWeeks (-w)

def AddYears (tk : TimeKit) (y : Int) : TimeKit :=
  tk.SetTime (tk.Time.AddDate y 0 0)

def SubYears (tk : TimeKit) (y : Int) : TimeKit :=
  tk.AddYears (-y)

/-- The method `IsWeekend`: whether the day of the week occurs in `weekendDays`. -/
def IsWeekend (tk : TimeKit) : Bool :=
  tk.weekendDays.any (fun v => decide (tk.Time.Weekday = v))

def IsWeekday (tk : TimeKit) : Bool :=
  !tk.IsWeekend

/-- The loop `for wd > 0` of `AddWeekdays`; `fuel` bounds the number of times
the body runs. -/
def addWeekdaysLoop (step : Int) : Nat → Int → TimeKit → Option TimeKit
  | fuel, wd, tk =>
    if wd > 0 then
      match fuel with
      | 0 => none
      | fuel + 1 =>
        let tk := tk.AddDays step
        addWeekdaysLoop step fuel (if tk.IsWeekday = true then wd - 1 else wd) tk
    else some tk

/-- The method `AddWeekdays`, its loop bounded by `fuel`. -/
def AddWeekdays (fuel : Nat) (tk : TimeKit) (wd : Int) : Option TimeKit :=
  if wd < 0 then addWeekdaysLoop (-1) fuel (-wd) tk
  else addWeekdaysLoop 1 fuel wd tk

def SubWeekdays (fuel : Nat) (tk : TimeKit) (wd : Int) : Option TimeKit :=
  AddWeekdays fuel tk (-wd)

end TimeKit

/-! ## Difference engine -/

/-- The helper `absoluteValue`. -/
def absoluteValue (abs : Bool) (value : Int) : Int :=
  if abs = true ∧ value < 0 then -value else value

/-- The helper `countMonthDifference`. -/
def countMonthDifference (t1 t2 : Time) (abs : Bool) : Int :=
  let y1 := t1.Year
  let y2 := t2.Year
  let m1 := t1.Month
  let m2 := t2.Month
  let d1 := t1.Day
  let d2 := t2.Day
  let yearInterval := y1 - y2
  let yearInterval := if m1 < m2 ∨ (m1 = m2 ∧ d1 < d2) then yearInterval - 1 else yearInterval
  let monthInterval := (m1 + 12) - m2
  let monthInterval := if d1 < d2 then monthInterval - 1 else monthInterval
  let monthInterval := rem monthInterval 12
  absoluteValue abs (yearInterval * 12 + monthInterval)

/-- The type `Filter`. -/
abbrev Filter := TimeKit → Bool

deriving instance DecidableEq for Except

/-- The helper `swap`. -/
def swap (a b : TimeKit) : TimeKit × TimeKit := (b, a)

namespace TimeKit

/-- The argument `t` of the difference methods: `nil` stands for the current
time `now` (in Unix seconds) in the location of the receiver. -/
def orNow (now : Int) (tk : TimeKit) (t : Option TimeKit) : TimeKit :=
  match t with
  | some t => t
  | none => createFromTimestamp now tk.Time.Location

def DiffInSeconds (now : Int) (tk : TimeKit) (t : Option TimeKit) (abs : Bool) : Int :=
  let t := orNow now tk t
  let diff := t.Timestamp - tk.Timestamp
  absoluteValue abs diff

def DiffInMinutes (now : Int) (tk : TimeKit) (t : Option TimeKit) (abs : Bool) : Int :=
  quo (DiffInSeconds now tk t abs) secondsPerMinute

def DiffInHours (now : Int) (tk : TimeKit) (t : Option TimeKit) (abs : Bool) : Int :=
  quo (DiffInMinutes now tk t abs) minutesPerHour

def DiffInDays (now : Int) (tk : TimeKit) (t : Option TimeKit) (abs : Bool) : Int :=
  quo (DiffInHours now tk t abs) hoursPerDay

def DiffInMonths (now : Int) (tk : TimeKit) (t : Option TimeKit) (abs : Bool) : Int :=
  let t := orNow now tk t
  let tkCopy := tk.Copy
  let tCopy := t.Copy
  if tkCopy.Time.Location ≠ tCopy.Time.Location then
    countMonthDifference (tkCopy.Time.In 0) (tCopy.Time.In 0) abs
  else
    countMonthDifference tkCopy.Time tCopy.Time abs

/-- The loop of `DiffFiltered`: while at least one whole `step` lies between `start` and
`e`, test `e` with `f` and move `e` back by `duration`.  `fuel` bounds the number of times
the body runs (`none` when it is exhausted); a zero `step` makes the loop test divide by
zero. -/
def diffFilteredLoop (now : Int) (start : TimeKit) (duration step : Int) (f : Filter) :
    Nat → TimeKit → Int → Option (Except String Int)
  | fuel, e, diffNumber =>
    if step = 0 then some (Except.error "integer divide by zero")
    else if quo (start.DiffInSeconds now (some e) true) step > 0 then
      match fuel with
      | 0 => none
      | fuel + 1 =>
        let diffNumber := if f e = true then diffNumber + 1 else diffNumber
        diffFilteredLoop now start duration step f fuel
          (e.SetTime (e.Time.Add (-duration))) diffNumber
    else some (Except.ok diffNumber)

/-- The method `DiffFiltered`; `duration` is in nanoseconds, and the conversion
`int64(duration.Seconds())` is read as the whole seconds of `duration`. -/
def DiffFiltered (fuel : Nat) (now : Int) (tk : TimeKit) (t : Option TimeKit) (duration : Int)
    (f : Filter) (abs : Bool) : Option (Except String Int) :=
  let t := orNow now tk t
  let step := quo duration Second
  let start := tk.Copy
  let e := t.Copy
  let inverse := start.Time.After e.Time
  let se := if inverse = true then swap start e else (start, e)
  match diffFilteredLoop now se.1 duration step f fuel se.2 0 with
  | none => none
  | some (Except.error m) => some (Except.error m)
  | some (Except.ok diffNumber) =>
    let diffNumber := if inverse = true then -diffNumber else diffNumber
    some (Except.ok (absoluteValue abs diffNumber))

def DiffInDaysFiltered (fuel : Nat) (now : Int) (tk : TimeKit) (t : Option TimeKit)
    (f : Filter) (abs : Bool) : Option (Except String Int) :=
  DiffFiltered fuel now tk t (Hour * hoursPerDay) f abs

def DiffInHoursFiltered (fuel : Nat) (now : Int) (tk : TimeKit) (t : Option TimeKit)
    (f : Filter) (abs : Bool) : Option (Except String Int) :=
  DiffFiltered fuel now tk t Hour f abs

/-! ## Boundary operations -/

def StartOfCentury (tk : TimeKit) : TimeKit :=
  let year := tk.Time.Year - rem tk.Time.Year yearsPerCenturies
  let t := Date year 1 1 0 0 0 0 tk.Time.Location
  tk.SetTime t

def EndOfCentury (tk : TimeKit) : TimeKit :=
  let year := tk.Time.Year - 1 - rem tk.Time.Year yearsPerCenturies + yearsPerCenturies
  let t := Date year 12 31 23 59 59 0 tk.Time.Location
  tk.SetTime t

def StartOfYear (tk : TimeKit) : TimeKit :=
  tk.SetTime (Date tk.Time.Year 1 1 0 0 0 0 tk.Time.Location)

def EndOfYear (tk : TimeKit) : TimeKit :=
  tk.SetTime (Date tk.Time.Year 12 31 23 59 59 0 tk.Time.Location)

def Quarter (tk : TimeKit) : Int :=
  let m := tk.Time.Month
  if m < 4 then 1
  else if m ≥ 4 ∧ m < 7 then 2
  else if m ≥ 7 ∧ m < 10 then 3
  else 4

def StartOfQuarter (tk : TimeKit) : TimeKit :=
  let m := (tk.Quarter - 1) * monthsPerQuarter + 1
  tk.SetTime (Date tk.Time.Year m 1 0 0 0 0 tk.Time.Location)

def EndOfQuarter (tk : TimeKit) : TimeKit :=
  let m := tk.Quarter * monthsPerQuarter
  tk.SetTime ((Date tk.Time.Year m 1 23 59 59 0 tk.Time.Location).AddDate 0 1 (-1))

def StartOfMonth (tk : TimeKit) : TimeKit :=
  tk.SetTime (Date tk.Time.Year tk.Time.Month 1 0 0 0 0 tk.Time.Location)

def EndOfMonth (tk : TimeKit) : TimeKit :=
  tk.SetTime ((Date tk.Time.Year tk.Time.Month 1 0 0 0 0 tk.Time.Location).AddDate 0 1 (-1))

/-- The loop of `StartOfWeek` and `EndOfWeek`: move `t` by `step` days until
its day of the week is `target`; `fuel` bounds the number of moves. -/
def weekLoop (target : Int) (step : Int) : Nat → Timkit.Time → Option Timkit.Time
  | fuel, t =>
    if t.Weekday ≠ target then
      match fuel with
      | 0 => none
      | fuel + 1 => weekLoop target step fuel (t.AddDate 0 0 step)
    else some t

/-- The method `StartOfWeek`, its loop bounded by `fuel`. -/
def StartOfWeek (fuel : Nat) (tk : TimeKit) : Option TimeKit :=
  let t := Date tk.Time.Year tk.Time.Month tk.Time.Day 0 0 0 0 tk.Time.Location
  (weekLoop tk.weekStartAt (-1) fuel t).map tk.SetTime

/-- The method `EndOfWeek`, its loop bounded by `fuel`. -/
def EndOfWeek (fuel : Nat) (tk : TimeKit) : Option TimeKit :=
  let t := Date tk.Time.Year tk.Time.Month tk.Time.Day 23 59 59 0 tk.Time.Location
  (weekLoop tk.weekEndAt 1 fuel t).map tk.SetTime

def StartOfDay (tk : TimeKit) : TimeKit :=
  let t := Date tk.Time.Year tk.Time.Month tk.Time.Day 0 0 0 0 tk.Time.Location
  tk.SetTime t

def EndOfDay (tk : TimeKit) : TimeKit :=
  let t := Date tk.Time.Year tk.Time.Month tk.Time.Day 23 59 59 0 tk.Time.Location
  tk.SetTime t

end TimeKit

/-! ## Second embedding: locations with transitions, 64-bit integers

The same functions once more, in the namespace `Zoned`, with the features
of the Go program that the embedding above leaves out:

* a `*time.Location` is a value with an identity (the pointer the code
  compares in `DiffInMonths`) and a table of transitions, so that the offset
  in force depends on the instant; `time.Date` looks the offset up the way
  package `time` does, which moves a wall-clock reading that falls into the
  gap of a transition;
* the toolkit's own arithmetic on `int`, `int64` and `time.Duration` wraps
  around at 64 bits (`wrap`);
* the step of `DiffFiltered`, `int64(duration.Seconds())`, is computed in
  `float64` with the rounding of each operation (`Float64`, `Seconds`).

Package `time` itself is embedded on the range on which its 64-bit arithmetic
is exact; theorems that speak about every instant and every count carry
bounds (`Time.InRange`, `Small`) that keep the program well inside that range.
For a location without transitions and within those bounds the second embedding
agrees with the first one (`Time.view`, `Time.ofView`). -/

namespace Zoned

/-- The value a 64-bit signed integer operation yields when its exact result is `x`. -/
def wrap (x : Int) : Int :=
  (x + 9223372036854775808) % 18446744073709551616 - 9223372036854775808

/-- The exact results that a 64-bit signed integer holds together with their negation. -/
def Fits (x : Int) : Prop := -9223372036854775807 ≤ x ∧ x ≤ 9223372036854775807

instance (x : Int) : Decidable (Fits x) := by
  unfold Fits; infer_instance

/-- The bound on counts under which the theorems about all counts are stated. -/
def Small (n : Int) : Prop := -1000000000 ≤ n ∧ n ≤ 1000000000

instance (n : Int) : Decidable (Small n) := by
  unfold Small; infer_instance

/-! ### Package `time`: locations -/

/-- A `*time.Location`: `ptr` stands for the pointer, `first` is the offset in
seconds east of UTC in force before the first transition, and `tx` lists the
transitions in ascending order, each with the Unix second at which it happens
and the offset in force from then on. -/
structure Location where
  ptr : Nat
  first : Int
  tx : List (Int × Int)
deriving DecidableEq, Repr

/-- A location without transitions: `time.UTC` and the locations made by `time.FixedZone`. -/
def Location.Fixed (l : Location) : Prop := l.tx = []

instance (l : Location) : Decidable l.Fixed := by
  unfold Location.Fixed; infer_instance

/-- The earliest and the latest second of package `time` (`alpha`, `omega`). -/
def alpha : Int := -9223372036854775808
def omega : Int := 9223372036854775807

/-- The search of `Location.lookup` through the transitions: the offset in force at `sec`
with the start and the end of the period during which it is in force. -/
def lookupFrom (offset start : Int) : List (Int × Int) → Int → Int × Int × Int
  | [], _ => (offset, start, omega)
  | (w, o) :: rest, sec =>
    if sec < w then (offset, start, w) else lookupFrom o w rest sec

/-- The method `Location.lookup`: offset, start and end of the period that holds `sec`. -/
def Location.lookup (l : Location) (sec : Int) : Int × Int × Int :=
  lookupFrom l.first alpha l.tx sec

/-- The location `time.UTC`. -/
def UTC : Location := { ptr := 0, first := 0, tx := [] }

/-- A location made by `time.FixedZone`: one offset, no transition. -/
def FixedZone (ptr : Nat) (offset : Int) : Location := { ptr := ptr, first := offset, tx := [] }

/-- The location America/New_York with its transitions of the years 2020 to 2022; before
2020 and after 2022 the table is not that of the zone. -/
def NewYork : Location :=
  { ptr := 1
    first := -18000
    tx := [(1583650800, -14400), (1604210400, -18000), (1615705200, -14400),
      (1636264800, -18000), (1647154800, -14400), (1667714400, -18000)] }

/-- The location America/Havana with its transitions of the years 2011 to 2013 and 2020 to
2022; before 2011, between 2014 and 2019 and after 2022 the table is not that of the zone. -/
def Havana : Location :=
  { ptr := 2
    first := -18000
    tx := [(1300597200, -14400), (1321160400, -18000), (1333256400, -14400),
      (1352005200, -18000), (1362891600, -14400), (1383454800, -18000),
      (1583643600, -14400), (1604206800, -18000), (1615698000, -14400),
      (1636261200, -18000), (1647147600, -14400), (1667710800, -18000)] }

/-! ### Package `time`: instants -/

/-- An instant in a location. -/
structure Time where
  /-- Seconds elapsed since 1970-01-01 00:00:00 UTC. -/
  unix : Int
  /-- Nanoseconds within the second. -/
  nsec : Int
  /-- The location. -/
  loc : Location
deriving DecidableEq, Repr

namespace Time

/-- The instants package `time` builds: the nanosecond field is within the second. -/
def Valid (t : Time) : Prop := 0 ≤ t.nsec ∧ t.nsec < 1000000000

instance (t : Time) : Decidable t.Valid := by
  unfold Valid; infer_instance

/-- The bound on instants under which the theorems about all instants are stated: within
10^15 seconds of 1970-01-01, about 31 million years. -/
def InRange (t : Time) : Prop := -1000000000000000 ≤ t.unix ∧ t.unix ≤ 1000000000000000

instance (t : Time) : Decidable t.InRange := by
  unfold InRange; infer_instance

/-- The offset in force at the instant. -/
def offset (t : Time) : Int := (t.loc.lookup t.unix).1

/-- The instant as the first embedding sees it under the offset `o`. -/
def viewAt (o : Int) (t : Time) : Timkit.Time := { unix := t.unix, nsec := t.nsec, loc := o }

/-- The instant as the first embedding sees it: with the offset in force as its location. -/
def view (t : Time) : Timkit.Time := t.viewAt t.offset

/-- An instant of the first embedding placed in the location `l`. -/
def ofView (l : Location) (v : Timkit.Time) : Time := { unix := v.unix, nsec := v.nsec, loc := l }

def absDay (t : Time) : Int := t.view.absDay

def Year (t : Time) : Int := t.view.Year

def Month (t : Time) : Int := t.view.Month

def Day (t : Time) : Int := t.view.Day

def Hour (t : Time) : Int := t.view.Hour

def Minute (t : Time) : Int := t.view.Minute

def Second (t : Time) : Int := t.view.Second

def Nanosecond (t : Time) : Int := t.nsec

def Weekday (t : Time) : Int := t.view.Weekday

def Unix (t : Time) : Int := t.unix

def Location (t : Time) : Zoned.Location := t.loc

/-- The same instant shown in another location. -/
def In (t : Time) (loc : Zoned.Location) : Time := { t with loc := loc }

/-- Whether `t` is later than `u`. -/
def After (t u : Time) : Bool :=
  decide (t.unix > u.unix ∨ (t.unix = u.unix ∧ t.nsec > u.nsec))

/-- The instant `time.Unix(sec, 0)`, which the caller places with `In`. -/
def ofUnix (sec : Int) (loc : Zoned.Location) : Time := { unix := sec, nsec := 0, loc := loc }

/-- The addition `t.Add(d)` of a duration of `d` nanoseconds. -/
def Add (t : Time) (d : Int) : Time :=
  let dsec := quo d 1000000000
  let nsec := t.nsec + rem d 1000000000
  if nsec ≥ 1000000000 then { t with unix := t.unix + (dsec + 1), nsec := nsec - 1000000000 }
  else if nsec < 0 then { t with unix := t.unix + (dsec - 1), nsec := nsec + 1000000000 }
  else { t with unix := t.unix + dsec, nsec := nsec }

end Time

/-- The constructor `time.Date`.  The fields are normalised and counted as seconds on the
wall clock as in the first embedding; the offset is looked up at that count taken as Unix
seconds, and looked up again at the corrected count when the corrected count lies outside
the period of the first answer. -/
def Date (year month day hour min sec nsec : Int) (loc : Location) : Time :=
  let w := Timkit.Date year month day hour min sec nsec 0
  let unix := w.unix
  let r := loc.lookup unix
  let offset :=
    if r.1 ≠ 0 then
      let utc := unix - r.1
      if utc < r.2.1 ∨ utc ≥ r.2.2 then (loc.lookup utc).1 else r.1
    else r.1
  { unix := unix - offset, nsec := w.nsec, loc := loc }

/-- The calendar addition `t.AddDate(years, months, days)`. -/
def Time.AddDate (t : Time) (years months days : Int) : Time :=
  Date (t.Year + years) (t.Month + months) (t.Day + days)
    t.Hour t.Minute t.Second t.Nanosecond t.Location

/-! ### The toolkit -/

/-- The type `TimeKit`. -/
structure TimeKit where
  Time : Zoned.Time
  format : String
  weekendDays : List Int
  weekStartAt : Int
  weekEndAt : Int
deriving DecidableEq, Repr

/-- The type `Option` of `timekit.go`. -/
abbrev OptionFn := TimeKit → TimeKit

def NewOptions (now : Time) (opt : List OptionFn) : TimeKit :=
  opt.foldl (fun t o => o t)
    { Time := now
      format := DefaultFormat
      weekendDays := [Saturday, Sunday]
      weekStartAt := Monday
      weekEndAt := Sunday }

def OptionSetTime (datetime : Time) : OptionFn :=
  fun t => { t with Time := datetime }

def NewTimeKit (t : Time) : TimeKit :=
  NewOptions t [OptionSetTime t]

def createFromTimestamp (timestamp : Int) (l : Location) : TimeKit :=
  NewTimeKit ((Time.ofUnix timestamp UTC).In l)

namespace TimeKit

/-- The value as the first embedding sees it under the offset `o`. -/
def viewAt (o : Int) (tk : TimeKit) : Timkit.TimeKit :=
  { Time := tk.Time.viewAt o
    format := tk.format
    weekendDays := tk.weekendDays
    weekStartAt := tk.weekStartAt
    weekEndAt := tk.weekEndAt }

/-- The value as the first embedding sees it: with the offset in force as its location. -/
def view (tk : TimeKit) : Timkit.TimeKit := tk.viewAt tk.Time.offset

/-- A value of the first embedding placed in the location `l`. -/
def ofView (l : Location) (k : Timkit.TimeKit) : TimeKit :=
  { Time := Zoned.Time.ofView l k.Time
    format := k.format
    weekendDays := k.weekendDays
    weekStartAt := k.weekStartAt
    weekEndAt := k.weekEndAt }

def SetTime (tk : TimeKit) (t : Zoned.Time) : TimeKit :=
  { tk with Time := t }

def SetWeekStartsAt (tk : TimeKit) (start : Int) : TimeKit :=
  { tk with weekStartAt := start }

def SetWeekEndsAt (tk : TimeKit) (e : Int) : TimeKit :=
  { tk with weekEndAt := e }

def Timestamp (tk : TimeKit) : Int := tk.Time.Unix

def Copy (tk : TimeKit) : TimeKit :=
  createFromTimestamp tk.Time.Unix tk.Time.Location

def AddCenturies (tk : TimeKit) (centuries : Int) : TimeKit :=
  tk.SetTime (tk.Time.AddDate (wrap (yearsPerCenturies * centuries)) 0 0)

def SubCenturies (tk : TimeKit) (centuries : Int) : TimeKit :=
  tk.AddCenturies (wrap (-centuries))

def AddDays (tk : TimeKit) (d : Int) : TimeKit :=
  tk.SetTime (tk.Time.AddDate 0 0 d)

def SubDays (tk : TimeKit) (d : Int) : TimeKit :=
  tk.AddDays (wrap (-d))

def AddHours (tk : TimeKit) (h : Int) : TimeKit :=
  let d := wrap (h * Hour)
  tk.SetTime (tk.Time.Add d)

def SubHours (tk : TimeKit) (h : Int) : TimeKit :=
  tk.AddHours (wrap (-h))

def AddMinutes (tk : TimeKit) (m : Int) : TimeKit :=
  let d := wrap (m * Minute)
  tk.SetTime (tk.Time.Add d)

def SubMinutes (tk : TimeKit) (m : Int) : TimeKit :=
  tk.AddMinutes (wrap (-m))

def AddMonths (tk : TimeKit) (m : Int) : TimeKit :=
  tk.SetTime (tk.Time.AddDate 0 m 0)

def SubMonths (tk : TimeKit) (m : Int) : TimeKit :=
  tk.AddMonths (wrap (-m))

def LastDayOfPreMonth (tk : TimeKit) : Zoned.Time :=
  tk.Time.AddDate 0 0 (-tk.Time.Day)

def AddMonthsNoOverflow (tk : TimeKit) (m : Int) : TimeKit :=
  let newDate := tk.Time.AddDate 0 m 0
  let newDate := if tk.Time.Day ≠ newDate.Day then tk.LastDayOfPreMonth else newDate
  tk.SetTime newDate

def AddQuarters (tk : TimeKit) (q : Int) : TimeKit :=
  tk.SetTime (tk.Time.AddDate 0 (wrap (monthsPerQuarter * q)) 0)

def SubQuarters (tk : TimeKit) (q : Int) : TimeKit :=
  tk.AddQuarters (wrap (-q))

def AddSeconds (tk : TimeKit) (s : Int) : TimeKit :=
  let d := wrap (s * Timkit.Second)
  tk.SetTime (tk.Time.Add d)

def SubSeconds (tk : TimeKit) (s : Int) : TimeKit :=
  tk.AddSeconds (wrap (-s))

def AddWeeks (tk : TimeKit) (w : Int) : TimeKit :=
  tk.SetTime (tk.Time.AddDate 0 0 (wrap (daysPerWeek * w)))

def SubWeeks (tk : TimeKit) (w : Int) : TimeKit :=
  tk.AddWeeks (wrap (-w))

def AddYears (tk : TimeKit) (y : Int) : TimeKit :=
  tk.SetTime (tk.Time.AddDate y 0 0)

def SubYears (tk : TimeKit) (y : Int) : TimeKit :=
  tk.AddYears (wrap (-y))

def IsWeekend (tk : TimeKit) : Bool :=
  tk.weekendDays.any (fun v => decide (tk.Time.Weekday = v))

def IsWeekday (tk : TimeKit) : Bool :=
  !tk.IsWeekend

/-- The loop `for wd > 0` of `AddWeekdays`; `fuel` bounds the number of times the body
runs. -/
def addWeekdaysLoop (step : Int) : Nat → Int → TimeKit → Option TimeKit
  | fuel, wd, tk =>
    if wd > 0 then
      match fuel with
      | 0 => none
      | fuel + 1 =>
        let tk := tk.AddDays step
        addWeekdaysLoop step fuel (if tk.IsWeekday = true then wrap (wd - 1) else wd) tk
    else some tk

/-- The method `AddWeekdays`, its loop bounded by `fuel`. -/
def AddWeekdays (fuel : Nat) (tk : TimeKit) (wd : Int) : Option TimeKit :=
  if wd < 0 then addWeekdaysLoop (-1) fuel (wrap (-wd)) tk
  else addWeekdaysLoop 1 fuel wd tk

end TimeKit

/-! ### Difference engine -/

/-- The helper `absoluteValue`. -/
def absoluteValue (abs : Bool) (value : Int) : Int :=
  if abs = true ∧ value < 0 then wrap (-value) else value

/-- The helper `countMonthDifference`.  Its operands are years, months and days of instants,
far from the ends of the 64-bit range, so its own sums are exact. -/
def countMonthDifference (t1 t2 : Time) (abs : Bool) : Int :=
  let y1 := t1.Year
  let y2 := t2.Year
  let m1 := t1.Month
  let m2 := t2.Month
  let d1 := t1.Day
  let d2 := t2.Day
  let yearInterval := y1 - y2
  let yearInterval := if m1 < m2 ∨ (m1 = m2 ∧ d1 < d2) then yearInterval - 1 else yearInterval
  let monthInterval := (m1 + 12) - m2
  let monthInterval := if d1 < d2 then monthInterval - 1 else monthInterval
  let monthInterval := rem monthInterval 12
  absoluteValue abs (yearInterval * 12 + monthInterval)

/-! ### Package `time`: `Duration.Seconds` -/

/-- The integer nearest to `a / b`, the even one of two equally near. -/
def roundEven (a b : Nat) : Nat :=
  let q := a / b
  let r := a % b
  if 2 * r < b then q
  else if 2 * r > b then q + 1
  else if q % 2 = 0 then q else q + 1

/-- The loop of `log2`, bounded by `fuel`. -/
def log2Loop : Nat → Nat → Nat
  | 0, _ => 0
  | fuel + 1, n => if n < 2 then 0 else log2Loop fuel (n / 2) + 1

/-- The position of the highest bit of `n`: the largest `k` with `2 ^ k ≤ n`, for `n > 0`. -/
def log2 (n : Nat) : Nat := log2Loop n n

/-- A finite `float64`: the number `m * 2 ^ e`, negated when `neg` holds. -/
structure Float64 where
  neg : Bool
  m : Nat
  e : Int
deriving DecidableEq, Repr

namespace Float64

/-- The `float64` nearest to `a / b` (negated when `neg` holds), the one with the even
mantissa of two equally near: IEEE 754 round-to-nearest-even on the normal numbers, with a
mantissa of 53 bits. -/
def round (neg : Bool) (a b : Nat) : Float64 :=
  if a = 0 then { neg := neg, m := 0, e := 0 }
  else
    let k0 : Int := (log2 a : Int) - (log2 b : Int)
    let k : Int := if b * 2 ^ k0.toNat ≤ a * 2 ^ (-k0).toNat then k0 else k0 - 1
    let e : Int := k - 52
    { neg := neg, m := roundEven (a * 2 ^ (-e).toNat) (b * 2 ^ e.toNat), e := e }

/-- The conversion `float64(x)` of an integer. -/
def ofInt (x : Int) : Float64 := round (decide (x < 0)) x.natAbs 1

/-- The quotient `x / y` of two `float64` values, `y` not zero. -/
def div (x y : Float64) : Float64 :=
  round (x.neg != y.neg) (x.m * 2 ^ (x.e - y.e).toNat) (y.m * 2 ^ (y.e - x.e).toNat)

/-- The sum `x + y` of two `float64` values. -/
def add (x y : Float64) : Float64 :=
  let e := min x.e y.e
  let sx : Int := (if x.neg = true then -1 else 1) * (x.m * 2 ^ (x.e - e).toNat : Nat)
  let sy : Int := (if y.neg = true then -1 else 1) * (y.m * 2 ^ (y.e - e).toNat : Nat)
  let s := sx + sy
  round (decide (s < 0)) (s.natAbs * 2 ^ e.toNat) (2 ^ (-e).toNat)

/-- The conversion `int64(x)` of a `float64` within the 64-bit range: the fraction is
dropped. -/
def toInt64 (x : Float64) : Int :=
  (if x.neg = true then -1 else 1) * ((x.m * 2 ^ x.e.toNat / 2 ^ (-x.e).toNat : Nat) : Int)

end Float64

/-- The method `Duration.Seconds` of a duration `d` in nanoseconds:
`float64(sec) + float64(nsec)/1e9` with `sec := d / Second` and `nsec := d % Second`. -/
def Seconds (d : Int) : Float64 :=
  let sec := quo d Timkit.Second
  let nsec := rem d Timkit.Second
  (Float64.ofInt sec).add ((Float64.ofInt nsec).div (Float64.ofInt 1000000000))

/-! ### Differences -/

/-- The type `Filter`. -/
abbrev Filter := TimeKit → Bool

/-- The helper `swap`. -/
def swap (a b : TimeKit) : TimeKit × TimeKit := (b, a)

namespace TimeKit

/-- The argument `t` of the difference methods: `nil` stands for the current time `now`
(in Unix seconds) in the location of the receiver. -/
def orNow (now : Int) (tk : TimeKit) (t : Option TimeKit) : TimeKit :=
  match t with
  | some t => t
  | none => createFromTimestamp now tk.Time.Location

def DiffInSeconds (now : Int) (tk : TimeKit) (t : Option TimeKit) (abs : Bool) : Int :=
  let t := orNow now tk t
  let diff := wrap (t.Timestamp - tk.Timestamp)
  absoluteValue abs diff

def DiffInMinutes (now : Int) (tk : TimeKit) (t : Option TimeKit) (abs : Bool) : Int :=
  quo (DiffInSeconds now tk t abs) secondsPerMinute

def DiffInHours (now : Int) (tk : TimeKit) (t : Option TimeKit) (abs : Bool) : Int :=
  quo (DiffInMinutes now tk t abs) minutesPerHour

def DiffInDays (now : Int) (tk : TimeKit) (t : Option TimeKit) (abs : Bool) : Int :=
  quo (DiffInHours now tk t abs) hoursPerDay

/-- The method `DiffInMonths`; the test `tkCopy.Location() != tCopy.Location()` compares the
two location values themselves. -/
def DiffInMonths (now : Int) (tk : TimeKit) (t : Option TimeKit) (abs : Bool) : Int :=
  let t := orNow now tk t
  let tkCopy := tk.Copy
  let tCopy := t.Copy
  if tkCopy.Time.Location ≠ tCopy.Time.Location then
    countMonthDifference (tkCopy.Time.In UTC) (tCopy.Time.In UTC) abs
  else
    countMonthDifference tkCopy.Time tCopy.Time abs

/-- The loop of `DiffFiltered`, its body bounded by `fuel`; a zero `step` makes the loop
test divide by zero. -/
def diffFilteredLoop (now : Int) (start : TimeKit) (duration step : Int) (f : Filter) :
    Nat → TimeKit → Int → Option (Except String Int)
  | fuel, e, diffNumber =>
    if step = 0 then some (Except.error "integer divide by zero")
    else if wrap (quo (start.DiffInSeconds now (some e) true) step) > 0 then
      match fuel with
      | 0 => none
      | fuel + 1 =>
        let diffNumber := if f e = true then wrap (diffNumber + 1) else diffNumber
        diffFilteredLoop now start duration step f fuel
          (e.SetTime (e.Time.Add (wrap (-duration)))) diffNumber
    else some (Except.ok diffNumber)

/-- The method `DiffFiltered`; `duration` is in nanoseconds. -/
def DiffFiltered (fuel : Nat) (now : Int) (tk : TimeKit) (t : Option TimeKit) (duration : Int)
    (f : Filter) (abs : Bool) : Option (Except String Int) :=
  let t := orNow now tk t
  let step := (Seconds duration).toInt64
  let start := tk.Copy
  let e := t.Copy
  let inverse := start.Time.After e.Time
  let se := if inverse = true then swap start e else (start, e)
  match diffFilteredLoop now se.1 duration step f fuel se.2 0 with
  | none => none
  | some (Except.error m) => some (Except.error m)
  | some (Except.ok diffNumber) =>
    let diffNumber := if inverse = true then wrap (-diffNumber) else diffNumber
    some (Except.ok (absoluteValue abs diffNumber))

def DiffInDaysFiltered (fuel : Nat) (now : Int) (tk : TimeKit) (t : Option TimeKit)
    (f : Filter) (abs : Bool) : Option (Except String Int) :=
  DiffFiltered fuel now tk t (Timkit.Hour * hoursPerDay) f abs

def DiffInHoursFiltered (fuel : Nat) (now : Int) (tk : TimeKit) (t : Option TimeKit)
    (f : Filter) (abs : Bool) : Option (Except String Int) :=
  DiffFiltered fuel now tk t Timkit.Hour f abs

/-! ### Boundary operations -/

def Quarter (tk : TimeKit) : Int :=
  let m := tk.Time.Month
  if m < 4 then 1
  else if m ≥ 4 ∧ m < 7 then 2
  else if m ≥ 7 ∧ m < 10 then 3
  else 4

def StartOfQuarter (tk : TimeKit) : TimeKit :=
  let m := (tk.Quarter - 1) * monthsPerQuarter + 1
  tk.SetTime (Date tk.Time.Year m 1 0 0 0 0 tk.Time.Location)

def EndOfQuarter (tk : TimeKit) : TimeKit :=
  let m := tk.Quarter * monthsPerQuarter
  tk.SetTime ((Date tk.Time.Year m 1 23 59 59 0 tk.Time.Location).AddDate 0 1 (-1))

/-- The loop of `StartOfWeek` and `EndOfWeek`, its moves bounded by `fuel`. -/
def weekLoop (target : Int) (step : Int) : Nat → Zoned.Time → Option Zoned.Time
  | fuel, t =>
    if t.Weekday ≠ target then
      match fuel with
      | 0 => none
      | fuel + 1 => weekLoop target step fuel (t.AddDate 0 0 step)
    else some t

def StartOfWeek (fuel : Nat) (tk : TimeKit) : Option TimeKit :=
  let t := Date tk.Time.Year tk.Time.Month tk.Time.Day 0 0 0 0 tk.Time.Location
  (weekLoop tk.weekStartAt (-1) fuel t).map tk.SetTime

def EndOfWeek (fuel : Nat) (tk : TimeKit) : Option TimeKit :=
  let t := Date tk.Time.Year tk.Time.Month tk.Time.Day 23 59 59 0 tk.Time.Location
  (weekLoop tk.weekEndAt 1 fuel t).map tk.SetTime

end TimeKit

end Zoned

end Timkit

/-! # Properties

Lemmas about the two embeddings first, then the theorems for the claims. -/

namespace Timkit

/-! ## Lemmas about the first embedding -/

theorem quo_of_nonneg {a b : Int} (ha : 0 ≤ a) (hb : 0 ≤ b) : quo a b = a / b :=
  Int.tdiv_eq_ediv ha hb

theorem rem_of_nonneg {a b : Int} (ha : 0 ≤ a) (hb : 0 ≤ b) : rem a b = a % b :=
  Int.tmod_eq_emod ha hb

theorem norm_eq (hi lo base : Int) (hb : 0 < base) :
    norm hi lo base = (hi + lo / base, lo % base) := by
  have key : ∀ q r : Int, 0 ≤ r → r < base → lo = base * q + r → lo / base = q ∧ lo % base = r := by
    intro q r h0 h1 e
    have := (Int.ediv_emod_unique hb (a := lo) (r := r) (q := q)).2 ⟨by linarith, h0, h1⟩
    exact this
  unfold norm
  by_cases h : lo < 0
  · simp only [h, if_true]
    rw [quo_of_nonneg (by omega) (le_of_lt hb)]
    have e1 := Int.emod_add_ediv (-lo - 1) base
    have e2 := Int.emod_nonneg (-lo - 1) (ne_of_gt hb)
    have e3 := Int.emod_lt_of_pos (-lo - 1) hb
    generalize (-lo - 1) / base = q at e1 ⊢
    generalize (-lo - 1) % base = r at e1 e2 e3
    have hlo1 : lo + (q + 1) * base = base - 1 - r := by linarith
    have h2 : ¬ (lo + (q + 1) * base ≥ base) := by rw [hlo1]; omega
    simp only [h2, if_false]
    obtain ⟨k1, k2⟩ := key (-(q + 1)) (base - 1 - r) (by omega) (by omega) (by linarith)
    rw [k1, k2]
    ext <;> simp only [] <;> linarith
  · simp only [h, if_false]
    by_cases h2 : lo + 0 * base ≥ base
    · simp only [h2, if_true]
      rw [quo_of_nonneg (by omega) (le_of_lt hb)]
      have e1 := Int.emod_add_ediv lo base
      simp only [zero_mul, add_zero, sub_zero]
      ext
      · simp only []
      · simp only []
        linarith
    · simp only [h2, if_false]
      obtain ⟨k1, k2⟩ := key 0 lo (by omega) (by omega) (by ring)
      rw [k1, k2]
      ext <;> simp only [] <;> omega

theorem Date_eq (year month day hour min sec nsec loc : Int) :
    Date year month day hour min sec nsec loc =
      { unix := (daysFromCivil (year + (month - 1) / 12) ((month - 1) % 12 + 1) 1 + (day - 1))
          * 86400 + hour * 3600 + min * 60 + sec + nsec / 1000000000 - loc
        nsec := nsec % 1000000000
        loc := loc } := by
  unfold Date
  simp only [norm_eq _ _ 12 (by decide), norm_eq _ _ 1000000000 (by decide),
    norm_eq _ _ 60 (by decide), norm_eq _ _ 24 (by decide)]
  unfold daysFromCivil
  congr 1
  omega

theorem isLeap_iff (y : Int) : isLeap y = true ↔ (y % 4 = 0 ∧ (y % 100 ≠ 0 ∨ y % 400 = 0)) := by
  unfold isLeap
  simp only [Bool.and_eq_true, Bool.or_eq_true, decide_eq_true_eq, bne_iff_ne, ne_eq]

/-- The cycle counts behind `yearOfDays`. -/
theorem yearOfDays_cycles (d : Int) :
    ∃ q c n4 n1 : Int, yearOfDays d = (400 * q + 100 * c + 4 * n4 + n1 + 1,
        d + 719162 - (146097 * q + 36524 * c + 1461 * n4 + 365 * n1)) ∧
      0 ≤ c ∧ c ≤ 3 ∧ 0 ≤ n4 ∧ n4 ≤ 24 ∧ 0 ≤ n1 ∧ n1 ≤ 3 ∧
      0 ≤ d + 719162 - (146097 * q + 36524 * c + 1461 * n4 + 365 * n1) ∧
      d + 719162 - (146097 * q + 36524 * c + 1461 * n4 + 365 * n1) ≤ 365 ∧
      (d + 719162 - (146097 * q + 36524 * c + 1461 * n4 + 365 * n1) = 365 →
        n1 = 3 ∧ (n4 < 24 ∨ c = 3)) := by
  refine ⟨(d + 719162) / 146097, min ((d + 719162) % 146097 / 36524) 3,
    ((d + 719162) % 146097 - 36524 * min ((d + 719162) % 146097 / 36524) 3) / 1461,
    min (((d + 719162) % 146097 - 36524 * min ((d + 719162) % 146097 / 36524) 3) % 1461 / 365) 3,
    ?_, ?_⟩
  · unfold yearOfDays
    simp only []
    ext
    · rfl
    · simp only []
      omega
  · generalize hq : (d + 719162) / 146097 = q
    generalize hd1 : (d + 719162) % 146097 = d1
    have h1 : 0 ≤ d1 ∧ d1 < 146097 := by omega
    have hqd : d + 719162 = 146097 * q + d1 := by omega
    generalize hc : min (d1 / 36524) 3 = c
    have h2 : 0 ≤ c ∧ c ≤ 3 ∧ 0 ≤ d1 - 36524 * c ∧ d1 - 36524 * c ≤ 36524 ∧
        (c < 3 → d1 - 36524 * c < 36524) := by omega
    generalize hd2 : d1 - 36524 * c = d2 at h2 ⊢
    generalize hn4 : d2 / 1461 = n4
    generalize hd3 : d2 % 1461 = d3
    have h3 : 0 ≤ n4 ∧ n4 ≤ 24 ∧ 0 ≤ d3 ∧ d3 < 1461 ∧ d2 = 1461 * n4 + d3 := by omega
    generalize hn1 : min (d3 / 365) 3 = n1
    have h4 : 0 ≤ n1 ∧ n1 ≤ 3 ∧ 0 ≤ d3 - 365 * n1 ∧ d3 - 365 * n1 ≤ 365 ∧
        (d3 - 365 * n1 = 365 → n1 = 3) := by omega
    refine ⟨h2.1, h2.2.1, h3.1, h3.2.1, h4.1, h4.2.1, ?_, ?_, ?_⟩ <;> omega

theorem daysSinceEpoch_cycles (q c n4 n1 : Int) (hc : 0 ≤ c ∧ c ≤ 3) (h4 : 0 ≤ n4 ∧ n4 ≤ 24)
    (h1 : 0 ≤ n1 ∧ n1 ≤ 3) :
    daysSinceEpoch (400 * q + 100 * c + 4 * n4 + n1 + 1)
      = 146097 * q + 36524 * c + 1461 * n4 + 365 * n1 - 719162 := by
  unfold daysSinceEpoch
  have e4 : (400 * q + 100 * c + 4 * n4 + n1 + 1 - 1) / 4 = 100 * q + 25 * c + n4 := by omega
  have e100 : (400 * q + 100 * c + 4 * n4 + n1 + 1 - 1) / 100 = 4 * q + c := by omega
  have e400 : (400 * q + 100 * c + 4 * n4 + n1 + 1 - 1) / 400 = q := by omega
  rw [e4, e100, e400]
  omega

theorem isLeap_cycles (q c n4 n1 : Int) (hc : 0 ≤ c ∧ c ≤ 3) (h4 : 0 ≤ n4 ∧ n4 ≤ 24)
    (h1 : 0 ≤ n1 ∧ n1 ≤ 3) :
    isLeap (400 * q + 100 * c + 4 * n4 + n1 + 1) = true ↔ (n1 = 3 ∧ (n4 < 24 ∨ c = 3)) := by
  rw [isLeap_iff]
  constructor
  · intro h
    omega
  · intro h
    omega

theorem yearOfDays_spec (d : Int) :
    daysSinceEpoch (yearOfDays d).1 + (yearOfDays d).2 = d ∧ 0 ≤ (yearOfDays d).2 ∧
      (yearOfDays d).2 < 365 + (if isLeap (yearOfDays d).1 = true then 1 else 0) := by
  obtain ⟨q, c, n4, n1, he, hc0, hc3, h40, h424, h10, h13, hy0, hy365, hlast⟩ := yearOfDays_cycles d
  rw [he]
  simp only []
  rw [daysSinceEpoch_cycles q c n4 n1 ⟨hc0, hc3⟩ ⟨h40, h424⟩ ⟨h10, h13⟩]
  refine ⟨by omega, hy0, ?_⟩
  split_ifs with hl
  · omega
  · rw [isLeap_cycles q c n4 n1 ⟨hc0, hc3⟩ ⟨h40, h424⟩ ⟨h10, h13⟩] at hl
    have : ¬ (d + 719162 - (146097 * q + 36524 * c + 1461 * n4 + 365 * n1) = 365) :=
      fun h => hl (hlast h)
    omega

theorem daysSinceEpoch_succ (y : Int) :
    daysSinceEpoch (y + 1) = daysSinceEpoch y + 365 + (if isLeap y = true then 1 else 0) := by
  simp only [isLeap_iff]
  unfold daysSinceEpoch
  split_ifs with h <;> omega

theorem daysSinceEpoch_lt {a b : Int} (h : a < b) : daysSinceEpoch a < daysSinceEpoch b := by
  unfold daysSinceEpoch
  omega

theorem yearOfDays_unique (d y : Int) (h1 : daysSinceEpoch y ≤ d)
    (h2 : d < daysSinceEpoch y + 365 + (if isLeap y = true then 1 else 0)) :
    yearOfDays d = (y, d - daysSinceEpoch y) := by
  obtain ⟨e, p0, p1⟩ := yearOfDays_spec d
  have hy : (yearOfDays d).1 = y := by
    rcases lt_trichotomy (yearOfDays d).1 y with hlt | heq | hgt
    · have a1 := daysSinceEpoch_succ (yearOfDays d).1
      have a2 : daysSinceEpoch ((yearOfDays d).1 + 1) ≤ daysSinceEpoch y := by
        rcases (show (yearOfDays d).1 + 1 < y ∨ (yearOfDays d).1 + 1 = y by omega) with h | h
        · exact le_of_lt (daysSinceEpoch_lt h)
        · rw [h]
      omega
    · exact heq
    · have a1 := daysSinceEpoch_succ y
      have a2 : daysSinceEpoch (y + 1) ≤ daysSinceEpoch (yearOfDays d).1 := by
        rcases (show y + 1 < (yearOfDays d).1 ∨ y + 1 = (yearOfDays d).1 by omega) with h | h
        · exact le_of_lt (daysSinceEpoch_lt h)
        · rw [h]
      omega
  ext
  · exact hy
  · simp only []
    rw [← hy]
    omega

theorem db0 : daysBefore 0 = 0 := by decide

theorem db1 : daysBefore 1 = 31 := by decide

theorem db2 : daysBefore 2 = 59 := by decide

theorem db3 : daysBefore 3 = 90 := by decide

theorem db4 : daysBefore 4 = 120 := by decide

theorem db5 : daysBefore 5 = 151 := by decide

theorem db6 : daysBefore 6 = 181 := by decide

theorem db7 : daysBefore 7 = 212 := by decide

theorem db8 : daysBefore 8 = 243 := by decide

theorem db9 : daysBefore 9 = 273 := by decide

theorem db10 : daysBefore 10 = 304 := by decide

theorem db11 : daysBefore 11 = 334 := by decide

theorem db12 : daysBefore 12 = 365 := by decide

theorem monthDayOfYday_spec (leap : Bool) (yd : Int) (h0 : 0 ≤ yd)
    (h1 : yd < 365 + (if leap = true then 1 else 0)) :
    1 ≤ (monthDayOfYday leap yd).1 ∧ (monthDayOfYday leap yd).1 ≤ 12 ∧
    1 ≤ (monthDayOfYday leap yd).2 ∧
    (monthDayOfYday leap yd).2 ≤
      (if (monthDayOfYday leap yd).1 = 2 ∧ leap = true then 29
       else daysBefore (monthDayOfYday leap yd).1 - daysBefore ((monthDayOfYday leap yd).1 - 1)) ∧
    daysBefore ((monthDayOfYday leap yd).1 - 1)
      + (if leap = true ∧ (monthDayOfYday leap yd).1 ≥ 3 then 1 else 0)
      + ((monthDayOfYday leap yd).2 - 1) = yd := by
  unfold monthDayOfYday
  cases leap
  · simp only [Bool.false_eq_true, false_and, and_false, if_false] at h1 ⊢
    have hm : yd / 31 = 0 ∨ yd / 31 = 1 ∨ yd / 31 = 2 ∨ yd / 31 = 3 ∨ yd / 31 = 4 ∨
        yd / 31 = 5 ∨ yd / 31 = 6 ∨ yd / 31 = 7 ∨ yd / 31 = 8 ∨ yd / 31 = 9 ∨ yd / 31 = 10 ∨
        yd / 31 = 11 := by omega
    rcases hm with h | h | h | h | h | h | h | h | h | h | h | h <;>
      simp only [h, Int.reduceAdd, Int.reduceSub, db0, db1, db2, db3, db4, db5, db6, db7, db8,
        db9, db10, db11, db12] <;>
      split_ifs <;>
      simp only [Int.reduceAdd, Int.reduceSub, db0, db1, db2, db3, db4, db5, db6, db7, db8,
        db9, db10, db11, db12] <;> omega
  · simp only [true_and, and_true, if_true] at h1 ⊢
    by_cases h59 : yd = 31 + 29 - 1
    · simp only [h59, if_true, db1, db2, Int.reduceAdd, Int.reduceSub]
      decide
    · simp only [h59, if_false]
      by_cases hgt : yd > 31 + 29 - 1
      · simp only [hgt, if_true]
        have hm : (yd - 1) / 31 = 1 ∨ (yd - 1) / 31 = 2 ∨ (yd - 1) / 31 = 3 ∨
            (yd - 1) / 31 = 4 ∨ (yd - 1) / 31 = 5 ∨ (yd - 1) / 31 = 6 ∨ (yd - 1) / 31 = 7 ∨
            (yd - 1) / 31 = 8 ∨ (yd - 1) / 31 = 9 ∨ (yd - 1) / 31 = 10 ∨
            (yd - 1) / 31 = 11 := by omega
        rcases hm with h | h | h | h | h | h | h | h | h | h | h <;>
          simp only [h, Int.reduceAdd, Int.reduceSub, db0, db1, db2, db3, db4, db5, db6, db7, db8,
            db9, db10, db11, db12] <;>
          split_ifs <;>
          simp only [Int.reduceAdd, Int.reduceSub, db0, db1, db2, db3, db4, db5, db6, db7, db8,
            db9, db10, db11, db12] <;> omega
      · simp only [hgt, if_false]
        have hm : yd / 31 = 0 ∨ yd / 31 = 1 := by omega
        rcases hm with h | h <;>
          simp only [h, Int.reduceAdd, Int.reduceSub, db0, db1, db2, db3, db4, db5, db6, db7, db8,
            db9, db10, db11, db12] <;>
          split_ifs <;>
          simp only [Int.reduceAdd, Int.reduceSub, db0, db1, db2, db3, db4, db5, db6, db7, db8,
            db9, db10, db11, db12] <;> omega

theorem month_cases (m : Int) (h1 : 1 ≤ m) (h12 : m ≤ 12) :
    m = 1 ∨ m = 2 ∨ m = 3 ∨ m = 4 ∨ m = 5 ∨ m = 6 ∨ m = 7 ∨ m = 8 ∨ m = 9 ∨ m = 10 ∨ m = 11 ∨
      m = 12 := by omega

set_option maxHeartbeats 1000000 in
theorem monthDayOfYday_inv (leap : Bool) (m dd : Int) (hm1 : 1 ≤ m) (hm12 : m ≤ 12)
    (hd1 : 1 ≤ dd)
    (hd2 : dd ≤ (if m = 2 ∧ leap = true then 29 else daysBefore m - daysBefore (m - 1))) :
    monthDayOfYday leap
      (daysBefore (m - 1) + (if leap = true ∧ m ≥ 3 then 1 else 0) + (dd - 1)) = (m, dd) := by
  have hyd : 0 ≤ daysBefore (m - 1) + (if leap = true ∧ m ≥ 3 then 1 else 0) + (dd - 1) ∧
      daysBefore (m - 1) + (if leap = true ∧ m ≥ 3 then 1 else 0) + (dd - 1)
        < 365 + (if leap = true then 1 else 0) := by
    rcases month_cases m hm1 hm12 with h | h | h | h | h | h | h | h | h | h | h | h <;>
      subst h <;> cases leap <;>
      simp only [Int.reduceAdd, Int.reduceSub, db0, db1, db2, db3, db4, db5, db6, db7, db8,
        db9, db10, db11, db12, Bool.false_eq_true, false_and, and_false, true_and, and_true,
        if_true, if_false, Int.reduceLE, ge_iff_le, Int.reduceEq] at hd2 ⊢ <;> omega
  have s := monthDayOfYday_spec leap _ hyd.1 hyd.2
  generalize monthDayOfYday leap
      (daysBefore (m - 1) + (if leap = true ∧ m ≥ 3 then 1 else 0) + (dd - 1)) = r at s ⊢
  obtain ⟨m', dd'⟩ := r
  simp only [] at s
  obtain ⟨s1, s2, s3, s4, s5⟩ := s
  rcases month_cases m hm1 hm12 with h | h | h | h | h | h | h | h | h | h | h | h <;>
    subst h <;>
    rcases month_cases m' s1 s2 with h' | h' | h' | h' | h' | h' | h' | h' | h' | h' | h' | h' <;>
    subst h' <;> cases leap <;>
    simp only [Int.reduceAdd, Int.reduceSub, db0, db1, db2, db3, db4, db5, db6, db7, db8,
      db9, db10, db11, db12, Bool.false_eq_true, false_and, and_false, true_and, and_true,
      if_true, if_false, Int.reduceLE, ge_iff_le, Int.reduceEq, Prod.mk.injEq] at hd2 s4 s5 ⊢ <;>
    omega

theorem daysIn_eq (y m : Int) :
    daysIn y m = (if m = 2 ∧ isLeap y = true then 29 else daysBefore m - daysBefore (m - 1)) :=
  rfl

theorem yday_bounds (leap : Bool) (m dd : Int) (hm1 : 1 ≤ m) (hm12 : m ≤ 12) (hd1 : 1 ≤ dd)
    (hd2 : dd ≤ (if m = 2 ∧ leap = true then 29 else daysBefore m - daysBefore (m - 1))) :
    0 ≤ daysBefore (m - 1) + (if leap = true ∧ m ≥ 3 then 1 else 0) + (dd - 1) ∧
      daysBefore (m - 1) + (if leap = true ∧ m ≥ 3 then 1 else 0) + (dd - 1)
        < 365 + (if leap = true then 1 else 0) := by
  rcases month_cases m hm1 hm12 with h | h | h | h | h | h | h | h | h | h | h | h <;>
    subst h <;> cases leap <;>
    simp only [Int.reduceAdd, Int.reduceSub, db0, db1, db2, db3, db4, db5, db6, db7, db8,
      db9, db10, db11, db12, Bool.false_eq_true, false_and, and_false, true_and, and_true,
      if_true, if_false, Int.reduceLE, ge_iff_le, Int.reduceEq] at hd2 ⊢ <;> omega

theorem Time.wall_split (t : Time) :
    t.absDay * 86400 + t.secOfDay = t.unix + t.loc ∧ 0 ≤ t.secOfDay ∧ t.secOfDay < 86400 := by
  unfold absDay secOfDay wall
  omega

theorem Time.of_wall (t : Time) (D sod : Int) (h : t.unix + t.loc = D * 86400 + sod)
    (h0 : 0 ≤ sod) (h1 : sod < 86400) : t.absDay = D ∧ t.secOfDay = sod := by
  unfold absDay secOfDay wall
  omega

theorem Time.clock_spec (t : Time) :
    0 ≤ t.Hour ∧ t.Hour < 24 ∧ 0 ≤ t.Minute ∧ t.Minute < 60 ∧ 0 ≤ t.Second ∧ t.Second < 60 ∧
      t.Hour * 3600 + t.Minute * 60 + t.Second = t.secOfDay := by
  obtain ⟨_, h0, h1⟩ := t.wall_split
  unfold Hour Minute Second
  omega

theorem Time.clock_of_secOfDay (t : Time) (h mi s : Int) (e : t.secOfDay = h * 3600 + mi * 60 + s)
    (_hh : 0 ≤ h ∧ h < 24) (hmi : 0 ≤ mi ∧ mi < 60) (hs : 0 ≤ s ∧ s < 60) :
    t.Hour = h ∧ t.Minute = mi ∧ t.Second = s := by
  unfold Hour Minute Second
  omega

theorem Time.civil_spec (t : Time) :
    1 ≤ t.Month ∧ t.Month ≤ 12 ∧ 1 ≤ t.Day ∧ t.Day ≤ daysIn t.Year t.Month ∧
      daysFromCivil t.Year t.Month t.Day = t.absDay := by
  obtain ⟨e, p0, p1⟩ := yearOfDays_spec t.absDay
  obtain ⟨s1, s2, s3, s4, s5⟩ := monthDayOfYday_spec (isLeap t.Year) t.YearDay p0 p1
  refine ⟨s1, s2, s3, s4, ?_⟩
  unfold daysFromCivil
  have e' : daysSinceEpoch t.Year + t.YearDay = t.absDay := e
  have s5' : daysBefore (t.Month - 1) + (if isLeap t.Year = true ∧ t.Month ≥ 3 then 1 else 0)
      + (t.Day - 1) = t.YearDay := s5
  omega

theorem Time.civil_of_absDay (t : Time) (y m d : Int) (hm1 : 1 ≤ m) (hm12 : m ≤ 12) (hd1 : 1 ≤ d)
    (hd2 : d ≤ daysIn y m) (h : t.absDay = daysFromCivil y m d) :
    t.Year = y ∧ t.Month = m ∧ t.Day = d := by
  rw [daysIn_eq] at hd2
  obtain ⟨b0, b1⟩ := yday_bounds (isLeap y) m d hm1 hm12 hd1 hd2
  have hu := yearOfDays_unique t.absDay y (by rw [h]; unfold daysFromCivil; omega)
    (by rw [h]; unfold daysFromCivil; omega)
  have hyd : t.absDay - daysSinceEpoch y
      = daysBefore (m - 1) + (if isLeap y = true ∧ m ≥ 3 then 1 else 0) + (d - 1) := by
    rw [h]; unfold daysFromCivil; omega
  have hY : t.Year = y := by unfold Year; rw [hu]
  have hYD : t.YearDay = daysBefore (m - 1) + (if isLeap y = true ∧ m ≥ 3 then 1 else 0)
      + (d - 1) := by unfold YearDay; rw [hu]; exact hyd
  have hinv := monthDayOfYday_inv (isLeap y) m d hm1 hm12 hd1 hd2
  refine ⟨hY, ?_, ?_⟩
  · unfold Month; rw [hY, hYD, hinv]
  · unfold Day; rw [hY, hYD, hinv]

theorem Date_self (t : Time) (hv : t.Valid) :
    Date t.Year t.Month t.Day t.Hour t.Minute t.Second t.nsec t.loc = t := by
  obtain ⟨m1, m12, d1, d2, e⟩ := t.civil_spec
  obtain ⟨_, _, _, _, _, _, c⟩ := t.clock_spec
  obtain ⟨w, _, _⟩ := t.wall_split
  obtain ⟨v0, v1⟩ := hv
  rw [Date_eq]
  have a1 : (t.Month - 1) / 12 = 0 := by omega
  have a2 : (t.Month - 1) % 12 + 1 = t.Month := by omega
  rw [a1, a2, add_zero]
  have a3 : daysFromCivil t.Year t.Month 1 + (t.Day - 1) = t.absDay := by
    rw [← e]; unfold daysFromCivil; omega
  rw [a3]
  have a4 : t.nsec / 1000000000 = 0 := by omega
  have a5 : t.nsec % 1000000000 = t.nsec := by omega
  rw [a4, a5]
  cases t with
  | mk u n l =>
    simp only [Time.mk.injEq, and_true]
    simp only [] at w c
    omega

theorem Time.AddDate_days (t : Time) (hv : t.Valid) (d : Int) :
    t.AddDate 0 0 d = { t with unix := t.unix + 86400 * d } := by
  obtain ⟨m1, m12, d1, d2, e⟩ := t.civil_spec
  obtain ⟨_, _, _, _, _, _, c⟩ := t.clock_spec
  obtain ⟨w, _, _⟩ := t.wall_split
  obtain ⟨v0, v1⟩ := hv
  unfold Time.AddDate Time.Nanosecond Time.Location
  rw [Date_eq]
  have a1 : (t.Month + 0 - 1) / 12 = 0 := by omega
  have a2 : (t.Month + 0 - 1) % 12 + 1 = t.Month := by omega
  rw [a1, a2, add_zero, add_zero]
  have a3 : daysFromCivil t.Year t.Month 1 + (t.Day + d - 1) = t.absDay + d := by
    rw [← e]; unfold daysFromCivil; omega
  rw [a3]
  have a4 : t.nsec / 1000000000 = 0 := by omega
  have a5 : t.nsec % 1000000000 = t.nsec := by omega
  rw [a4, a5]
  cases t with
  | mk u n l =>
    simp only [Time.mk.injEq, and_true]
    simp only [] at w c
    omega

theorem Date_fields (y m d h mi s ns loc : Int) (hm : 1 ≤ m ∧ m ≤ 12)
    (hd : 1 ≤ d ∧ d ≤ daysIn y m) (hh : 0 ≤ h ∧ h < 24) (hmi : 0 ≤ mi ∧ mi < 60)
    (hs : 0 ≤ s ∧ s < 60) (hns : 0 ≤ ns ∧ ns < 1000000000) :
    (Date y m d h mi s ns loc).Year = y ∧ (Date y m d h mi s ns loc).Month = m ∧
    (Date y m d h mi s ns loc).Day = d ∧ (Date y m d h mi s ns loc).Hour = h ∧
    (Date y m d h mi s ns loc).Minute = mi ∧ (Date y m d h mi s ns loc).Second = s ∧
    (Date y m d h mi s ns loc).nsec = ns ∧ (Date y m d h mi s ns loc).loc = loc := by
  have a1 : (m - 1) / 12 = 0 := by omega
  have a2 : (m - 1) % 12 + 1 = m := by omega
  have a4 : ns / 1000000000 = 0 := by omega
  have a5 : ns % 1000000000 = ns := by omega
  rw [Date_eq, a1, a2, a4, a5, add_zero, add_zero]
  generalize ht : Time.mk ((daysFromCivil y m 1 + (d - 1)) * 86400 + h * 3600 + mi * 60 + s - loc)
    ns loc = t
  have hu : t.unix = (daysFromCivil y m 1 + (d - 1)) * 86400 + h * 3600 + mi * 60 + s - loc := by
    rw [← ht]
  have hl : t.loc = loc := by rw [← ht]
  have hn : t.nsec = ns := by rw [← ht]
  have a3 : daysFromCivil y m 1 + (d - 1) = daysFromCivil y m d := by
    unfold daysFromCivil; omega
  obtain ⟨w1, w2⟩ := t.of_wall (daysFromCivil y m d) (h * 3600 + mi * 60 + s)
    (by rw [hu, hl, a3]; omega) (by omega) (by omega)
  obtain ⟨c1, c2, c3⟩ := t.civil_of_absDay y m d hm.1 hm.2 hd.1 hd.2 w1
  obtain ⟨k1, k2, k3⟩ := t.clock_of_secOfDay h mi s w2 hh hmi hs
  exact ⟨c1, c2, c3, k1, k2, k3, hn, hl⟩

theorem NewTimeKit_Time (t : Time) : (NewTimeKit t).Time = t := rfl

theorem daysIn_jan (y : Int) : daysIn y 1 = 31 := by
  unfold daysIn
  simp only [db0, db1, Int.reduceSub, Int.reduceEq, false_and, if_false]

theorem Date_valid (y m d h mi s ns loc : Int) : (Date y m d h mi s ns loc).Valid := by
  rw [Date_eq]
  unfold Time.Valid
  simp only []
  omega

theorem Time.Add_seconds (t : Time) (hv : t.Valid) (k : Int) :
    t.Add (k * 1000000000) = { t with unix := t.unix + k } := by
  obtain ⟨v0, v1⟩ := hv
  unfold Time.Add quo rem
  rw [Int.mul_tdiv_cancel _ (by decide), Int.mul_tmod_left]
  simp only [add_zero]
  rw [if_neg (by omega), if_neg (by omega)]

theorem Time.valid_unix (t : Time) (hv : t.Valid) (u : Int) :
    ({ t with unix := u } : Time).Valid := hv

theorem Time.unix_unix (t : Time) (a b : Int) :
    ({ ({ t with unix := t.unix + a } : Time) with
        unix := ({ t with unix := t.unix + a } : Time).unix + b } : Time)
      = { t with unix := t.unix + (a + b) } := by
  cases t
  simp only [Time.mk.injEq, and_true]
  omega

theorem Time.unix_zero (t : Time) : ({ t with unix := t.unix + 0 } : Time) = t := by
  cases t
  simp only [add_zero]

theorem TimeKit.SetTime_SetTime (tk : TimeKit) (a b : Timkit.Time) :
    (tk.SetTime a).SetTime b = tk.SetTime b := rfl

theorem TimeKit.SetTime_self (tk : TimeKit) : tk.SetTime tk.Time = tk := rfl

theorem TimeKit.SetTime_Time (tk : TimeKit) (a : Timkit.Time) : (tk.SetTime a).Time = a := rfl

/-- Adding `a` then `b` times 10^9 nanoseconds with `a + b = 0` gives the instant back. -/
theorem TimeKit.add_roundtrip (tk : TimeKit) (hv : tk.Time.Valid) (a b : Int) (h : a + b = 0) :
    (tk.SetTime (tk.Time.Add (a * 1000000000))).SetTime
      ((tk.SetTime (tk.Time.Add (a * 1000000000))).Time.Add (b * 1000000000)) = tk := by
  rw [TimeKit.SetTime_SetTime, TimeKit.SetTime_Time, Time.Add_seconds _ hv,
    Time.Add_seconds _ (Time.valid_unix _ hv _), Time.unix_unix, h, Time.unix_zero]
  rfl

/-- Adding `a` then `b` days with `a + b = 0` gives the instant back. -/
theorem TimeKit.addDate_days_roundtrip (tk : TimeKit) (hv : tk.Time.Valid) (a b : Int)
    (h : a + b = 0) :
    (tk.SetTime (tk.Time.AddDate 0 0 a)).SetTime
      ((tk.SetTime (tk.Time.AddDate 0 0 a)).Time.AddDate 0 0 b) = tk := by
  rw [TimeKit.SetTime_SetTime, TimeKit.SetTime_Time, Time.AddDate_days _ hv,
    Time.AddDate_days _ (Time.valid_unix _ hv _), Time.unix_unix,
    show 86400 * a + 86400 * b = 0 by omega, Time.unix_zero]
  rfl

theorem daysIn_bounds (y m : Int) (hm1 : 1 ≤ m) (hm12 : m ≤ 12) :
    28 ≤ daysIn y m ∧ daysIn y m ≤ 31 := by
  unfold daysIn
  rcases month_cases m hm1 hm12 with h | h | h | h | h | h | h | h | h | h | h | h <;>
    subst h <;>
    simp only [Int.reduceSub, db0, db1, db2, db3, db4, db5, db6, db7, db8, db9, db10, db11, db12,
      Int.reduceEq, false_and, true_and] <;>
    split_ifs <;> omega

/-- Two first days of a month with the same day number are the same month. -/
theorem month_start_inj (y1 m1 y2 m2 : Int) (h1 : 1 ≤ m1 ∧ m1 ≤ 12) (h2 : 1 ≤ m2 ∧ m2 ≤ 12)
    (e : daysFromCivil y1 m1 1 = daysFromCivil y2 m2 1) : y1 = y2 ∧ m1 = m2 := by
  obtain ⟨w, _⟩ := (Time.mk (daysFromCivil y1 m1 1 * 86400) 0 0).of_wall (daysFromCivil y1 m1 1) 0
    (by simp only []) (by decide) (by decide)
  obtain ⟨a1, a2, _⟩ := (Time.mk (daysFromCivil y1 m1 1 * 86400) 0 0).civil_of_absDay y1 m1 1
    h1.1 h1.2 (by decide) (by have := daysIn_bounds y1 m1 h1.1 h1.2; omega) w
  obtain ⟨b1, b2, _⟩ := (Time.mk (daysFromCivil y1 m1 1 * 86400) 0 0).civil_of_absDay y2 m2 1
    h2.1 h2.2 (by decide) (by have := daysIn_bounds y2 m2 h2.1 h2.2; omega) (by rw [w, e])
  exact ⟨a1.symm.trans b1, a2.symm.trans b2⟩

/-- A calendar addition of years and months that keeps the day of the month is undone by
the opposite addition. -/
theorem Time.AddDate_roundtrip (t : Time) (hv : t.Valid) (dy dm : Int)
    (hday : (t.AddDate dy dm 0).Day = t.Day) :
    (t.AddDate dy dm 0).AddDate (-dy) (-dm) 0 = t := by
  obtain ⟨m1, m12, d1, d2, e⟩ := t.civil_spec
  obtain ⟨c0, c1, c2, c3, c4, c5, c⟩ := t.clock_spec
  obtain ⟨w, s0, s1⟩ := t.wall_split
  obtain ⟨v0, v1⟩ := hv
  have a4 : t.nsec / 1000000000 = 0 := by omega
  have a5 : t.nsec % 1000000000 = t.nsec := by omega
  -- the instant reached
  generalize hr : t.AddDate dy dm 0 = r at hday ⊢
  have hr' : r = Time.mk
      ((daysFromCivil (t.Year + dy + (t.Month + dm - 1) / 12) ((t.Month + dm - 1) % 12 + 1) 1
        + (t.Day + 0 - 1)) * 86400 + t.Hour * 3600 + t.Minute * 60 + t.Second + 0 - t.loc)
      t.nsec t.loc := by
    rw [← hr]
    unfold Time.AddDate Time.Nanosecond Time.Location
    rw [Date_eq, a4, a5]
  have hru : r.unix = (daysFromCivil (t.Year + dy + (t.Month + dm - 1) / 12)
      ((t.Month + dm - 1) % 12 + 1) 1 + (t.Day + 0 - 1)) * 86400 + t.Hour * 3600
        + t.Minute * 60 + t.Second + 0 - t.loc := by rw [hr']
  have hrn : r.nsec = t.nsec := by rw [hr']
  have hrl : r.loc = t.loc := by rw [hr']
  obtain ⟨rw1, rw2⟩ := r.of_wall
    (daysFromCivil (t.Year + dy + (t.Month + dm - 1) / 12) ((t.Month + dm - 1) % 12 + 1) 1
      + (t.Day - 1)) t.secOfDay (by rw [hru, hrl]; omega) s0 s1
  obtain ⟨k1, k2, k3⟩ := r.clock_of_secOfDay t.Hour t.Minute t.Second (by rw [rw2, c])
    ⟨c0, c1⟩ ⟨c2, c3⟩ ⟨c4, c5⟩
  obtain ⟨rm1, rm12, rd1, rd2, re⟩ := r.civil_spec
  have hstart : daysFromCivil r.Year r.Month 1
      = daysFromCivil (t.Year + dy + (t.Month + dm - 1) / 12) ((t.Month + dm - 1) % 12 + 1) 1 := by
    have : daysFromCivil r.Year r.Month r.Day = daysFromCivil r.Year r.Month 1 + (r.Day - 1) := by
      unfold daysFromCivil; omega
    omega
  obtain ⟨hY, hM⟩ := month_start_inj _ _ _ _ ⟨rm1, rm12⟩ ⟨by omega, by omega⟩ hstart
  -- going back
  unfold Time.AddDate Time.Nanosecond Time.Location
  rw [Date_eq, k1, k2, k3, hrn, hrl, a4, a5, hday, hY, hM]
  have b1 : t.Year + dy + (t.Month + dm - 1) / 12 + -dy
      + ((t.Month + dm - 1) % 12 + 1 + -dm - 1) / 12 = t.Year := by omega
  have b2 : ((t.Month + dm - 1) % 12 + 1 + -dm - 1) % 12 + 1 = t.Month := by omega
  rw [b1, b2]
  have a3 : daysFromCivil t.Year t.Month 1 + (t.Day + 0 - 1) = t.absDay := by
    rw [← e]; unfold daysFromCivil; omega
  rw [a3]
  cases t with
  | mk u n l =>
    simp only [Time.mk.injEq, and_true]
    simp only [] at w c
    omega

/-- A calendar addition of years and months keeps a day of the month that is at most 28. -/
theorem Time.AddDate_day_le_28 (t : Time) (hv : t.Valid) (dy dm : Int) (h28 : t.Day ≤ 28) :
    (t.AddDate dy dm 0).Day = t.Day := by
  obtain ⟨m1, m12, d1, d2, e⟩ := t.civil_spec
  obtain ⟨c0, c1, c2, c3, c4, c5, c⟩ := t.clock_spec
  unfold Time.AddDate Time.Nanosecond Time.Location
  have hb := daysIn_bounds (t.Year + dy + (t.Month + dm - 1) / 12) ((t.Month + dm - 1) % 12 + 1)
    (by omega) (by omega)
  have e1 : Date (t.Year + dy) (t.Month + dm) (t.Day + 0) t.Hour t.Minute t.Second t.nsec t.loc
      = Date (t.Year + dy + (t.Month + dm - 1) / 12) ((t.Month + dm - 1) % 12 + 1) t.Day
          t.Hour t.Minute t.Second t.nsec t.loc := by
    rw [Date_eq, Date_eq]
    have b1 : ((t.Month + dm - 1) % 12 + 1 - 1) / 12 = 0 := by omega
    have b2 : ((t.Month + dm - 1) % 12 + 1 - 1) % 12 + 1 = (t.Month + dm - 1) % 12 + 1 := by omega
    rw [b1, b2, add_zero, add_zero]
  rw [e1]
  exact (Date_fields _ _ _ _ _ _ _ _ ⟨by omega, by omega⟩ ⟨d1, by omega⟩ ⟨c0, c1⟩ ⟨c2, c3⟩
    ⟨c4, c5⟩ hv).2.2.1

theorem absoluteValue_false (v : Int) : absoluteValue false v = v := by
  unfold absoluteValue
  simp only [Bool.false_eq_true, false_and, if_false]

theorem absoluteValue_true (v : Int) : absoluteValue true v = |v| := by
  unfold absoluteValue
  simp only [true_and]
  split_ifs with h
  · exact (abs_of_neg h).symm
  · exact (abs_of_nonneg (not_lt.mp h)).symm

theorem TimeKit.Copy_civil (tk : TimeKit) :
    tk.Copy.Time.Year = tk.Time.Year ∧ tk.Copy.Time.Month = tk.Time.Month ∧
      tk.Copy.Time.Day = tk.Time.Day ∧ tk.Copy.Time.Location = tk.Time.Location :=
  ⟨rfl, rfl, rfl, rfl⟩

/-- The value `countMonthDifference` computes before the absolute value is taken. -/
theorem countMonthDifference_eq (t1 t2 : Time) (abs : Bool) :
    countMonthDifference t1 t2 abs = absoluteValue abs
      (12 * (t1.Year - t2.Year) + (t1.Month - t2.Month) - (if t1.Day < t2.Day then 1 else 0)) := by
  obtain ⟨a1, a12, _, _, _⟩ := t1.civil_spec
  obtain ⟨b1, b12, _, _, _⟩ := t2.civil_spec
  unfold countMonthDifference
  simp only []
  congr 1
  by_cases hd : t1.Day < t2.Day
  · simp only [hd, if_true, and_true]
    rw [rem_of_nonneg (by omega) (by decide)]
    split_ifs <;> omega
  · simp only [hd, if_false, and_false, or_false]
    rw [rem_of_nonneg (by omega) (by decide)]
    split_ifs <;> omega

theorem TimeKit.AddDays_eq (tk : TimeKit) (hv : tk.Time.Valid) (d : Int) :
    tk.AddDays d = tk.SetTime { tk.Time with unix := tk.Time.unix + 86400 * d } := by
  unfold TimeKit.AddDays
  rw [Time.AddDate_days _ hv]

theorem TimeKit.AddDays_valid (tk : TimeKit) (hv : tk.Time.Valid) (d : Int) :
    (tk.AddDays d).Time.Valid := by
  rw [TimeKit.AddDays_eq _ hv]
  exact hv

theorem TimeKit.AddDays_weekendDays (tk : TimeKit) (d : Int) :
    (tk.AddDays d).weekendDays = tk.weekendDays := rfl

theorem TimeKit.AddDays_zero (tk : TimeKit) (hv : tk.Time.Valid) : tk.AddDays 0 = tk := by
  rw [TimeKit.AddDays_eq _ hv]
  simp only [mul_zero, Time.unix_zero]
  rfl

theorem TimeKit.AddDays_AddDays (tk : TimeKit) (hv : tk.Time.Valid) (a b : Int) :
    (tk.AddDays a).AddDays b = tk.AddDays (a + b) := by
  rw [TimeKit.AddDays_eq _ (TimeKit.AddDays_valid _ hv a), TimeKit.AddDays_eq _ hv,
    TimeKit.AddDays_eq _ hv, TimeKit.SetTime_SetTime, TimeKit.SetTime_Time, Time.unix_unix,
    show 86400 * a + 86400 * b = 86400 * (a + b) by omega]

theorem TimeKit.AddDays_absDay (tk : TimeKit) (hv : tk.Time.Valid) (d : Int) :
    (tk.AddDays d).Time.absDay = tk.Time.absDay + d ∧
      (tk.AddDays d).Time.secOfDay = tk.Time.secOfDay ∧
      (tk.AddDays d).Time.nsec = tk.Time.nsec ∧ (tk.AddDays d).Time.loc = tk.Time.loc := by
  rw [TimeKit.AddDays_eq _ hv, TimeKit.SetTime_Time]
  unfold Time.absDay Time.secOfDay Time.wall
  refine ⟨?_, ?_, rfl, rfl⟩ <;> simp only [] <;> omega

theorem TimeKit.AddDays_Weekday (tk : TimeKit) (hv : tk.Time.Valid) (d : Int) :
    (tk.AddDays d).Time.Weekday = (tk.Time.Weekday + d) % 7 := by
  unfold Time.Weekday
  rw [(TimeKit.AddDays_absDay tk hv d).1]
  omega

theorem Time.Weekday_range (t : Time) : 0 ≤ t.Weekday ∧ t.Weekday ≤ 6 := by
  unfold Time.Weekday
  omega

theorem TimeKit.IsWeekday_default (tk : TimeKit) (hw : tk.weekendDays = [Saturday, Sunday]) :
    tk.IsWeekday = true ↔ (tk.Time.Weekday ≠ 6 ∧ tk.Time.Weekday ≠ 0) := by
  unfold TimeKit.IsWeekday TimeKit.IsWeekend
  rw [hw]
  simp [Saturday, Sunday]

theorem TimeKit.addWeekdaysLoop_zero (step wd : Int) (tk : TimeKit) :
    TimeKit.addWeekdaysLoop step 0 wd tk = if wd > 0 then none else some tk := by
  rw [TimeKit.addWeekdaysLoop]

theorem TimeKit.addWeekdaysLoop_succ (step wd : Int) (fuel : Nat) (tk : TimeKit) :
    TimeKit.addWeekdaysLoop step (fuel + 1) wd tk =
      if wd > 0 then
        TimeKit.addWeekdaysLoop step fuel
          (if (tk.AddDays step).IsWeekday = true then wd - 1 else wd) (tk.AddDays step)
      else some tk := by
  rw [TimeKit.addWeekdaysLoop]

/-- Counting the weekdays among the first `k + 1` days stepped onto: the first day, then the
`k` days stepped onto from there. -/
theorem TimeKit.countP_weekdays_succ (tk : TimeKit) (hv : tk.Time.Valid) (step : Int) (k : Nat) :
    (List.range (k + 1)).countP (fun i : Nat => (tk.AddDays (step * ((i : Int) + 1))).IsWeekday)
      = (if (tk.AddDays step).IsWeekday = true then 1 else 0)
        + (List.range k).countP
            (fun i : Nat => ((tk.AddDays step).AddDays (step * ((i : Int) + 1))).IsWeekday) := by
  rw [List.range_succ_eq_map, List.countP_cons, List.countP_map]
  have e0 : tk.AddDays (step * (((0 : Nat) : Int) + 1)) = tk.AddDays step := by
    simp only [Nat.cast_zero, zero_add, mul_one]
  have ef : ((fun i : Nat => (tk.AddDays (step * ((i : Int) + 1))).IsWeekday) ∘ Nat.succ)
      = (fun i : Nat => ((tk.AddDays step).AddDays (step * ((i : Int) + 1))).IsWeekday) := by
    funext i
    simp only [Function.comp_apply, Nat.succ_eq_add_one, Nat.cast_add, Nat.cast_one]
    rw [TimeKit.AddDays_AddDays _ hv]
    congr 2
    ring
  rw [e0, ef]
  omega

theorem TimeKit.addWeekdaysLoop_spec (step : Int) (hs : step = 1 ∨ step = -1) :
    ∀ (fuel : Nat) (wd : Int) (tk : TimeKit), tk.Time.Valid →
      tk.weekendDays = [Saturday, Sunday] → 0 ≤ wd →
      3 * wd ≤ fuel + (if step = 1
          then (if tk.Time.Weekday = 6 then 1 else if tk.Time.Weekday = 0 then 2 else 0)
          else (if tk.Time.Weekday = 0 then 1 else if tk.Time.Weekday = 6 then 2 else 0)) →
      ∃ k : Nat, TimeKit.addWeekdaysLoop step fuel wd tk = some (tk.AddDays (step * k)) ∧
        (((List.range k).countP
          (fun i : Nat => (tk.AddDays (step * ((i : Int) + 1))).IsWeekday) : Nat) : Int) = wd ∧
        (∀ j : Nat, j < k → (((List.range j).countP
          (fun i : Nat => (tk.AddDays (step * ((i : Int) + 1))).IsWeekday) : Nat) : Int) < wd) ∧
        (wd = 0 → k = 0) ∧ (0 < wd → (tk.AddDays (step * k)).IsWeekday = true) := by
  intro fuel
  induction fuel with
  | zero =>
    intro wd tk hv hw h0 hf
    have hr := tk.Time.Weekday_range
    have hwd : wd = 0 := by split_ifs at hf <;> omega
    subst hwd
    refine ⟨0, ?_, ?_, ?_, ?_, ?_⟩
    · rw [TimeKit.addWeekdaysLoop_zero, if_neg (by decide)]
      simp only [Nat.cast_zero, mul_zero, TimeKit.AddDays_zero _ hv]
    · simp only [List.range_zero, List.countP_nil, Nat.cast_zero]
    · intro j hj; omega
    · intro _; rfl
    · intro h; omega
  | succ fuel ih =>
    intro wd tk hv hw h0 hf
    have hr := tk.Time.Weekday_range
    by_cases hpos : wd > 0
    · rw [TimeKit.addWeekdaysLoop_succ, if_pos hpos]
      have hv' := TimeKit.AddDays_valid tk hv step
      have hw' : (tk.AddDays step).weekendDays = [Saturday, Sunday] := hw
      have hwk := TimeKit.AddDays_Weekday tk hv step
      have hiw := TimeKit.IsWeekday_default (tk.AddDays step) hw'
      have hr' := (tk.AddDays step).Time.Weekday_range
      by_cases hday : (tk.AddDays step).IsWeekday = true
      · have hne := hiw.1 hday
        obtain ⟨k, e, c, l, z, w⟩ := ih (wd - 1) (tk.AddDays step) hv' hw' (by omega) (by
          rcases hs with h | h <;> subst h <;> simp only [Int.reduceNeg, Int.reduceEq, if_true,
            if_false] at hf ⊢ <;> split_ifs at hf ⊢ <;> omega)
        refine ⟨k + 1, ?_, ?_, ?_, ?_, ?_⟩
        · rw [if_pos hday, e, TimeKit.AddDays_AddDays _ hv]
          congr 2
          push_cast
          ring
        · rw [TimeKit.countP_weekdays_succ _ hv, if_pos hday]
          push_cast
          omega
        · intro j hj
          cases j with
          | zero => simp only [List.range_zero, List.countP_nil, Nat.cast_zero]; omega
          | succ j =>
            rw [TimeKit.countP_weekdays_succ _ hv, if_pos hday]
            have := l j (by omega)
            push_cast
            omega
        · intro h; omega
        · intro _
          by_cases h1 : 0 < wd - 1
          · have := w h1
            rw [TimeKit.AddDays_AddDays _ hv] at this
            rw [← this]
            congr 2
            push_cast
            ring
          · have hk := z (by omega)
            subst hk
            simp only [Nat.cast_zero, zero_add, Nat.cast_one, mul_one]
            exact hday
      · have hne : ¬ ((tk.AddDays step).Time.Weekday ≠ 6 ∧ (tk.AddDays step).Time.Weekday ≠ 0) :=
          fun h => hday (hiw.2 h)
        obtain ⟨k, e, c, l, z, w⟩ := ih wd (tk.AddDays step) hv' hw' h0 (by
          rcases hs with h | h <;> subst h <;> simp only [Int.reduceNeg, Int.reduceEq, if_true,
            if_false] at hf ⊢ <;> split_ifs at hf ⊢ <;> omega)
        refine ⟨k + 1, ?_, ?_, ?_, ?_, ?_⟩
        · rw [if_neg hday, e, TimeKit.AddDays_AddDays _ hv]
          congr 2
          push_cast
          ring
        · rw [TimeKit.countP_weekdays_succ _ hv, if_neg hday]
          push_cast
          omega
        · intro j hj
          cases j with
          | zero => simp only [List.range_zero, List.countP_nil, Nat.cast_zero]; omega
          | succ j =>
            rw [TimeKit.countP_weekdays_succ _ hv, if_neg hday]
            have := l j (by omega)
            push_cast
            omega
        · intro h; omega
        · intro h1
          have := w h1
          rw [TimeKit.AddDays_AddDays _ hv] at this
          rw [← this]
          congr 2
          push_cast
          ring
    · have hwd : wd = 0 := by omega
      subst hwd
      refine ⟨0, ?_, ?_, ?_, ?_, ?_⟩
      · rw [TimeKit.addWeekdaysLoop_succ, if_neg (by decide)]
        simp only [Nat.cast_zero, mul_zero, TimeKit.AddDays_zero _ hv]
      · simp only [List.range_zero, List.countP_nil, Nat.cast_zero]
      · intro j hj; omega
      · intro _; rfl
      · intro h; omega

/-- The instant `Date` builds from the date of `t` and a clock reading. -/
theorem Date_of_day (t : Time) (h mi s : Int) :
    Date t.Year t.Month t.Day h mi s 0 t.Location
      = Time.mk (t.absDay * 86400 + (h * 3600 + mi * 60 + s) - t.loc) 0 t.loc := by
  obtain ⟨m1, m12, d1, d2, e⟩ := t.civil_spec
  unfold Time.Location
  rw [Date_eq]
  have a1 : (t.Month - 1) / 12 = 0 := by omega
  have a2 : (t.Month - 1) % 12 + 1 = t.Month := by omega
  rw [a1, a2, add_zero]
  have a3 : daysFromCivil t.Year t.Month 1 + (t.Day - 1) = t.absDay := by
    rw [← e]; unfold daysFromCivil; omega
  rw [a3]
  simp only [Time.mk.injEq, and_true, Int.zero_ediv, Int.zero_emod]
  omega

theorem TimeKit.weekLoop_zero (target step : Int) (t : Timkit.Time) :
    TimeKit.weekLoop target step 0 t = if t.Weekday ≠ target then none else some t := by
  rw [TimeKit.weekLoop]

theorem TimeKit.weekLoop_succ (target step : Int) (fuel : Nat) (t : Timkit.Time) :
    TimeKit.weekLoop target step (fuel + 1) t =
      if t.Weekday ≠ target then TimeKit.weekLoop target step fuel (t.AddDate 0 0 step)
      else some t := by
  rw [TimeKit.weekLoop]

/-- The loop of `StartOfWeek` and `EndOfWeek` stops after as many moves as the target day of
the week is away in the direction of `step`, which is at most 6. -/
theorem TimeKit.weekLoop_spec (target step : Int) (hs : step = 1 ∨ step = -1)
    (ht : 0 ≤ target ∧ target ≤ 6) :
    ∀ (fuel : Nat) (t : Timkit.Time), t.Valid → (step * (target - t.Weekday)) % 7 ≤ fuel →
      TimeKit.weekLoop target step fuel t
        = some ({ t with unix := t.unix + 86400 * (step * ((step * (target - t.Weekday)) % 7)) }
            : Timkit.Time) := by
  intro fuel
  induction fuel with
  | zero =>
    intro t hv hf
    have hr := t.Weekday_range
    have hw : t.Weekday = target := by rcases hs with h | h <;> subst h <;> omega
    rw [TimeKit.weekLoop_zero, if_neg (not_not.mpr hw), hw]
    simp only [sub_self, mul_zero, Int.zero_emod, Time.unix_zero]
  | succ fuel ih =>
    intro t hv hf
    have hr := t.Weekday_range
    rw [TimeKit.weekLoop_succ]
    by_cases hw : t.Weekday = target
    · rw [if_neg (not_not.mpr hw), hw]
      simp only [sub_self, mul_zero, Int.zero_emod, Time.unix_zero]
    · rw [if_pos hw, Time.AddDate_days _ hv]
      have hwk : ({ t with unix := t.unix + 86400 * step } : Timkit.Time).Weekday
          = (t.Weekday + step) % 7 := by
        unfold Time.Weekday Time.absDay Time.wall
        simp only []
        omega
      have hstep : (step * (target - ({ t with unix := t.unix + 86400 * step } : Timkit.Time).Weekday)) % 7
          = (step * (target - t.Weekday)) % 7 - 1 := by
        rw [hwk]
        rcases hs with h | h <;> subst h <;> omega
      rw [ih _ (Time.valid_unix _ hv _) (by rw [hstep]; omega), hstep, Time.unix_unix]
      congr 2
      rcases hs with h | h <;> subst h <;> omega

/-- The week loop started at a clock reading `sod` of the date of `t`: where it stops. -/
theorem TimeKit.weekLoop_of_day (t : Timkit.Time) (target step sod : Int)
    (hs : step = 1 ∨ step = -1) (ht : 0 ≤ target ∧ target ≤ 6) (h0 : 0 ≤ sod) (h1 : sod < 86400) :
    ∃ (r : Timkit.Time) (k : Nat), k ≤ 6 ∧
      (∀ fuel : Nat, k ≤ fuel →
        TimeKit.weekLoop target step fuel (Time.mk (t.absDay * 86400 + sod - t.loc) 0 t.loc)
          = some r) ∧
      r.absDay = t.absDay + step * k ∧ r.secOfDay = sod ∧ r.nsec = 0 ∧ r.loc = t.loc ∧
      r.Weekday = target ∧
      (∀ u : Timkit.Time, step * (u.absDay - t.absDay) ≥ 0 → u.Weekday = target →
        step * (u.absDay - r.absDay) ≥ 0) := by
  have hr := t.Weekday_range
  have hWt : t.Weekday = (t.absDay + 4) % 7 := rfl
  have hv0 : (Time.mk (t.absDay * 86400 + sod - t.loc) 0 t.loc).Valid :=
    ⟨le_refl (0 : Int), show (0 : Int) < 1000000000 by decide⟩
  obtain ⟨a0, _⟩ := (Time.mk (t.absDay * 86400 + sod - t.loc) 0 t.loc).of_wall t.absDay sod
    (by simp only []; omega) h0 h1
  have hw0 : (Time.mk (t.absDay * 86400 + sod - t.loc) 0 t.loc).Weekday = t.Weekday := by
    unfold Time.Weekday; rw [a0]
  obtain ⟨j, hj⟩ : ∃ j : Int, j = (step * (target - t.Weekday)) % 7 := ⟨_, rfl⟩
  have hk0 : 0 ≤ j ∧ j ≤ 6 := by omega
  refine ⟨Time.mk ((t.absDay * 86400 + sod - t.loc) + 86400 * (step * j)) 0 t.loc,
    j.toNat, by omega, ?_, ?_⟩
  · intro fuel hf
    have := TimeKit.weekLoop_spec target step hs ht fuel _ hv0 (by rw [hw0, ← hj]; omega)
    rw [this, hw0, ← hj]
  · have hcast : ((j.toNat : Nat) : Int) = j := Int.toNat_of_nonneg hk0.1
    rw [hcast]
    obtain ⟨b0, b1⟩ := (Time.mk ((t.absDay * 86400 + sod - t.loc) + 86400 * (step * j)) 0
      t.loc).of_wall (t.absDay + step * j) sod (by simp only []; omega) h0 h1
    have hWr : (Time.mk ((t.absDay * 86400 + sod - t.loc) + 86400 * (step * j)) 0 t.loc).Weekday
        = (t.absDay + step * j + 4) % 7 := by
      unfold Time.Weekday; rw [b0]
    have hwr : (Time.mk ((t.absDay * 86400 + sod - t.loc) + 86400 * (step * j)) 0 t.loc).Weekday
        = target := by
      rw [hWr]
      rcases hs with h | h <;> subst h <;> omega
    refine ⟨b0, b1, rfl, rfl, hwr, ?_⟩
    intro u hu huw
    have hWu : u.Weekday = (u.absDay + 4) % 7 := rfl
    rw [b0]
    rcases hs with h | h <;> subst h <;> omega

/-- The first day of the following month comes `daysIn` days after the first day of a month. -/
theorem daysFromCivil_next_month (y m : Int) (hm1 : 1 ≤ m) (hm12 : m ≤ 12) :
    daysFromCivil (y + m / 12) (m % 12 + 1) 1 = daysFromCivil y m 1 + daysIn y m := by
  have hs := daysSinceEpoch_succ y
  unfold daysFromCivil daysIn
  rcases month_cases m hm1 hm12 with h | h | h | h | h | h | h | h | h | h | h | h <;>
    subst h <;>
    simp only [Int.reduceAdd, Int.reduceSub, Int.reduceDiv, Int.reduceMod, db0, db1, db2, db3,
      db4, db5, db6, db7, db8, db9, db10, db11, db12, Int.reduceEq, false_and, true_and,
      Int.reduceLE, ge_iff_le, and_false, and_true, if_false, add_zero] <;>
    split_ifs at hs ⊢ <;> omega

/-- What `EndOfMonth` computes: midnight at the start of the last day of the month. -/
theorem TimeKit.EndOfMonth_eq (tk : TimeKit) :
    tk.EndOfMonth = tk.SetTime
      (Date tk.Time.Year tk.Time.Month (daysIn tk.Time.Year tk.Time.Month) 0 0 0 0
        tk.Time.Location) := by
  obtain ⟨m1, m12, _, _, _⟩ := tk.Time.civil_spec
  have hb := daysIn_bounds tk.Time.Year tk.Time.Month m1 m12
  obtain ⟨fY, fM, fD, fH, fMi, fS, fN, fL⟩ := Date_fields tk.Time.Year tk.Time.Month 1 0 0 0 0
    tk.Time.Location ⟨m1, m12⟩ ⟨by decide, by omega⟩ (by decide) (by decide) (by decide) (by decide)
  have fL' : (Date tk.Time.Year tk.Time.Month 1 0 0 0 0 tk.Time.Location).Location
      = tk.Time.Location := fL
  unfold TimeKit.EndOfMonth Time.AddDate Time.Nanosecond
  rw [fY, fM, fD, fH, fMi, fS, fN, fL']
  congr 1
  rw [Date_eq, Date_eq]
  have a1 : (tk.Time.Month - 1) / 12 = 0 := by omega
  have a2 : (tk.Time.Month - 1) % 12 + 1 = tk.Time.Month := by omega
  have a3 : tk.Time.Year + 0 + (tk.Time.Month + 1 - 1) / 12 = tk.Time.Year + tk.Time.Month / 12 := by
    omega
  have a4 : (tk.Time.Month + 1 - 1) % 12 + 1 = tk.Time.Month % 12 + 1 := by omega
  rw [a1, a2, a3, a4, daysFromCivil_next_month _ _ m1 m12]
  simp only [Time.mk.injEq, and_true, add_zero]
  omega

theorem daysIn_dec (y : Int) : daysIn y 12 = 31 := by
  unfold daysIn
  simp only [db11, db12, Int.reduceSub, Int.reduceEq, false_and, if_false]

theorem quo_neg (a b : Int) : quo (-a) b = -quo a b := Int.neg_tdiv a b

/-- Go's quotient by a positive number in terms of the floor quotient of the magnitude. -/
theorem quo_eq (a b : Int) (hb : 0 ≤ b) :
    quo a b = if 0 ≤ a then a / b else -((-a) / b) := by
  split_ifs with h
  · exact quo_of_nonneg h hb
  · have : quo a b = -quo (-a) b := by rw [quo_neg, neg_neg]
    rw [this, quo_of_nonneg (by omega) hb]

/-- Swapping the operands of the signed `DiffInSeconds` changes its sign. -/
theorem TimeKit.DiffInSeconds_swap (now : Int) (tk t : TimeKit) :
    tk.DiffInSeconds now (some t) false = -(t.DiffInSeconds now (some tk) false) := by
  have h : ∀ (a b : TimeKit),
      a.DiffInSeconds now (some b) false = absoluteValue false (b.Time.unix - a.Time.unix) :=
    fun _ _ => rfl
  rw [h, h, absoluteValue_false, absoluteValue_false]
  omega

/-- One month after the first day of a month, less one day, is the last day of that month,
at the same clock reading. -/
theorem Date_last_day (y m h mi s loc : Int) (hm : 1 ≤ m ∧ m ≤ 12) (hh : 0 ≤ h ∧ h < 24)
    (hmi : 0 ≤ mi ∧ mi < 60) (hs : 0 ≤ s ∧ s < 60) :
    (Date y m 1 h mi s 0 loc).AddDate 0 1 (-1) = Date y m (daysIn y m) h mi s 0 loc := by
  have hb := daysIn_bounds y m hm.1 hm.2
  obtain ⟨fY, fM, fD, fH, fMi, fS, fN, fL⟩ := Date_fields y m 1 h mi s 0 loc hm
    ⟨by decide, by omega⟩ hh hmi hs (by decide)
  have fL' : (Date y m 1 h mi s 0 loc).Location = loc := fL
  unfold Time.AddDate Time.Nanosecond
  rw [fY, fM, fD, fH, fMi, fS, fN, fL', Date_eq, Date_eq]
  have a1 : (m - 1) / 12 = 0 := by omega
  have a2 : (m - 1) % 12 + 1 = m := by omega
  have a3 : y + 0 + (m + 1 - 1) / 12 = y + m / 12 := by omega
  have a4 : (m + 1 - 1) % 12 + 1 = m % 12 + 1 := by omega
  rw [a1, a2, a3, a4, daysFromCivil_next_month _ _ hm.1 hm.2]
  simp only [Time.mk.injEq, and_true, add_zero]
  omega

theorem TimeKit.Quarter_eq (tk : TimeKit) :
    tk.Quarter = (tk.Time.Month + 2) / 3 ∧ 1 ≤ tk.Quarter ∧ tk.Quarter ≤ 4 := by
  obtain ⟨m1, m12, _, _, _⟩ := tk.Time.civil_spec
  unfold TimeKit.Quarter
  simp only []
  split_ifs <;> omega

/-- The fields of a calendar addition of years and months to an instant whose day of the
month is at most 28. -/
theorem Time.AddDate_fields (t : Time) (hv : t.Valid) (dy dm : Int) (h28 : t.Day ≤ 28) :
    (t.AddDate dy dm 0).Year = t.Year + dy + (t.Month + dm - 1) / 12 ∧
    (t.AddDate dy dm 0).Month = (t.Month + dm - 1) % 12 + 1 ∧
    (t.AddDate dy dm 0).Day = t.Day ∧ (t.AddDate dy dm 0).Hour = t.Hour ∧
    (t.AddDate dy dm 0).Minute = t.Minute ∧ (t.AddDate dy dm 0).Second = t.Second ∧
    (t.AddDate dy dm 0).nsec = t.nsec ∧ (t.AddDate dy dm 0).loc = t.loc := by
  obtain ⟨m1, m12, d1, d2, e⟩ := t.civil_spec
  obtain ⟨c0, c1, c2, c3, c4, c5, c⟩ := t.clock_spec
  unfold Time.AddDate Time.Nanosecond Time.Location
  have hb := daysIn_bounds (t.Year + dy + (t.Month + dm - 1) / 12) ((t.Month + dm - 1) % 12 + 1)
    (by omega) (by omega)
  have e1 : Date (t.Year + dy) (t.Month + dm) (t.Day + 0) t.Hour t.Minute t.Second t.nsec t.loc
      = Date (t.Year + dy + (t.Month + dm - 1) / 12) ((t.Month + dm - 1) % 12 + 1) t.Day
          t.Hour t.Minute t.Second t.nsec t.loc := by
    rw [Date_eq, Date_eq]
    have b1 : ((t.Month + dm - 1) % 12 + 1 - 1) / 12 = 0 := by omega
    have b2 : ((t.Month + dm - 1) % 12 + 1 - 1) % 12 + 1 = (t.Month + dm - 1) % 12 + 1 := by omega
    rw [b1, b2, add_zero, add_zero]
  rw [e1]
  exact Date_fields _ _ _ _ _ _ _ _ ⟨by omega, by omega⟩ ⟨d1, by omega⟩ ⟨c0, c1⟩ ⟨c2, c3⟩
    ⟨c4, c5⟩ hv

/-- Where the naive addition of `n` months lands: in the target month on the same day when
that day exists there, and otherwise in the month after the target, on the day left over. -/
theorem Time.AddDate_months_class (t : Time) (hv : t.Valid) (n : Int) :
    (t.Day ≤ daysIn (norm t.Year (t.Month + n - 1) 12).1 ((norm t.Year (t.Month + n - 1) 12).2 + 1) →
      (t.AddDate 0 n 0).Year = (norm t.Year (t.Month + n - 1) 12).1 ∧
      (t.AddDate 0 n 0).Month = (norm t.Year (t.Month + n - 1) 12).2 + 1 ∧
      (t.AddDate 0 n 0).Day = t.Day) ∧
    (daysIn (norm t.Year (t.Month + n - 1) 12).1 ((norm t.Year (t.Month + n - 1) 12).2 + 1) < t.Day →
      ¬ ((t.AddDate 0 n 0).Year = (norm t.Year (t.Month + n - 1) 12).1 ∧
        (t.AddDate 0 n 0).Month = (norm t.Year (t.Month + n - 1) 12).2 + 1) ∧
      (t.AddDate 0 n 0).Day
        = t.Day - daysIn (norm t.Year (t.Month + n - 1) 12).1
            ((norm t.Year (t.Month + n - 1) 12).2 + 1) ∧
      (t.AddDate 0 n 0).Day ≠ t.Day) := by
  obtain ⟨m1, m12, d1, d2, e⟩ := t.civil_spec
  obtain ⟨c0, c1, c2, c3, c4, c5, c⟩ := t.clock_spec
  obtain ⟨w, s0, s1⟩ := t.wall_split
  obtain ⟨v0, v1⟩ := hv
  have hd31 : t.Day ≤ 31 := by
    have := daysIn_bounds t.Year t.Month m1 m12; omega
  rw [norm_eq _ _ 12 (by decide)]
  simp only []
  generalize hY : t.Year + (t.Month + n - 1) / 12 = Y
  generalize hM : (t.Month + n - 1) % 12 + 1 = M
  have hM1 : 1 ≤ M ∧ M ≤ 12 := by omega
  have hb := daysIn_bounds Y M hM1.1 hM1.2
  have a4 : t.nsec / 1000000000 = 0 := by omega
  -- the day number of the naive result
  obtain ⟨r1, _⟩ := (t.AddDate 0 n 0).of_wall (daysFromCivil Y M 1 + (t.Day - 1)) t.secOfDay
    (by
      unfold Time.AddDate Time.Nanosecond Time.Location
      rw [Date_eq, a4]
      have b1 : t.Year + 0 + (t.Month + n - 1) / 12 = Y := by omega
      rw [b1, hM]
      simp only []
      omega) s0 s1
  constructor
  · intro hle
    exact (t.AddDate 0 n 0).civil_of_absDay Y M t.Day hM1.1 hM1.2 d1 hle
      (by rw [r1]; unfold daysFromCivil; omega)
  · intro hgt
    have hnext := daysFromCivil_next_month Y M hM1.1 hM1.2
    have hM2 : 1 ≤ M % 12 + 1 ∧ M % 12 + 1 ≤ 12 := by omega
    have hb2 := daysIn_bounds (Y + M / 12) (M % 12 + 1) hM2.1 hM2.2
    obtain ⟨k1, k2, k3⟩ := (t.AddDate 0 n 0).civil_of_absDay (Y + M / 12) (M % 12 + 1)
      (t.Day - daysIn Y M) hM2.1 hM2.2 (by omega) (by omega)
      (by
        rw [r1]
        have : daysFromCivil (Y + M / 12) (M % 12 + 1) (t.Day - daysIn Y M)
            = daysFromCivil (Y + M / 12) (M % 12 + 1) 1 + (t.Day - daysIn Y M - 1) := by
          unfold daysFromCivil; omega
        rw [this, hnext]; omega)
    refine ⟨?_, k3, by rw [k3]; omega⟩
    rw [k1, k2]
    intro h
    omega

/-- The number of days `AddWeekdays` moves, in closed form.  With `a` the number of weekdays
already behind in the current week in the direction of travel (4 on a weekend day) and `s`
the number of weekend days already behind, `wd > 0` weekdays take
`7 * ((a + wd) / 5) + (a + wd) % 5 - a - s` days. -/
theorem TimeKit.addWeekdaysLoop_closed (step : Int) (hs : step = 1 ∨ step = -1) :
    ∀ (fuel : Nat) (wd : Int) (tk : TimeKit) (a s : Int), tk.Time.Valid →
      tk.weekendDays = [Saturday, Sunday] → 0 ≤ wd →
      a = (if tk.Time.Weekday = 0 ∨ tk.Time.Weekday = 6 then 4
            else if step = 1 then tk.Time.Weekday - 1 else 5 - tk.Time.Weekday) →
      s = (if step = 1
            then (if tk.Time.Weekday = 6 then 1 else if tk.Time.Weekday = 0 then 2 else 0)
            else (if tk.Time.Weekday = 0 then 1 else if tk.Time.Weekday = 6 then 2 else 0)) →
      (if wd = 0 then 0 else 7 * ((a + wd) / 5) + (a + wd) % 5 - a - s) ≤ fuel →
      TimeKit.addWeekdaysLoop step fuel wd tk
        = some (tk.AddDays
            (step * (if wd = 0 then 0 else 7 * ((a + wd) / 5) + (a + wd) % 5 - a - s))) := by
  intro fuel
  induction fuel with
  | zero =>
    intro wd tk a s hv hw h0 ha hsl hf
    have hr := tk.Time.Weekday_range
    have hwd : wd = 0 := by
      by_contra hne
      rw [if_neg hne] at hf
      rcases hs with h | h <;> subst h <;>
        simp only [Int.reduceNeg, Int.reduceEq, if_true, if_false] at ha hsl <;>
        split_ifs at ha hsl <;> omega
    subst hwd
    rw [TimeKit.addWeekdaysLoop_zero, if_neg (by decide)]
    simp only [if_true, mul_zero, TimeKit.AddDays_zero _ hv]
  | succ fuel ih =>
    intro wd tk a s hv hw h0 ha hsl hf
    have hr := tk.Time.Weekday_range
    by_cases hpos : wd > 0
    · have hne : ¬ wd = 0 := by omega
      rw [if_neg hne] at hf ⊢
      rw [TimeKit.addWeekdaysLoop_succ, if_pos hpos]
      have hv' := TimeKit.AddDays_valid tk hv step
      have hw' : (tk.AddDays step).weekendDays = [Saturday, Sunday] := hw
      have hwk := TimeKit.AddDays_Weekday tk hv step
      have hiw := TimeKit.IsWeekday_default (tk.AddDays step) hw'
      have hr' := (tk.AddDays step).Time.Weekday_range
      -- the closed form one day on
      obtain ⟨a', ha'⟩ : ∃ a' : Int, a' = (if (tk.AddDays step).Time.Weekday = 0
            ∨ (tk.AddDays step).Time.Weekday = 6 then 4
          else if step = 1 then (tk.AddDays step).Time.Weekday - 1
          else 5 - (tk.AddDays step).Time.Weekday) := ⟨_, rfl⟩
      obtain ⟨s', hs'⟩ : ∃ s' : Int, s' = (if step = 1
          then (if (tk.AddDays step).Time.Weekday = 6 then 1
            else if (tk.AddDays step).Time.Weekday = 0 then 2 else 0)
          else (if (tk.AddDays step).Time.Weekday = 0 then 1
            else if (tk.AddDays step).Time.Weekday = 6 then 2 else 0)) := ⟨_, rfl⟩
      by_cases hday : (tk.AddDays step).IsWeekday = true
      · have hnw := hiw.1 hday
        rw [if_pos hday]
        have key : (if wd - 1 = 0 then 0
              else 7 * ((a' + (wd - 1)) / 5) + (a' + (wd - 1)) % 5 - a' - s') + 1
            = 7 * ((a + wd) / 5) + (a + wd) % 5 - a - s := by
          rcases hs with h | h <;> subst h <;>
            simp only [Int.reduceNeg, Int.reduceEq, if_true, if_false] at ha hsl ha' hs' <;>
            split_ifs at ha hsl ha' hs' ⊢ <;> omega
        rw [ih (wd - 1) (tk.AddDays step) a' s' hv' hw' (by omega) ha' hs' (by omega),
          TimeKit.AddDays_AddDays _ hv, ← key]
        congr 2
        ring
      · have hnw : ¬ ((tk.AddDays step).Time.Weekday ≠ 6 ∧ (tk.AddDays step).Time.Weekday ≠ 0) :=
          fun h => hday (hiw.2 h)
        rw [if_neg hday]
        have key : (if wd = 0 then 0
              else 7 * ((a' + wd) / 5) + (a' + wd) % 5 - a' - s') + 1
            = 7 * ((a + wd) / 5) + (a + wd) % 5 - a - s := by
          rw [if_neg hne]
          rcases hs with h | h <;> subst h <;>
            simp only [Int.reduceNeg, Int.reduceEq, if_true, if_false] at ha hsl ha' hs' <;>
            split_ifs at ha hsl ha' hs' <;> omega
        rw [ih wd (tk.AddDays step) a' s' hv' hw' h0 ha' hs' (by omega),
          TimeKit.AddDays_AddDays _ hv, ← key]
        congr 2
        ring
    · have hwd : wd = 0 := by omega
      subst hwd
      rw [TimeKit.addWeekdaysLoop_succ, if_neg (by decide)]
      simp only [if_true, mul_zero, TimeKit.AddDays_zero _ hv]

theorem TimeKit.diffFilteredLoop_zero (now : Int) (start : TimeKit) (duration step : Int)
    (f : Filter) (e : TimeKit) (d : Int) :
    TimeKit.diffFilteredLoop now start duration step f 0 e d =
      if step = 0 then some (Except.error "integer divide by zero")
      else if quo (start.DiffInSeconds now (some e) true) step > 0 then none
      else some (Except.ok d) := by
  rw [TimeKit.diffFilteredLoop]

theorem TimeKit.diffFilteredLoop_succ (now : Int) (start : TimeKit) (duration step : Int)
    (f : Filter) (fuel : Nat) (e : TimeKit) (d : Int) :
    TimeKit.diffFilteredLoop now start duration step f (fuel + 1) e d =
      if step = 0 then some (Except.error "integer divide by zero")
      else if quo (start.DiffInSeconds now (some e) true) step > 0 then
        TimeKit.diffFilteredLoop now start duration step f fuel
          (e.SetTime (e.Time.Add (-duration))) (if f e = true then d + 1 else d)
      else some (Except.ok d) := by
  rw [TimeKit.diffFilteredLoop]

theorem TimeKit.DiffInSeconds_abs (now : Int) (a b : TimeKit) :
    a.DiffInSeconds now (some b) true = |b.Time.unix - a.Time.unix| := by
  have h : a.DiffInSeconds now (some b) true = absoluteValue true (b.Time.unix - a.Time.unix) :=
    rfl
  rw [h, absoluteValue_true]

/-- The walk of `DiffInDaysFiltered` with the weekday predicate from a point `j` whole days
after `start`: it tests the `j` days ending at the day of that point and adds the number of
weekdays among them, written here as a difference of running weekday counts. -/
theorem TimeKit.diffFilteredLoop_weekdays (now : Int) (start : TimeKit) :
    ∀ (fuel j : Nat) (e : TimeKit) (d : Int), e.Time.Valid →
      e.weekendDays = [Saturday, Sunday] → e.Time.unix = start.Time.unix + 86400 * j →
      j ≤ fuel →
      TimeKit.diffFilteredLoop now start (86400 * 1000000000) 86400
          (fun k => k.IsWeekday) fuel e d
        = some (Except.ok (d + (5 * ((e.Time.absDay + 3) / 7) + min ((e.Time.absDay + 3) % 7 + 1) 5
            - (5 * ((e.Time.absDay - j + 3) / 7) + min ((e.Time.absDay - j + 3) % 7 + 1) 5)))) := by
  intro fuel
  induction fuel with
  | zero =>
    intro j e d hv hw hu hj
    have hj0 : j = 0 := by omega
    subst hj0
    rw [TimeKit.diffFilteredLoop_zero, if_neg (by decide), TimeKit.DiffInSeconds_abs, hu]
    simp only [Nat.cast_zero, mul_zero, add_zero, sub_self, abs_zero, sub_zero]
    rw [if_neg (by decide)]
  | succ fuel ih =>
    intro j e d hv hw hu hj
    rw [TimeKit.diffFilteredLoop_succ, if_neg (by decide), TimeKit.DiffInSeconds_abs, hu]
    have hgap : |start.Time.unix + 86400 * (j : Int) - start.Time.unix| = 86400 * (j : Int) := by
      rw [abs_of_nonneg (by omega)]; omega
    rw [hgap, quo_of_nonneg (by omega) (by decide)]
    cases j with
    | zero =>
      simp only [Nat.cast_zero, mul_zero, Int.zero_ediv, sub_zero, sub_self, add_zero]
      rw [if_neg (by decide)]
    | succ j =>
      rw [if_pos (by push_cast; omega)]
      have hadd : e.Time.Add (-(86400 * 1000000000))
          = { e.Time with unix := e.Time.unix + (-86400) } := by
        rw [show (-(86400 * 1000000000) : Int) = (-86400) * 1000000000 by decide]
        exact Time.Add_seconds _ hv _
      rw [hadd]
      have hday : ({ e.Time with unix := e.Time.unix + (-86400) } : Timkit.Time).absDay
          = e.Time.absDay - 1 := by
        unfold Time.absDay Time.wall
        simp only []
        omega
      have hiw := TimeKit.IsWeekday_default e hw
      have hW : e.Time.Weekday = (e.Time.absDay + 4) % 7 := rfl
      have hu' : (e.SetTime { e.Time with unix := e.Time.unix + (-86400) }).Time.unix
          = start.Time.unix + 86400 * (j : Int) := by
        rw [TimeKit.SetTime_Time]
        simp only []
        rw [hu]
        push_cast
        omega
      rw [ih j (e.SetTime { e.Time with unix := e.Time.unix + (-86400) })
        (if (fun k : TimeKit => k.IsWeekday) e = true then d + 1 else d)
        (Time.valid_unix _ hv _) hw hu' (by omega), TimeKit.SetTime_Time, hday]
      congr 2
      simp only []
      push_cast
      by_cases hd : e.IsWeekday = true
      · rw [if_pos hd]
        have := hiw.1 hd
        omega
      · rw [if_neg hd]
        have : ¬ (e.Time.Weekday ≠ 6 ∧ e.Time.Weekday ≠ 0) := fun h => hd (hiw.2 h)
        omega

theorem TimeKit.Copy_Time (tk : TimeKit) :
    tk.Copy.Time = Time.mk tk.Time.unix 0 tk.Time.loc ∧
      tk.Copy.weekendDays = [Saturday, Sunday] ∧ tk.Copy.Time.Valid :=
  ⟨rfl, rfl, ⟨le_refl (0 : Int), show (0 : Int) < 1000000000 by decide⟩⟩

/-- A step of less than one second makes the loop test of `DiffFiltered` divide by zero. -/
theorem TimeKit.diffFilteredLoop_step_zero (now : Int) (start : TimeKit) (duration : Int)
    (f : Filter) (fuel : Nat) (e : TimeKit) (d : Int) :
    TimeKit.diffFilteredLoop now start duration 0 f fuel e d
      = some (Except.error "integer divide by zero") := by
  cases fuel with
  | zero => rw [TimeKit.diffFilteredLoop_zero, if_pos rfl]
  | succ n => rw [TimeKit.diffFilteredLoop_succ, if_pos rfl]

/-- Moving back by one and a half seconds lowers the Unix seconds by 1 or 2. -/
theorem Time.Add_minus_1500ms (t : Time) (hv : t.Valid) :
    (t.Add (-1500000000)).Valid ∧ (t.Add (-1500000000)).unix < t.unix := by
  obtain ⟨v0, v1⟩ := hv
  have hq : quo (-1500000000) 1000000000 = -1 := by decide
  have hr : rem (-1500000000) 1000000000 = -500000000 := by decide
  unfold Time.Add
  rw [hq, hr]
  simp only []
  rw [if_neg (by omega)]
  unfold Time.Valid
  split_ifs <;> simp only [] <;> omega

/-- Once the walking point of `DiffFiltered` is before `start`, a walk by one and a half
seconds against a step of one second never ends. -/
theorem TimeKit.diffFilteredLoop_overshoot (now : Int) (start : TimeKit) (f : Filter) :
    ∀ (fuel : Nat) (e : TimeKit) (d : Int), e.Time.Valid → e.Time.unix < start.Time.unix →
      TimeKit.diffFilteredLoop now start 1500000000 1 f fuel e d = none := by
  intro fuel
  induction fuel with
  | zero =>
    intro e d hv hlt
    rw [TimeKit.diffFilteredLoop_zero, if_neg (by decide), TimeKit.DiffInSeconds_abs,
      quo_of_nonneg (abs_nonneg _) (by decide), Int.ediv_one,
      if_pos (abs_pos.mpr (by omega))]
  | succ fuel ih =>
    intro e d hv hlt
    obtain ⟨hv', hlt'⟩ := e.Time.Add_minus_1500ms hv
    rw [TimeKit.diffFilteredLoop_succ, if_neg (by decide), TimeKit.DiffInSeconds_abs,
      quo_of_nonneg (abs_nonneg _) (by decide), Int.ediv_one,
      if_pos (abs_pos.mpr (by omega))]
    exact ih _ _ hv' (by rw [TimeKit.SetTime_Time]; omega)

/-- The walk of `DiffFiltered` by a whole number `s > 0` of seconds from a point at or after
`start`: it returns within as many runs of the body as whole steps fit in the gap, and
counts at most that many. -/
theorem TimeKit.diffFilteredLoop_whole (now : Int) (start : TimeKit) (f : Filter) (s : Int)
    (hs : 0 < s) :
    ∀ (fuel : Nat) (e : TimeKit) (d : Int), e.Time.Valid → start.Time.unix ≤ e.Time.unix →
      (e.Time.unix - start.Time.unix) / s ≤ fuel →
      ∃ r : Int, TimeKit.diffFilteredLoop now start (s * 1000000000) s f fuel e d
          = some (Except.ok r) ∧ d ≤ r ∧ r ≤ d + (e.Time.unix - start.Time.unix) / s := by
  intro fuel
  induction fuel with
  | zero =>
    intro e d hv hle hf
    have hg : 0 ≤ e.Time.unix - start.Time.unix := by omega
    have hq := Int.ediv_nonneg hg (le_of_lt hs)
    refine ⟨d, ?_, le_refl _, by omega⟩
    rw [TimeKit.diffFilteredLoop_zero, if_neg (ne_of_gt hs), TimeKit.DiffInSeconds_abs,
      abs_of_nonneg hg, quo_of_nonneg hg (le_of_lt hs), if_neg (by omega)]
  | succ fuel ih =>
    intro e d hv hle hf
    have hg : 0 ≤ e.Time.unix - start.Time.unix := by omega
    have hq := Int.ediv_nonneg hg (le_of_lt hs)
    rw [TimeKit.diffFilteredLoop_succ, if_neg (ne_of_gt hs), TimeKit.DiffInSeconds_abs,
      abs_of_nonneg hg, quo_of_nonneg hg (le_of_lt hs)]
    by_cases hpos : (e.Time.unix - start.Time.unix) / s > 0
    · rw [if_pos hpos]
      have hge : s ≤ e.Time.unix - start.Time.unix := by
        have := (Int.le_ediv_iff_mul_le hs).1 (show 1 ≤ (e.Time.unix - start.Time.unix) / s by omega)
        omega
      have hadd : e.Time.Add (-(s * 1000000000)) = { e.Time with unix := e.Time.unix + (-s) } := by
        rw [show -(s * 1000000000) = (-s) * 1000000000 by ring]
        exact Time.Add_seconds _ hv _
      have hdiv : (e.Time.unix + (-s) - start.Time.unix) / s
          = (e.Time.unix - start.Time.unix) / s - 1 := by
        have := Int.add_mul_ediv_right (e.Time.unix - start.Time.unix) (-1) (ne_of_gt hs)
        rw [show e.Time.unix + (-s) - start.Time.unix
          = e.Time.unix - start.Time.unix + (-1) * s by ring, this]
        omega
      rw [hadd]
      obtain ⟨r, hr, r1, r2⟩ := ih (e.SetTime { e.Time with unix := e.Time.unix + (-s) })
        (if f e = true then d + 1 else d) (Time.valid_unix _ hv _)
        (by rw [TimeKit.SetTime_Time]; simp only []; omega)
        (by rw [TimeKit.SetTime_Time]; simp only []; rw [hdiv]; omega)
      rw [TimeKit.SetTime_Time] at r2
      simp only [] at r2
      rw [hdiv] at r2
      refine ⟨r, hr, ?_, ?_⟩
      · split_ifs at r1 <;> omega
      · split_ifs at r2 <;> omega
    · rw [if_neg hpos]
      exact ⟨d, rfl, le_refl _, by omega⟩

/-- Two successive truncating quotients by 60 are one by 3600. -/
theorem quo_60_60 (x : Int) : quo (quo x 60) 60 = quo x 3600 := by
  rw [quo_eq x 60 (by decide), quo_eq x 3600 (by decide)]
  split_ifs with h
  · rw [quo_of_nonneg (by omega) (by decide)]; omega
  · rw [quo_neg, quo_of_nonneg (by omega) (by decide)]; omega

/-- Successive truncating quotients by 3600 and 24 are one by 86400. -/
theorem quo_3600_24 (x : Int) : quo (quo x 3600) 24 = quo x 86400 := by
  rw [quo_eq x 3600 (by decide), quo_eq x 86400 (by decide)]
  split_ifs with h
  · rw [quo_of_nonneg (by omega) (by decide)]; omega
  · rw [quo_neg, quo_of_nonneg (by omega) (by decide)]; omega

/-- The value of `DiffInHours` as one truncating quotient of the difference of the Unix
seconds. -/
theorem TimeKit.DiffInHours_eq (now : Int) (a b : TimeKit) (abs : Bool) :
    a.DiffInHours now (some b) abs
      = quo (absoluteValue abs (b.Time.unix - a.Time.unix)) 3600 := by
  have h : a.DiffInHours now (some b) abs
      = quo (quo (absoluteValue abs (b.Time.unix - a.Time.unix)) 60) 60 := rfl
  rw [h, quo_60_60]

/-- The value of `DiffInDays` as one truncating quotient of the difference of the Unix
seconds. -/
theorem TimeKit.DiffInDays_eq (now : Int) (a b : TimeKit) (abs : Bool) :
    a.DiffInDays now (some b) abs
      = quo (absoluteValue abs (b.Time.unix - a.Time.unix)) 86400 := by
  have h : a.DiffInDays now (some b) abs
      = quo (quo (quo (absoluteValue abs (b.Time.unix - a.Time.unix)) 60) 60) 24 := rfl
  rw [h, quo_60_60, quo_3600_24]

/-- The walk of `DiffFiltered` by a whole number `s > 0` of seconds from a point at or after
`start` returns within as many runs of the body as whole steps fit in the gap; it counts at
most that many, and exactly that many when the predicate holds everywhere. -/
theorem TimeKit.diffFilteredLoop_count (now : Int) (start : TimeKit) (f : Filter) (s : Int)
    (hs : 0 < s) :
    ∀ (fuel : Nat) (e : TimeKit) (d : Int), e.Time.Valid → start.Time.unix ≤ e.Time.unix →
      (e.Time.unix - start.Time.unix) / s ≤ fuel →
      ∃ r : Int, TimeKit.diffFilteredLoop now start (s * 1000000000) s f fuel e d
          = some (Except.ok r) ∧ d ≤ r ∧ r ≤ d + (e.Time.unix - start.Time.unix) / s ∧
        ((∀ k : TimeKit, f k = true) → r = d + (e.Time.unix - start.Time.unix) / s) := by
  intro fuel
  induction fuel with
  | zero =>
    intro e d hv hle hf
    have hg : 0 ≤ e.Time.unix - start.Time.unix := by omega
    have hq := Int.ediv_nonneg hg (le_of_lt hs)
    refine ⟨d, ?_, le_refl _, by omega, fun _ => by omega⟩
    rw [TimeKit.diffFilteredLoop_zero, if_neg (ne_of_gt hs), TimeKit.DiffInSeconds_abs,
      abs_of_nonneg hg, quo_of_nonneg hg (le_of_lt hs), if_neg (by omega)]
  | succ fuel ih =>
    intro e d hv hle hf
    have hg : 0 ≤ e.Time.unix - start.Time.unix := by omega
    have hq := Int.ediv_nonneg hg (le_of_lt hs)
    rw [TimeKit.diffFilteredLoop_succ, if_neg (ne_of_gt hs), TimeKit.DiffInSeconds_abs,
      abs_of_nonneg hg, quo_of_nonneg hg (le_of_lt hs)]
    by_cases hpos : (e.Time.unix - start.Time.unix) / s > 0
    · rw [if_pos hpos]
      have hge : s ≤ e.Time.unix - start.Time.unix := by
        have := (Int.le_ediv_iff_mul_le hs).1 (show 1 ≤ (e.Time.unix - start.Time.unix) / s by omega)
        omega
      have hadd : e.Time.Add (-(s * 1000000000)) = { e.Time with unix := e.Time.unix + (-s) } := by
        rw [show -(s * 1000000000) = (-s) * 1000000000 by ring]
        exact Time.Add_seconds _ hv _
      have hdiv : (e.Time.unix + (-s) - start.Time.unix) / s
          = (e.Time.unix - start.Time.unix) / s - 1 := by
        have := Int.add_mul_ediv_right (e.Time.unix - start.Time.unix) (-1) (ne_of_gt hs)
        rw [show e.Time.unix + (-s) - start.Time.unix
          = e.Time.unix - start.Time.unix + (-1) * s by ring, this]
        omega
      rw [hadd]
      obtain ⟨r, hr, r1, r2, r3⟩ := ih (e.SetTime { e.Time with unix := e.Time.unix + (-s) })
        (if f e = true then d + 1 else d) (Time.valid_unix _ hv _)
        (by rw [TimeKit.SetTime_Time]; simp only []; omega)
        (by rw [TimeKit.SetTime_Time]; simp only []; rw [hdiv]; omega)
      rw [TimeKit.SetTime_Time] at r2 r3
      simp only [] at r2 r3
      rw [hdiv] at r2 r3
      refine ⟨r, hr, ?_, ?_, ?_⟩
      · split_ifs at r1 <;> omega
      · split_ifs at r2 <;> omega
      · intro hall
        have := r3 hall
        rw [if_pos (hall e)] at this
        omega
    · rw [if_neg hpos]
      exact ⟨d, rfl, le_refl _, by omega, fun _ => by omega⟩

/-- The result of `DiffFiltered` for a unit of a whole number `s > 0` of seconds: it
returns within as many runs of the loop body as whole units fit in the gap, the count `r` it
has made is between 0 and that number and equal to it when the predicate holds everywhere,
and the result is `r` negated when the receiver has the larger Unix seconds, passed through
the absolute value. -/
theorem TimeKit.DiffFiltered_whole (now : Int) (tk u : TimeKit) (f : Filter) (abs : Bool)
    (fuel : Nat) (s : Int) (hs : 0 < s) (hf : |u.Time.unix - tk.Time.unix| / s ≤ fuel) :
    ∃ r : Int, 0 ≤ r ∧ r ≤ |u.Time.unix - tk.Time.unix| / s ∧
      ((∀ k : TimeKit, f k = true) → r = |u.Time.unix - tk.Time.unix| / s) ∧
      tk.DiffFiltered fuel now (some u) (s * Second) f abs
        = some (Except.ok (absoluteValue abs (if u.Time.unix < tk.Time.unix then -r else r))) := by
  obtain ⟨aT, _, aV⟩ := tk.Copy_Time
  obtain ⟨bT, _, bV⟩ := u.Copy_Time
  have hstep : quo (s * Second) Second = s := by
    unfold quo Second
    exact Int.mul_tdiv_cancel _ (by decide)
  unfold TimeKit.DiffFiltered TimeKit.orNow
  simp only []
  rw [hstep, show s * Second = s * 1000000000 from rfl]
  by_cases hafter : tk.Copy.Time.After u.Copy.Time = true
  · have hlt : u.Time.unix < tk.Time.unix := by
      unfold Time.After at hafter
      rw [aT, bT] at hafter
      have := of_decide_eq_true hafter
      simp only [] at this
      omega
    have habs : |u.Time.unix - tk.Time.unix| = tk.Time.unix - u.Time.unix := by
      rw [abs_of_neg (by omega)]; omega
    rw [habs] at hf ⊢
    rw [hafter]
    simp only [if_true, swap]
    obtain ⟨r, hr, r1, r2, r3⟩ := TimeKit.diffFilteredLoop_count now u.Copy f s hs fuel
      tk.Copy 0 aV (by rw [aT, bT]; simp only []; omega)
      (by rw [aT, bT]; simp only []; exact hf)
    rw [aT, bT] at r2 r3
    simp only [] at r2 r3
    rw [hr]
    refine ⟨r, r1, by omega, fun hall => by have := r3 hall; omega, ?_⟩
    simp only []
    rw [if_pos hlt]
  · have hle : tk.Time.unix ≤ u.Time.unix := by
      by_contra hc
      apply hafter
      unfold Time.After
      rw [aT, bT]
      exact decide_eq_true (Or.inl (by simp only []; omega))
    have habs : |u.Time.unix - tk.Time.unix| = u.Time.unix - tk.Time.unix :=
      abs_of_nonneg (by omega)
    rw [habs] at hf ⊢
    rw [Bool.not_eq_true] at hafter
    rw [hafter]
    simp only [Bool.false_eq_true, if_false]
    obtain ⟨r, hr, r1, r2, r3⟩ := TimeKit.diffFilteredLoop_count now tk.Copy f s hs fuel
      u.Copy 0 bV (by rw [aT, bT]; simp only []; omega)
      (by rw [aT, bT]; simp only []; exact hf)
    rw [aT, bT] at r2 r3
    simp only [] at r2 r3
    rw [hr]
    refine ⟨r, r1, by omega, fun hall => by have := r3 hall; omega, ?_⟩
    simp only []
    rw [if_neg (by omega)]

/-- The value of `DiffInMonths` for two dates in the same location. -/
theorem TimeKit.DiffInMonths_eq (now : Int) (tk t : TimeKit) (abs : Bool)
    (hloc : tk.Time.Location = t.Time.Location) :
    tk.DiffInMonths now (some t) abs = absoluteValue abs
      (12 * (tk.Time.Year - t.Time.Year) + (tk.Time.Month - t.Time.Month)
        - (if tk.Time.Day < t.Time.Day then 1 else 0)) := by
  obtain ⟨a1, a2, a3, a4⟩ := tk.Copy_civil
  obtain ⟨b1, b2, b3, b4⟩ := t.Copy_civil
  unfold TimeKit.DiffInMonths TimeKit.orNow
  simp only []
  rw [if_neg (by rw [a4, b4]; exact not_not.mpr hloc), countMonthDifference_eq,
    a1, a2, a3, b1, b2, b3]

/-- Go's remainder by a positive number in terms of the floor remainder of the magnitude. -/
theorem rem_eq (a b : Int) (hb : 0 ≤ b) :
    rem a b = if 0 ≤ a then a % b else -((-a) % b) := by
  split_ifs with h
  · exact rem_of_nonneg h hb
  · have hq := quo_eq a b hb
    rw [if_neg h] at hq
    have hr : rem a b = a - b * quo a b := Int.tmod_def a b
    rw [hr, hq, Int.emod_def]
    ring

/-- The year `StartOfCentury` computes and the year `EndOfCentury` computes. -/
theorem century_years (y : Int) :
    rem (y - rem y 100) 100 = 0 ∧
    (-100 < y → rem (y - 1 - rem y 100 + 100) 100 = 99) ∧
    (y ≤ -100 → rem (y - 1 - rem y 100 + 100) 100 = -1) := by
  rw [rem_eq y 100 (by decide)]
  refine ⟨?_, ?_, ?_⟩
  · rw [rem_eq _ 100 (by decide)]
    split_ifs <;> omega
  · intro h
    rw [rem_eq _ 100 (by decide)]
    split_ifs <;> omega
  · intro h
    rw [rem_eq _ 100 (by decide)]
    split_ifs <;> omega

/-- An operation that sets the instant to a date and clock reading computed from the year,
month and day of its receiver is idempotent when the date it computes from its own result
is that date again. -/
theorem TimeKit.date_op_idem (op : TimeKit → TimeKit) (y m d : Timkit.Time → Int)
    (h mi s : Int)
    (hop : ∀ k : TimeKit,
      op k = k.SetTime (Date (y k.Time) (m k.Time) (d k.Time) h mi s 0 k.Time.Location))
    (hr : ∀ t : Timkit.Time, (1 ≤ m t ∧ m t ≤ 12) ∧ (1 ≤ d t ∧ d t ≤ daysIn (y t) (m t)))
    (hh : 0 ≤ h ∧ h < 24) (hmi : 0 ≤ mi ∧ mi < 60) (hs : 0 ≤ s ∧ s < 60)
    (hfix : ∀ t r : Timkit.Time, r.Year = y t → r.Month = m t → r.Day = d t →
      y r = y t ∧ m r = m t ∧ d r = d t)
    (tk : TimeKit) : op (op tk) = op tk := by
  obtain ⟨gY, gM, gD, _, _, _, _, gL⟩ := Date_fields (y tk.Time) (m tk.Time) (d tk.Time) h mi s 0
    tk.Time.Location (hr tk.Time).1 (hr tk.Time).2 hh hmi hs (by decide)
  obtain ⟨fY, fM, fD⟩ := hfix tk.Time _ gY gM gD
  have fL : (Date (y tk.Time) (m tk.Time) (d tk.Time) h mi s 0 tk.Time.Location).Location
      = tk.Time.Location := gL
  rw [hop (op tk), hop tk, TimeKit.SetTime_SetTime, TimeKit.SetTime_Time, fY, fM, fD, fL]

theorem TimeKit.StartOfDay_idem (tk : TimeKit) : tk.StartOfDay.StartOfDay = tk.StartOfDay :=
  TimeKit.date_op_idem TimeKit.StartOfDay Time.Year Time.Month Time.Day 0 0 0 (fun _ => rfl)
    (fun t => by obtain ⟨a, b, c, d, _⟩ := t.civil_spec; exact ⟨⟨a, b⟩, c, d⟩)
    (by decide) (by decide) (by decide) (fun _ _ a b c => ⟨a, b, c⟩) tk

theorem TimeKit.EndOfDay_idem (tk : TimeKit) : tk.EndOfDay.EndOfDay = tk.EndOfDay :=
  TimeKit.date_op_idem TimeKit.EndOfDay Time.Year Time.Month Time.Day 23 59 59 (fun _ => rfl)
    (fun t => by obtain ⟨a, b, c, d, _⟩ := t.civil_spec; exact ⟨⟨a, b⟩, c, d⟩)
    (by decide) (by decide) (by decide) (fun _ _ a b c => ⟨a, b, c⟩) tk

theorem TimeKit.StartOfMonth_idem (tk : TimeKit) :
    tk.StartOfMonth.StartOfMonth = tk.StartOfMonth :=
  TimeKit.date_op_idem TimeKit.StartOfMonth Time.Year Time.Month (fun _ => 1) 0 0 0
    (fun _ => rfl)
    (fun t => by
      obtain ⟨a, b, _⟩ := t.civil_spec
      have := daysIn_bounds t.Year t.Month a b
      beta_reduce
      exact ⟨⟨a, b⟩, le_refl _, by omega⟩)
    (by decide) (by decide) (by decide) (fun _ _ a b _ => ⟨a, b, rfl⟩) tk

theorem TimeKit.EndOfMonth_idem (tk : TimeKit) : tk.EndOfMonth.EndOfMonth = tk.EndOfMonth :=
  TimeKit.date_op_idem TimeKit.EndOfMonth Time.Year Time.Month
    (fun t => daysIn t.Year t.Month) 0 0 0 TimeKit.EndOfMonth_eq
    (fun t => by
      obtain ⟨a, b, _⟩ := t.civil_spec
      have := daysIn_bounds t.Year t.Month a b
      beta_reduce
      exact ⟨⟨a, b⟩, by omega, le_refl _⟩)
    (by decide) (by decide) (by decide)
    (fun _ _ a b _ => ⟨a, b, by simp only []; rw [a, b]⟩) tk

theorem TimeKit.StartOfYear_idem (tk : TimeKit) : tk.StartOfYear.StartOfYear = tk.StartOfYear :=
  TimeKit.date_op_idem TimeKit.StartOfYear Time.Year (fun _ => 1) (fun _ => 1) 0 0 0
    (fun _ => rfl)
    (fun t => by
      beta_reduce
      rw [daysIn_jan]
      decide)
    (by decide) (by decide) (by decide) (fun _ _ a _ _ => ⟨a, rfl, rfl⟩) tk

theorem TimeKit.EndOfYear_idem (tk : TimeKit) : tk.EndOfYear.EndOfYear = tk.EndOfYear :=
  TimeKit.date_op_idem TimeKit.EndOfYear Time.Year (fun _ => 12) (fun _ => 31) 23 59 59
    (fun _ => rfl)
    (fun t => by
      beta_reduce
      rw [daysIn_dec]
      decide)
    (by decide) (by decide) (by decide) (fun _ _ a _ _ => ⟨a, rfl, rfl⟩) tk

theorem TimeKit.StartOfCentury_idem (tk : TimeKit) :
    tk.StartOfCentury.StartOfCentury = tk.StartOfCentury :=
  TimeKit.date_op_idem TimeKit.StartOfCentury (fun t => t.Year - rem t.Year 100)
    (fun _ => 1) (fun _ => 1) 0 0 0 (fun _ => rfl)
    (fun t => by
      beta_reduce
      rw [daysIn_jan]
      decide)
    (by decide) (by decide) (by decide)
    (fun t r a _ _ => ⟨by simp only []; rw [a, (century_years t.Year).1, sub_zero], rfl, rfl⟩) tk

theorem TimeKit.StartOfQuarter_idem (tk : TimeKit) :
    tk.StartOfQuarter.StartOfQuarter = tk.StartOfQuarter :=
  TimeKit.date_op_idem TimeKit.StartOfQuarter Time.Year
    (fun t => ((t.Month + 2) / 3 - 1) * 3 + 1) (fun _ => 1) 0 0 0
    (fun k => by
      unfold TimeKit.StartOfQuarter monthsPerQuarter
      rw [k.Quarter_eq.1])
    (fun t => by
      obtain ⟨a, b, _⟩ := t.civil_spec
      have := daysIn_bounds t.Year (((t.Month + 2) / 3 - 1) * 3 + 1) (by omega) (by omega)
      beta_reduce
      exact ⟨⟨by omega, by omega⟩, le_refl _, by omega⟩)
    (by decide) (by decide) (by decide)
    (fun _ _ a b _ => by
      beta_reduce at b ⊢
      exact ⟨a, by rw [b]; omega, rfl⟩) tk

theorem TimeKit.EndOfQuarter_idem (tk : TimeKit) :
    tk.EndOfQuarter.EndOfQuarter = tk.EndOfQuarter :=
  TimeKit.date_op_idem TimeKit.EndOfQuarter Time.Year
    (fun t => (t.Month + 2) / 3 * 3) (fun t => daysIn t.Year ((t.Month + 2) / 3 * 3)) 23 59 59
    (fun k => by
      obtain ⟨a, b, _⟩ := k.Time.civil_spec
      unfold TimeKit.EndOfQuarter monthsPerQuarter
      beta_reduce
      simp only []
      rw [k.Quarter_eq.1, Date_last_day _ _ _ _ _ _ ⟨by omega, by omega⟩ (by decide) (by decide)
        (by decide)])
    (fun t => by
      obtain ⟨a, b, _⟩ := t.civil_spec
      have := daysIn_bounds t.Year ((t.Month + 2) / 3 * 3) (by omega) (by omega)
      beta_reduce
      exact ⟨⟨by omega, by omega⟩, by omega, le_refl _⟩)
    (by decide) (by decide) (by decide)
    (fun t r a b _ => by
      beta_reduce at b
      have hm : (r.Month + 2) / 3 * 3 = (t.Month + 2) / 3 * 3 := by
        rw [b]; omega
      beta_reduce
      rw [hm, a]
      exact ⟨rfl, rfl, rfl⟩) tk

/-- The year of the result of `EndOfCentury`, and the effect of a second application:
none for a year above -100, one century forward for a year of -100 or below. -/
theorem TimeKit.EndOfCentury_twice (tk : TimeKit) :
    tk.EndOfCentury.Time.Year = tk.Time.Year - 1 - rem tk.Time.Year 100 + 100 ∧
    (-100 < tk.Time.Year → tk.EndOfCentury.EndOfCentury = tk.EndOfCentury) ∧
    (tk.Time.Year ≤ -100 →
      tk.EndOfCentury.EndOfCentury.Time.Year = tk.EndOfCentury.Time.Year + 100) := by
  have hop : ∀ k : TimeKit, k.EndOfCentury = k.SetTime
      (Date (k.Time.Year - 1 - rem k.Time.Year 100 + 100) 12 31 23 59 59 0 k.Time.Location) :=
    fun _ => rfl
  have hf : ∀ (y l : Int), (Date y 12 31 23 59 59 0 l).Year = y ∧
      (Date y 12 31 23 59 59 0 l).Location = l := by
    intro y l
    obtain ⟨gY, _, _, _, _, _, _, gL⟩ := Date_fields y 12 31 23 59 59 0 l (by decide)
      ⟨by decide, by rw [daysIn_dec]⟩ (by decide) (by decide) (by decide) (by decide)
    exact ⟨gY, gL⟩
  obtain ⟨_, c1, c2⟩ := century_years tk.Time.Year
  have h1 : tk.EndOfCentury.Time.Year = tk.Time.Year - 1 - rem tk.Time.Year 100 + 100 := by
    rw [hop, TimeKit.SetTime_Time, (hf _ _).1]
  refine ⟨h1, ?_, ?_⟩
  · intro h
    rw [hop tk.EndOfCentury, h1, c1 h]
    rw [hop tk, TimeKit.SetTime_SetTime, TimeKit.SetTime_Time, (hf _ _).2]
    congr 2
    omega
  · intro h
    rw [hop tk.EndOfCentury, TimeKit.SetTime_Time, (hf _ _).1, h1, c2 h]
    omega

/-- The week loop started at an instant that is already on the day of the week it looks for
returns that instant, whatever the bound on its moves. -/
theorem TimeKit.weekLoop_fixed (target step : Int) (fuel : Nat) (t : Timkit.Time)
    (h : t.Weekday = target) : TimeKit.weekLoop target step fuel t = some t := by
  cases fuel with
  | zero => rw [TimeKit.weekLoop_zero, if_neg (not_not.mpr h)]
  | succ n => rw [TimeKit.weekLoop_succ, if_neg (not_not.mpr h)]

/-- The date of an instant with a whole number of seconds, at the clock reading the instant
has, is the instant. -/
theorem Date_of_day_self (t : Time) (h mi s : Int) (hn : t.nsec = 0)
    (hsod : t.secOfDay = h * 3600 + mi * 60 + s) :
    Date t.Year t.Month t.Day h mi s 0 t.Location = t := by
  obtain ⟨w, _, _⟩ := t.wall_split
  rw [Date_of_day, ← hsod]
  cases t with
  | mk u n l =>
    simp only [] at hn w ⊢
    subst hn
    congr 1
    omega

/-- Applying `StartOfWeek` to its own result returns that result, and so does `EndOfWeek`,
for a week start (week end) that is one of the seven weekdays. -/
theorem TimeKit.week_idem (tk : TimeKit) :
    ((0 ≤ tk.weekStartAt ∧ tk.weekStartAt ≤ 6) →
      ∃ r : TimeKit, (∀ fuel : Nat, 6 ≤ fuel → TimeKit.StartOfWeek fuel tk = some r) ∧
        ∀ fuel : Nat, TimeKit.StartOfWeek fuel r = some r) ∧
    ((0 ≤ tk.weekEndAt ∧ tk.weekEndAt ≤ 6) →
      ∃ r : TimeKit, (∀ fuel : Nat, 6 ≤ fuel → TimeKit.EndOfWeek fuel tk = some r) ∧
        ∀ fuel : Nat, TimeKit.EndOfWeek fuel r = some r) := by
  constructor
  · intro ht
    obtain ⟨r, k, hk, hl, _, r2, r3, _, r5, _⟩ :=
      TimeKit.weekLoop_of_day tk.Time tk.weekStartAt (-1) 0 (Or.inr rfl) ht (by decide) (by decide)
    refine ⟨tk.SetTime r, ?_, ?_⟩
    · intro fuel hf
      unfold TimeKit.StartOfWeek
      simp only []
      rw [Date_of_day, show (0 : Int) * 3600 + 0 * 60 + 0 = 0 by decide,
        hl fuel (le_trans hk hf)]
      rfl
    · intro fuel
      unfold TimeKit.StartOfWeek
      simp only []
      rw [TimeKit.SetTime_Time, Date_of_day_self r 0 0 0 r3 (by rw [r2]; decide),
        show (tk.SetTime r).weekStartAt = tk.weekStartAt from rfl,
        TimeKit.weekLoop_fixed _ _ _ _ r5]
      rfl
  · intro ht
    obtain ⟨r, k, hk, hl, _, r2, r3, _, r5, _⟩ :=
      TimeKit.weekLoop_of_day tk.Time tk.weekEndAt 1 86399 (Or.inl rfl) ht (by decide) (by decide)
    refine ⟨tk.SetTime r, ?_, ?_⟩
    · intro fuel hf
      unfold TimeKit.EndOfWeek
      simp only []
      rw [Date_of_day, show (23 : Int) * 3600 + 59 * 60 + 59 = 86399 by decide,
        hl fuel (le_trans hk hf)]
      rfl
    · intro fuel
      unfold TimeKit.EndOfWeek
      simp only []
      rw [TimeKit.SetTime_Time, Date_of_day_self r 23 59 59 r3 (by rw [r2]; decide),
        show (tk.SetTime r).weekEndAt = tk.weekEndAt from rfl,
        TimeKit.weekLoop_fixed _ _ _ _ r5]
      rfl

/-- In the first embedding, `AddSeconds(n)` followed by `AddSeconds(-n)` gives the original
value back, and likewise for `AddMinutes`, `AddHours`, `AddDays` and `AddWeeks`. -/
theorem fixed_unit_add_roundtrip (tk : TimeKit) (n : Int) (hv : tk.Time.Valid) :
    ((tk.AddSeconds n).AddSeconds (-n) = tk ∧ (tk.AddSeconds n).SubSeconds n = tk) ∧
    ((tk.AddMinutes n).AddMinutes (-n) = tk ∧ (tk.AddMinutes n).SubMinutes n = tk) ∧
    ((tk.AddHours n).AddHours (-n) = tk ∧ (tk.AddHours n).SubHours n = tk) ∧
    ((tk.AddDays n).AddDays (-n) = tk ∧ (tk.AddDays n).SubDays n = tk) ∧
    ((tk.AddWeeks n).AddWeeks (-n) = tk ∧ (tk.AddWeeks n).SubWeeks n = tk) := by
  have hs : (tk.AddSeconds n).AddSeconds (-n) = tk := by
    unfold TimeKit.AddSeconds Second
    exact TimeKit.add_roundtrip tk hv n (-n) (by omega)
  have hm : (tk.AddMinutes n).AddMinutes (-n) = tk := by
    unfold TimeKit.AddMinutes Minute Second
    rw [show n * (60 * 1000000000) = (n * 60) * 1000000000 by omega,
      show -n * (60 * 1000000000) = (-n * 60) * 1000000000 by omega]
    exact TimeKit.add_roundtrip tk hv (n * 60) (-n * 60) (by omega)
  have hh : (tk.AddHours n).AddHours (-n) = tk := by
    unfold TimeKit.AddHours Hour Minute Second
    rw [show n * (60 * (60 * 1000000000)) = (n * 3600) * 1000000000 by omega,
      show -n * (60 * (60 * 1000000000)) = (-n * 3600) * 1000000000 by omega]
    exact TimeKit.add_roundtrip tk hv (n * 3600) (-n * 3600) (by omega)
  have hd : (tk.AddDays n).AddDays (-n) = tk := by
    unfold TimeKit.AddDays
    exact TimeKit.addDate_days_roundtrip tk hv n (-n) (by omega)
  have hw : (tk.AddWeeks n).AddWeeks (-n) = tk := by
    unfold TimeKit.AddWeeks daysPerWeek
    exact TimeKit.addDate_days_roundtrip tk hv (7 * n) (7 * -n) (by omega)
  exact ⟨⟨hs, hs⟩, ⟨hm, hm⟩, ⟨hh, hh⟩, ⟨hd, hd⟩, ⟨hw, hw⟩⟩

/-- In the first embedding, `AddMonths(n)` followed by `AddMonths(-n)` gives the original value
back whenever `AddMonths(n)` kept the day of the month; likewise for `AddQuarters`,
`AddYears` and `AddCenturies`.  A day of the month of at most 28 is always kept. -/
theorem calendar_add_roundtrip (tk : TimeKit) (n : Int) (hv : tk.Time.Valid) :
    ((tk.AddMonths n).Time.Day = tk.Time.Day → (tk.AddMonths n).AddMonths (-n) = tk) ∧
    ((tk.AddQuarters n).Time.Day = tk.Time.Day → (tk.AddQuarters n).AddQuarters (-n) = tk) ∧
    ((tk.AddYears n).Time.Day = tk.Time.Day → (tk.AddYears n).AddYears (-n) = tk) ∧
    ((tk.AddCenturies n).Time.Day = tk.Time.Day → (tk.AddCenturies n).AddCenturies (-n) = tk) ∧
    (tk.Time.Day ≤ 28 →
      (tk.AddMonths n).Time.Day = tk.Time.Day ∧ (tk.AddQuarters n).Time.Day = tk.Time.Day ∧
      (tk.AddYears n).Time.Day = tk.Time.Day ∧ (tk.AddCenturies n).Time.Day = tk.Time.Day) := by
  have key : ∀ dy dm : Int, (tk.Time.AddDate dy dm 0).Day = tk.Time.Day →
      (tk.SetTime (tk.Time.AddDate dy dm 0)).SetTime
        ((tk.SetTime (tk.Time.AddDate dy dm 0)).Time.AddDate (-dy) (-dm) 0) = tk := by
    intro dy dm h
    rw [TimeKit.SetTime_SetTime, TimeKit.SetTime_Time, Time.AddDate_roundtrip _ hv dy dm h]
    rfl
  refine ⟨?_, ?_, ?_, ?_, ?_⟩
  · intro h
    have := key 0 n h
    rw [neg_zero] at this
    exact this
  · intro h
    unfold TimeKit.AddQuarters monthsPerQuarter
    have := key 0 (3 * n) h
    rw [neg_zero, show -(3 * n) = 3 * -n by omega] at this
    exact this
  · intro h
    have := key n 0 h
    rw [neg_zero] at this
    exact this
  · intro h
    unfold TimeKit.AddCenturies yearsPerCenturies
    have := key (100 * n) 0 h
    rw [neg_zero, show -(100 * n) = 100 * -n by omega] at this
    exact this
  · intro h28
    exact ⟨Time.AddDate_day_le_28 _ hv 0 n h28, Time.AddDate_day_le_28 _ hv 0 _ h28,
      Time.AddDate_day_le_28 _ hv n 0 h28, Time.AddDate_day_le_28 _ hv _ 0 h28⟩

/-- In the first embedding, with the default weekend, `AddWeekdays(W)` returns within
`3 * |W|` runs of its loop body and moves the instant by `k` whole days in the direction of
the sign of `W`, the time of day unchanged, where `k` is the least number of days such that
exactly `|W|` of the `k` days stepped onto are weekdays. -/
theorem addWeekdays_days (tk : TimeKit) (W : Int) (hv : tk.Time.Valid)
    (hw : tk.weekendDays = [Saturday, Sunday]) :
    (∃ k : Nat,
      (∀ fuel : Nat, 3 * W.natAbs ≤ fuel →
        TimeKit.AddWeekdays fuel tk W = some (tk.AddDays (W.sign * k))) ∧
      (tk.AddDays (W.sign * k)).Time.absDay = tk.Time.absDay + W.sign * k ∧
      (tk.AddDays (W.sign * k)).Time.Hour = tk.Time.Hour ∧
      (tk.AddDays (W.sign * k)).Time.Minute = tk.Time.Minute ∧
      (tk.AddDays (W.sign * k)).Time.Second = tk.Time.Second ∧
      (tk.AddDays (W.sign * k)).Time.Nanosecond = tk.Time.Nanosecond ∧
      (List.range k).countP (fun i : Nat => (tk.AddDays (W.sign * ((i : Int) + 1))).IsWeekday)
        = W.natAbs ∧
      (∀ j : Nat, j < k →
        (List.range j).countP (fun i : Nat => (tk.AddDays (W.sign * ((i : Int) + 1))).IsWeekday)
          < W.natAbs) ∧
      (W = 0 → tk.AddDays (W.sign * k) = tk) ∧
      (W ≠ 0 → (tk.AddDays (W.sign * k)).IsWeekday = true)) ∧
    (NewTimeKit (Date 2021 1 2 15 4 5 0 0)).Time.Weekday = Saturday ∧
    TimeKit.AddWeekdays 15 (NewTimeKit (Date 2021 1 2 15 4 5 0 0)) 5
      = some (NewTimeKit (Date 2021 1 8 15 4 5 0 0)) ∧
    (NewTimeKit (Date 2021 1 8 15 4 5 0 0)).Time.Weekday = Friday := by
  refine ⟨?_, by decide, by decide, by decide⟩
  have hr := tk.Time.Weekday_range
  -- the loop, for the step and the count `AddWeekdays` passes to it
  have hloop : ∀ fuel : Nat, 3 * W.natAbs ≤ fuel →
      ∃ k : Nat, TimeKit.AddWeekdays fuel tk W = some (tk.AddDays (W.sign * k)) ∧
        (((List.range k).countP
          (fun i : Nat => (tk.AddDays (W.sign * ((i : Int) + 1))).IsWeekday) : Nat) : Int)
            = W.natAbs ∧
        (∀ j : Nat, j < k → (((List.range j).countP
          (fun i : Nat => (tk.AddDays (W.sign * ((i : Int) + 1))).IsWeekday) : Nat) : Int)
            < W.natAbs) ∧
        (W = 0 → k = 0) ∧ (W ≠ 0 → (tk.AddDays (W.sign * k)).IsWeekday = true) := by
    intro fuel hfuel
    unfold TimeKit.AddWeekdays
    by_cases hneg : W < 0
    · rw [if_pos hneg, Int.sign_eq_neg_one_of_neg hneg]
      obtain ⟨k, e, c, l, z, w⟩ := TimeKit.addWeekdaysLoop_spec (-1) (Or.inr rfl) fuel (-W) tk hv
        hw (by omega) (by
          simp only [Int.reduceNeg, Int.reduceEq, if_false]
          split_ifs <;> omega)
      exact ⟨k, e, by omega, fun j hj => by have := l j hj; omega, fun h => by omega,
        fun _ => w (by omega)⟩
    · rw [if_neg hneg]
      by_cases hz : W = 0
      · subst hz
        obtain ⟨k, e, c, l, z, w⟩ := TimeKit.addWeekdaysLoop_spec 1 (Or.inl rfl) fuel 0 tk hv
          hw (by omega) (by
            simp only [if_true]
            split_ifs <;> omega)
        have hk := z rfl
        subst hk
        refine ⟨0, ?_, ?_, ?_, ?_, ?_⟩
        · rw [e]; simp only [Int.sign_zero, Nat.cast_zero, mul_zero]
        · simp only [List.range_zero, List.countP_nil, Nat.cast_zero, Int.natAbs_zero]
        · intro j hj; omega
        · intro _; rfl
        · intro h; exact absurd rfl h
      · rw [Int.sign_eq_one_of_pos (by omega)]
        obtain ⟨k, e, c, l, z, w⟩ := TimeKit.addWeekdaysLoop_spec 1 (Or.inl rfl) fuel W tk hv
          hw (by omega) (by
            simp only [if_true]
            split_ifs <;> omega)
        exact ⟨k, e, by omega, fun j hj => by have := l j hj; omega, fun h => by omega,
          fun _ => w (by omega)⟩
  obtain ⟨k, e, c, l, z, w⟩ := hloop (3 * W.natAbs) (le_refl _)
  refine ⟨k, ?_, ?_, ?_, ?_, ?_, ?_, ?_, ?_, ?_, w⟩
  · intro fuel hfuel
    obtain ⟨k', e', c', l', _, _⟩ := hloop fuel hfuel
    have hk : k' = k := by
      rcases lt_trichotomy k' k with h | h | h
      · have := l k' h; omega
      · exact h
      · have := l' k h; omega
    rw [e', hk]
  · exact (TimeKit.AddDays_absDay tk hv _).1
  · unfold Time.Hour; rw [(TimeKit.AddDays_absDay tk hv _).2.1]
  · unfold Time.Minute; rw [(TimeKit.AddDays_absDay tk hv _).2.1]
  · unfold Time.Second; rw [(TimeKit.AddDays_absDay tk hv _).2.1]
  · exact (TimeKit.AddDays_absDay tk hv _).2.2.1
  · exact_mod_cast c
  · intro j hj
    exact_mod_cast l j hj
  · intro h
    rw [z h]
    simp only [Nat.cast_zero, mul_zero, TimeKit.AddDays_zero _ hv]

/-- In the first embedding, `StartOfWeek` returns after at most 6 backward steps of one day,
at 00:00:00 on the latest date not after the date of the instant that falls on the
week-start day; `EndOfWeek` returns at 23:59:59 on the earliest date not before it that
falls on the week-end day. -/
theorem week_boundaries (tk : TimeKit) :
    ((0 ≤ tk.weekStartAt ∧ tk.weekStartAt ≤ 6) →
      ∃ (r : TimeKit) (k : Nat), k ≤ 6 ∧
        (∀ fuel : Nat, k ≤ fuel → TimeKit.StartOfWeek fuel tk = some r) ∧
        r.Time.absDay = tk.Time.absDay - k ∧
        r.Time.Hour = 0 ∧ r.Time.Minute = 0 ∧ r.Time.Second = 0 ∧ r.Time.Nanosecond = 0 ∧
        r.Time.Location = tk.Time.Location ∧
        r.Time.Weekday = tk.weekStartAt ∧
        (∀ u : Time, u.absDay ≤ tk.Time.absDay → u.Weekday = tk.weekStartAt →
          u.absDay ≤ r.Time.absDay)) ∧
    ((0 ≤ tk.weekEndAt ∧ tk.weekEndAt ≤ 6) →
      ∃ (r : TimeKit) (k : Nat), k ≤ 6 ∧
        (∀ fuel : Nat, k ≤ fuel → TimeKit.EndOfWeek fuel tk = some r) ∧
        r.Time.absDay = tk.Time.absDay + k ∧
        r.Time.Hour = 23 ∧ r.Time.Minute = 59 ∧ r.Time.Second = 59 ∧ r.Time.Nanosecond = 0 ∧
        r.Time.Location = tk.Time.Location ∧
        r.Time.Weekday = tk.weekEndAt ∧
        (∀ u : Time, tk.Time.absDay ≤ u.absDay → u.Weekday = tk.weekEndAt →
          r.Time.absDay ≤ u.absDay)) ∧
    (NewTimeKit (Date 2021 1 2 15 4 5 0 0)).weekStartAt = Monday ∧
    TimeKit.StartOfWeek 6 (NewTimeKit (Date 2021 1 2 15 4 5 0 0))
      = some (NewTimeKit (Date 2020 12 28 0 0 0 0 0)) := by
  refine ⟨?_, ?_, by decide, by decide⟩
  · intro ht
    obtain ⟨r, k, hk, hl, r1, r2, r3, r4, r5, r6⟩ :=
      TimeKit.weekLoop_of_day tk.Time tk.weekStartAt (-1) 0 (Or.inr rfl) ht (by decide) (by decide)
    obtain ⟨c1, c2, c3⟩ := r.clock_of_secOfDay 0 0 0 (by rw [r2]; decide) (by decide) (by decide)
      (by decide)
    refine ⟨tk.SetTime r, k, hk, ?_, ?_, c1, c2, c3, r3, r4, r5, ?_⟩
    · intro fuel hf
      unfold TimeKit.StartOfWeek
      simp only []
      rw [Date_of_day, show (0 : Int) * 3600 + 0 * 60 + 0 = 0 by decide, hl fuel hf]
      rfl
    · rw [TimeKit.SetTime_Time, r1]; omega
    · intro u hu huw
      have := r6 u (by omega) huw
      rw [TimeKit.SetTime_Time]
      omega
  · intro ht
    obtain ⟨r, k, hk, hl, r1, r2, r3, r4, r5, r6⟩ :=
      TimeKit.weekLoop_of_day tk.Time tk.weekEndAt 1 86399 (Or.inl rfl) ht (by decide) (by decide)
    obtain ⟨c1, c2, c3⟩ := r.clock_of_secOfDay 23 59 59 (by rw [r2]; decide) (by decide)
      (by decide) (by decide)
    refine ⟨tk.SetTime r, k, hk, ?_, ?_, c1, c2, c3, r3, r4, r5, ?_⟩
    · intro fuel hf
      unfold TimeKit.EndOfWeek
      simp only []
      rw [Date_of_day, show (23 : Int) * 3600 + 59 * 60 + 59 = 86399 by decide, hl fuel hf]
      rfl
    · rw [TimeKit.SetTime_Time, r1]; omega
    · intro u hu huw
      have := r6 u (by omega) huw
      rw [TimeKit.SetTime_Time]
      omega

/-- In the first embedding, `Quarter` returns the month divided by 3 and rounded up;
`StartOfQuarter` yields the 1st of month `(q - 1) * 3 + 1` at 00:00:00 and `EndOfQuarter`
the last day of month `3 * q` at 23:59:59. -/
theorem quarter_boundaries (tk : TimeKit) :
    (tk.Quarter = (tk.Time.Month + 2) / 3 ∧ 1 ≤ tk.Quarter ∧ tk.Quarter ≤ 4 ∧
      3 * (tk.Quarter - 1) < tk.Time.Month ∧ tk.Time.Month ≤ 3 * tk.Quarter) ∧
    (tk.StartOfQuarter.Time.Year = tk.Time.Year ∧
      tk.StartOfQuarter.Time.Month = (tk.Quarter - 1) * 3 + 1 ∧
      tk.StartOfQuarter.Time.Day = 1 ∧ tk.StartOfQuarter.Time.Hour = 0 ∧
      tk.StartOfQuarter.Time.Minute = 0 ∧ tk.StartOfQuarter.Time.Second = 0 ∧
      tk.StartOfQuarter.Time.Nanosecond = 0) ∧
    (tk.EndOfQuarter.Time.Year = tk.Time.Year ∧
      tk.EndOfQuarter.Time.Month = 3 * tk.Quarter ∧
      tk.EndOfQuarter.Time.Day = daysIn tk.Time.Year (3 * tk.Quarter) ∧
      tk.EndOfQuarter.Time.Hour = 23 ∧ tk.EndOfQuarter.Time.Minute = 59 ∧
      tk.EndOfQuarter.Time.Second = 59 ∧ tk.EndOfQuarter.Time.Nanosecond = 0) ∧
    (tk.StartOfQuarter.Time.Month ≤ tk.Time.Month ∧
      tk.Time.Month ≤ tk.EndOfQuarter.Time.Month) ∧
    ((NewTimeKit (Date 2021 1 2 15 4 5 0 0)).StartOfQuarter
        = NewTimeKit (Date 2021 1 1 0 0 0 0 0) ∧
      (NewTimeKit (Date 2021 1 2 15 4 5 0 0)).EndOfQuarter
        = NewTimeKit (Date 2021 3 31 23 59 59 0 0)) := by
  obtain ⟨m1, m12, _, _, _⟩ := tk.Time.civil_spec
  obtain ⟨q0, q1, q4⟩ := tk.Quarter_eq
  have hq3 : 3 * (tk.Quarter - 1) < tk.Time.Month ∧ tk.Time.Month ≤ 3 * tk.Quarter := by
    rw [q0]; omega
  have hsm : 1 ≤ (tk.Quarter - 1) * 3 + 1 ∧ (tk.Quarter - 1) * 3 + 1 ≤ 12 := by omega
  have hem : 1 ≤ tk.Quarter * 3 ∧ tk.Quarter * 3 ≤ 12 := by omega
  have hbs := daysIn_bounds tk.Time.Year ((tk.Quarter - 1) * 3 + 1) hsm.1 hsm.2
  have hbe := daysIn_bounds tk.Time.Year (tk.Quarter * 3) hem.1 hem.2
  obtain ⟨fY, fM, fD, fH, fMi, fS, fN, _⟩ := Date_fields tk.Time.Year ((tk.Quarter - 1) * 3 + 1)
    1 0 0 0 0 tk.Time.Location hsm ⟨by decide, by omega⟩ (by decide) (by decide) (by decide)
    (by decide)
  obtain ⟨gY, gM, gD, gH, gMi, gS, gN, _⟩ := Date_fields tk.Time.Year (tk.Quarter * 3)
    (daysIn tk.Time.Year (tk.Quarter * 3)) 23 59 59 0 tk.Time.Location hem
    ⟨by omega, le_refl _⟩ (by decide) (by decide) (by decide) (by decide)
  have hend : tk.EndOfQuarter.Time = Date tk.Time.Year (tk.Quarter * 3)
      (daysIn tk.Time.Year (tk.Quarter * 3)) 23 59 59 0 tk.Time.Location := by
    unfold TimeKit.EndOfQuarter monthsPerQuarter
    simp only [TimeKit.SetTime_Time]
    exact Date_last_day _ _ _ _ _ _ hem (by decide) (by decide) (by decide)
  have hstart : tk.StartOfQuarter.Time = Date tk.Time.Year ((tk.Quarter - 1) * 3 + 1) 1 0 0 0 0
      tk.Time.Location := rfl
  have e3 : tk.Quarter * 3 = 3 * tk.Quarter := by omega
  rw [hend, hstart]
  refine ⟨⟨q0, q1, q4, hq3.1, hq3.2⟩, ⟨fY, fM, fD, fH, fMi, fS, fN⟩,
    ⟨gY, by rw [gM, e3], by rw [gD, e3], gH, gMi, gS, gN⟩, ⟨by rw [fM]; omega, by rw [gM]; omega⟩,
    by decide, by decide⟩

/-- In the first embedding, for a day of the month of at most 28, `AddMonths(n)` keeps the day
of the month and the time of day and yields a year `y'` and a month `m'` with
`12 * y' + m' = 12 * y + m + n`; `AddYears(n)` adds `n` to the year and keeps the rest. -/
theorem addMonths_fields (tk : TimeKit) (n : Int) (hv : tk.Time.Valid)
    (h28 : tk.Time.Day ≤ 28) :
    ((tk.AddMonths n).Time.Day = tk.Time.Day ∧
      (tk.AddMonths n).Time.Hour = tk.Time.Hour ∧
      (tk.AddMonths n).Time.Minute = tk.Time.Minute ∧
      (tk.AddMonths n).Time.Second = tk.Time.Second ∧
      (tk.AddMonths n).Time.Nanosecond = tk.Time.Nanosecond ∧
      (tk.AddMonths n).Time.Location = tk.Time.Location ∧
      12 * (tk.AddMonths n).Time.Year + (tk.AddMonths n).Time.Month
        = 12 * tk.Time.Year + tk.Time.Month + n ∧
      1 ≤ (tk.AddMonths n).Time.Month ∧ (tk.AddMonths n).Time.Month ≤ 12) ∧
    ((tk.AddYears n).Time.Year = tk.Time.Year + n ∧
      (tk.AddYears n).Time.Month = tk.Time.Month ∧
      (tk.AddYears n).Time.Day = tk.Time.Day ∧
      (tk.AddYears n).Time.Hour = tk.Time.Hour ∧
      (tk.AddYears n).Time.Minute = tk.Time.Minute ∧
      (tk.AddYears n).Time.Second = tk.Time.Second ∧
      (tk.AddYears n).Time.Nanosecond = tk.Time.Nanosecond ∧
      (tk.AddYears n).Time.Location = tk.Time.Location) ∧
    ((NewTimeKit (Date 2021 1 2 15 4 5 0 0)).AddMonths 7
        = NewTimeKit (Date 2021 8 2 15 4 5 0 0) ∧
      (NewTimeKit (Date 2021 1 2 15 4 5 0 0)).AddYears 2
        = NewTimeKit (Date 2023 1 2 15 4 5 0 0)) := by
  obtain ⟨m1, m12, _, _, _⟩ := tk.Time.civil_spec
  obtain ⟨aY, aM, aD, aH, aMi, aS, aN, aL⟩ := tk.Time.AddDate_fields hv 0 n h28
  obtain ⟨bY, bM, bD, bH, bMi, bS, bN, bL⟩ := tk.Time.AddDate_fields hv n 0 h28
  have hA : (tk.AddMonths n).Time = tk.Time.AddDate 0 n 0 := rfl
  have hB : (tk.AddYears n).Time = tk.Time.AddDate n 0 0 := rfl
  rw [hA, hB]
  refine ⟨⟨aD, aH, aMi, aS, aN, aL, ?_, ?_, ?_⟩, ⟨?_, ?_, bD, bH, bMi, bS, bN, bL⟩,
    by decide, by decide⟩
  · rw [aY, aM]; omega
  · rw [aM]; omega
  · rw [aM]; omega
  · rw [bY]; omega
  · rw [bM]; omega

/-- In the first embedding, the naive addition of `n` months has the original day of the month
exactly when that day exists in the target month, and exactly when the naive result lies in
the target month. -/
theorem addDate_day_test (tk : TimeKit) (n : Int) (hv : tk.Time.Valid) :
    ((tk.Time.AddDate 0 n 0).Day = tk.Time.Day ↔
      tk.Time.Day ≤ daysIn (norm tk.Time.Year (tk.Time.Month + n - 1) 12).1
        ((norm tk.Time.Year (tk.Time.Month + n - 1) 12).2 + 1)) ∧
    ((tk.Time.AddDate 0 n 0).Day = tk.Time.Day ↔
      ((tk.Time.AddDate 0 n 0).Year = (norm tk.Time.Year (tk.Time.Month + n - 1) 12).1 ∧
        (tk.Time.AddDate 0 n 0).Month = (norm tk.Time.Year (tk.Time.Month + n - 1) 12).2 + 1)) := by
  obtain ⟨h1, h2⟩ := tk.Time.AddDate_months_class hv n
  by_cases hle : tk.Time.Day ≤ daysIn (norm tk.Time.Year (tk.Time.Month + n - 1) 12).1
      ((norm tk.Time.Year (tk.Time.Month + n - 1) 12).2 + 1)
  · obtain ⟨a, b, c⟩ := h1 hle
    exact ⟨⟨fun _ => hle, fun _ => c⟩, ⟨fun _ => ⟨a, b⟩, fun _ => c⟩⟩
  · obtain ⟨a, _, c⟩ := h2 (not_le.mp hle)
    exact ⟨⟨fun h => absurd h c, fun h => absurd h hle⟩, ⟨fun h => absurd h c, fun h => absurd h a⟩⟩

/-- In the first embedding, with the default weekend, from a Monday to Friday
`AddWeekdays(5 * k)` returns within `7 * |k|` runs of its loop body and yields what
`AddDays(7 * k)` yields. -/
theorem five_weekdays_are_a_week (tk : TimeKit) (k : Int) (fuel : Nat)
    (hv : tk.Time.Valid) (hw : tk.weekendDays = [Saturday, Sunday])
    (hday : Monday ≤ tk.Time.Weekday ∧ tk.Time.Weekday ≤ Friday)
    (hf : 7 * k.natAbs ≤ fuel) :
    TimeKit.AddWeekdays fuel tk (5 * k) = some (tk.AddDays (7 * k)) ∧
    (tk.AddDays (7 * k)).Time.absDay = tk.Time.absDay + 7 * k ∧
    (tk.AddDays (7 * k)).Time.Hour = tk.Time.Hour ∧
    (tk.AddDays (7 * k)).Time.Minute = tk.Time.Minute ∧
    (tk.AddDays (7 * k)).Time.Second = tk.Time.Second ∧
    (tk.AddDays (7 * k)).Time.Nanosecond = tk.Time.Nanosecond := by
  unfold Monday Friday at hday
  obtain ⟨b1, b2, b3, _⟩ := TimeKit.AddDays_absDay tk hv (7 * k)
  refine ⟨?_, b1, by unfold Time.Hour; rw [b2], by unfold Time.Minute; rw [b2],
    by unfold Time.Second; rw [b2], b3⟩
  unfold TimeKit.AddWeekdays
  by_cases hneg : 5 * k < 0
  · rw [if_pos hneg]
    obtain ⟨a, ha⟩ : ∃ a : Int, a = (if tk.Time.Weekday = 0 ∨ tk.Time.Weekday = 6 then 4
        else if (-1 : Int) = 1 then tk.Time.Weekday - 1 else 5 - tk.Time.Weekday) := ⟨_, rfl⟩
    obtain ⟨s, hsl⟩ : ∃ s : Int, s = (if (-1 : Int) = 1
        then (if tk.Time.Weekday = 6 then 1 else if tk.Time.Weekday = 0 then 2 else 0)
        else (if tk.Time.Weekday = 0 then 1 else if tk.Time.Weekday = 6 then 2 else 0)) :=
      ⟨_, rfl⟩
    have hD : (if -(5 * k) = 0 then 0
        else 7 * ((a + -(5 * k)) / 5) + (a + -(5 * k)) % 5 - a - s) = -(7 * k) := by
      simp only [Int.reduceNeg, Int.reduceEq, if_false] at ha hsl
      split_ifs at ha hsl ⊢ <;> omega
    have := TimeKit.addWeekdaysLoop_closed (-1) (Or.inr rfl) fuel (-(5 * k)) tk a s hv hw
      (by omega) ha hsl (by rw [hD]; omega)
    rw [this, hD]
    congr 2
    omega
  · rw [if_neg hneg]
    obtain ⟨a, ha⟩ : ∃ a : Int, a = (if tk.Time.Weekday = 0 ∨ tk.Time.Weekday = 6 then 4
        else if (1 : Int) = 1 then tk.Time.Weekday - 1 else 5 - tk.Time.Weekday) := ⟨_, rfl⟩
    obtain ⟨s, hsl⟩ : ∃ s : Int, s = (if (1 : Int) = 1
        then (if tk.Time.Weekday = 6 then 1 else if tk.Time.Weekday = 0 then 2 else 0)
        else (if tk.Time.Weekday = 0 then 1 else if tk.Time.Weekday = 6 then 2 else 0)) :=
      ⟨_, rfl⟩
    have hD : (if 5 * k = 0 then 0
        else 7 * ((a + 5 * k) / 5) + (a + 5 * k) % 5 - a - s) = 7 * k := by
      simp only [if_true] at ha hsl
      split_ifs at ha hsl ⊢ <;> omega
    have := TimeKit.addWeekdaysLoop_closed 1 (Or.inl rfl) fuel (5 * k) tk a s hv hw
      (by omega) ha hsl (by rw [hD]; omega)
    rw [this, hD]
    congr 2
    omega

/-- In the first embedding, for two instants whose Unix seconds are exactly 7 * 86400 apart,
`DiffInDaysFiltered` with the predicate `IsWeekday` and the absolute flag returns 5 within
7 runs of its loop body. -/
theorem week_has_five_weekdays (now : Int) (tk t : TimeKit) (fuel : Nat) (hf : 7 ≤ fuel)
    (h : t.Time.Unix = tk.Time.Unix + 7 * 86400 ∨ tk.Time.Unix = t.Time.Unix + 7 * 86400) :
    tk.DiffInDaysFiltered fuel now (some t) (fun k => k.IsWeekday) true
      = some (Except.ok 5) := by
  have hdur : Hour * hoursPerDay = 86400 * 1000000000 := by decide
  have hstep : quo (86400 * 1000000000) Second = 86400 := by decide
  obtain ⟨aT, aW, aV⟩ := tk.Copy_Time
  obtain ⟨bT, bW, bV⟩ := t.Copy_Time
  have hu : ∀ x : TimeKit, x.Time.Unix = x.Time.unix := fun _ => rfl
  rw [hu, hu] at h
  have count7 : ∀ A : Int, (5 * ((A + 3) / 7) + min ((A + 3) % 7 + 1) 5
      - (5 * ((A - ((7 : Nat) : Int) + 3) / 7) + min ((A - ((7 : Nat) : Int) + 3) % 7 + 1) 5))
      = 5 := by
    intro A
    push_cast
    omega
  unfold TimeKit.DiffInDaysFiltered TimeKit.DiffFiltered TimeKit.orNow
  simp only []
  rw [hdur, hstep]
  rcases h with h | h
  · have hafter : tk.Copy.Time.After t.Copy.Time = false := by
      unfold Time.After
      rw [aT, bT]
      simp only []
      exact decide_eq_false (by omega)
    rw [hafter]
    simp only [Bool.false_eq_true, if_false]
    rw [TimeKit.diffFilteredLoop_weekdays now tk.Copy fuel 7 t.Copy 0 bV bW
      (by rw [aT, bT]; simp only []; push_cast; omega) hf, count7]
    decide
  · have hafter : tk.Copy.Time.After t.Copy.Time = true := by
      unfold Time.After
      rw [aT, bT]
      simp only []
      exact decide_eq_true (Or.inl (by omega))
    rw [hafter]
    simp only [if_true, swap]
    rw [TimeKit.diffFilteredLoop_weekdays now t.Copy fuel 7 tk.Copy 0 aV aW
      (by rw [aT, bT]; simp only []; push_cast; omega) hf, count7]
    decide

/-- In the first embedding, with the predicate that holds everywhere `DiffInDaysFiltered`
returns the value of `DiffInDays` and `DiffInHoursFiltered` the value of `DiffInHours`, and
for any predicate the result without the absolute flag is at most 0 when the receiver is
after the other instant and at least 0 when it is not. -/
theorem filtered_always_true (now : Int) (tk t : TimeKit) (abs : Bool) (f : Filter)
    (fuel : Nat) :
    (|t.Time.Unix - tk.Time.Unix| / 86400 ≤ fuel →
      tk.DiffInDaysFiltered fuel now (some t) (fun _ => true) abs
        = some (Except.ok (tk.DiffInDays now (some t) abs)) ∧
      ∃ v : Int, tk.DiffInDaysFiltered fuel now (some t) f false = some (Except.ok v) ∧
        (tk.Time.After t.Time = true → v ≤ 0) ∧ (tk.Time.After t.Time = false → 0 ≤ v)) ∧
    (|t.Time.Unix - tk.Time.Unix| / 3600 ≤ fuel →
      tk.DiffInHoursFiltered fuel now (some t) (fun _ => true) abs
        = some (Except.ok (tk.DiffInHours now (some t) abs)) ∧
      ∃ v : Int, tk.DiffInHoursFiltered fuel now (some t) f false = some (Except.ok v) ∧
        (tk.Time.After t.Time = true → v ≤ 0) ∧ (tk.Time.After t.Time = false → 0 ≤ v)) := by
  have hu : ∀ x : TimeKit, x.Time.Unix = x.Time.unix := fun _ => rfl
  rw [hu, hu]
  have hday : Hour * hoursPerDay = 86400 * Second := by decide
  have hhour : Hour = 3600 * Second := by decide
  have key : ∀ s : Int, 0 < s → |t.Time.unix - tk.Time.unix| / s ≤ fuel →
      tk.DiffFiltered fuel now (some t) (s * Second) (fun _ => true) abs
        = some (Except.ok (quo (absoluteValue abs (t.Time.unix - tk.Time.unix)) s)) ∧
      ∃ v : Int, tk.DiffFiltered fuel now (some t) (s * Second) f false = some (Except.ok v) ∧
        (tk.Time.After t.Time = true → v ≤ 0) ∧ (tk.Time.After t.Time = false → 0 ≤ v) := by
    intro s hs hf
    constructor
    · obtain ⟨r, _, _, r3, hr⟩ :=
        TimeKit.DiffFiltered_whole now tk t (fun _ => true) abs fuel s hs hf
      rw [hr, r3 (fun _ => rfl)]
      congr 2
      by_cases hlt : t.Time.unix < tk.Time.unix
      · have hg : t.Time.unix - tk.Time.unix < 0 := by omega
        rw [if_pos hlt]
        generalize t.Time.unix - tk.Time.unix = g at hg ⊢
        have hn : 0 ≤ -g := by omega
        have hq : 0 ≤ (-g) / s := Int.ediv_nonneg hn (le_of_lt hs)
        rw [abs_of_neg hg]
        cases abs
        · rw [absoluteValue_false, absoluteValue_false, quo_eq g s (le_of_lt hs),
            if_neg (by omega)]
        · rw [absoluteValue_true, absoluteValue_true, abs_of_neg hg,
            quo_of_nonneg hn (le_of_lt hs), abs_neg, abs_of_nonneg hq]
      · have hn : 0 ≤ t.Time.unix - tk.Time.unix := by omega
        rw [if_neg hlt]
        generalize t.Time.unix - tk.Time.unix = g at hn ⊢
        have hq : 0 ≤ g / s := Int.ediv_nonneg hn (le_of_lt hs)
        rw [abs_of_nonneg hn]
        cases abs
        · rw [absoluteValue_false, absoluteValue_false, quo_of_nonneg hn (le_of_lt hs)]
        · rw [absoluteValue_true, absoluteValue_true, abs_of_nonneg hn,
            quo_of_nonneg hn (le_of_lt hs), abs_of_nonneg hq]
    · obtain ⟨r, r1, r2, _, hr⟩ := TimeKit.DiffFiltered_whole now tk t f false fuel s hs hf
      refine ⟨_, hr, ?_, ?_⟩
      · intro ha
        rw [absoluteValue_false]
        unfold Time.After at ha
        have ha := of_decide_eq_true ha
        by_cases hlt : t.Time.unix < tk.Time.unix
        · rw [if_pos hlt]; omega
        · rw [if_neg hlt]
          have he : t.Time.unix - tk.Time.unix = 0 := by omega
          rw [he, abs_zero, Int.zero_ediv] at r2
          omega
      · intro ha
        rw [absoluteValue_false]
        unfold Time.After at ha
        have ha := of_decide_eq_false ha
        rw [if_neg (by omega)]
        exact r1
  refine ⟨fun hf => ?_, fun hf => ?_⟩
  · unfold TimeKit.DiffInDaysFiltered
    rw [hday, TimeKit.DiffInDays_eq]
    exact key 86400 (by decide) hf
  · unfold TimeKit.DiffInHoursFiltered
    rw [hhour, TimeKit.DiffInHours_eq]
    exact key 3600 (by decide) hf

/-! ## Lemmas about the second embedding -/

/-- A 64-bit operation whose exact result is within the 64-bit range yields that result. -/
theorem Zoned.wrap_of_range {x : Int} (h1 : -9223372036854775808 ≤ x)
    (h2 : x ≤ 9223372036854775807) : Zoned.wrap x = x := by
  unfold Zoned.wrap
  omega

theorem Zoned.lookup_fixed (l : Zoned.Location) (h : l.Fixed) (s : Int) :
    l.lookup s = (l.first, Zoned.alpha, Zoned.omega) := by
  unfold Zoned.Location.Fixed at h
  unfold Zoned.Location.lookup
  rw [h]
  rfl

theorem Zoned.Time.offset_fixed (t : Zoned.Time) (h : t.loc.Fixed) : t.offset = t.loc.first := by
  unfold Zoned.Time.offset
  rw [Zoned.lookup_fixed _ h]

theorem Zoned.Time.ofView_view (t : Zoned.Time) : Zoned.Time.ofView t.loc t.view = t := rfl

theorem Zoned.Time.ofView_viewAt (t : Zoned.Time) (o : Int) :
    Zoned.Time.ofView t.loc (t.viewAt o) = t := rfl

theorem Zoned.Time.viewAt_ofView (l : Zoned.Location) (v : Timkit.Time) :
    (Zoned.Time.ofView l v).viewAt v.loc = v := rfl

/-- In a location without transitions an instant of the first embedding with the offset of
the location is seen as itself. -/
theorem Zoned.Time.view_ofView (l : Zoned.Location) (v : Timkit.Time) (h : l.Fixed)
    (hv : v.loc = l.first) : (Zoned.Time.ofView l v).view = v := by
  have ho : (Zoned.Time.ofView l v).offset = l.first := Zoned.Time.offset_fixed _ h
  unfold Zoned.Time.view
  rw [ho, ← hv]
  rfl

theorem Zoned.Time.view_loc (t : Zoned.Time) (h : t.loc.Fixed) : t.view.loc = t.loc.first :=
  t.offset_fixed h

theorem Date_loc (y m d h mi s ns loc : Int) : (Date y m d h mi s ns loc).loc = loc := rfl

theorem Date_shift (y m d h mi s ns loc : Int) :
    (Date y m d h mi s ns 0).unix - loc = (Date y m d h mi s ns loc).unix ∧
      (Date y m d h mi s ns 0).nsec = (Date y m d h mi s ns loc).nsec := by
  rw [Date_eq, Date_eq]
  simp only []
  constructor
  · omega
  · trivial

/-- In a location without transitions `time.Date` is the `Date` of the first embedding for
the offset of the location. -/
theorem Zoned.Date_fixed (y m d h mi s ns : Int) (l : Zoned.Location) (hl : l.Fixed) :
    Zoned.Date y m d h mi s ns l = Zoned.Time.ofView l (Timkit.Date y m d h mi s ns l.first) := by
  obtain ⟨e1, e2⟩ := Date_shift y m d h mi s ns l.first
  unfold Zoned.Date Zoned.Time.ofView
  simp only [Zoned.lookup_fixed l hl]
  rw [← e1, ← e2]
  split_ifs <;> rfl

theorem Time.AddDate_loc (t : Time) (y m d : Int) : (t.AddDate y m d).loc = t.loc := rfl

theorem Time.Add_loc (t : Time) (d : Int) : (t.Add d).loc = t.loc := by
  unfold Time.Add
  simp only []
  split_ifs <;> rfl

/-- In a location without transitions `AddDate` is the `AddDate` of the first embedding. -/
theorem Zoned.Time.AddDate_fixed (t : Zoned.Time) (h : t.loc.Fixed) (y m d : Int) :
    t.AddDate y m d = Zoned.Time.ofView t.loc (t.view.AddDate y m d) := by
  have hl : t.view.Location = t.loc.first := t.view_loc h
  unfold Zoned.Time.AddDate Timkit.Time.AddDate
  rw [hl]
  exact Zoned.Date_fixed _ _ _ _ _ _ _ t.loc h

/-- The addition of a duration is that of the first embedding, in every location. -/
theorem Zoned.Time.Add_viewAt (t : Zoned.Time) (o d : Int) :
    t.Add d = Zoned.Time.ofView t.loc ((t.viewAt o).Add d) := by
  unfold Zoned.Time.Add Timkit.Time.Add Zoned.Time.ofView Zoned.Time.viewAt
  simp only []
  split_ifs <;> rfl

theorem Zoned.Time.zoned_Add_loc (t : Zoned.Time) (d : Int) : (t.Add d).loc = t.loc := by
  rw [t.Add_viewAt 0]
  rfl

theorem Zoned.Time.zoned_AddDate_loc (t : Zoned.Time) (y m d : Int) : (t.AddDate y m d).loc = t.loc :=
  rfl

/-- The view of a calendar addition in a location without transitions. -/
theorem Zoned.Time.view_AddDate (t : Zoned.Time) (h : t.loc.Fixed) (y m d : Int) :
    (t.AddDate y m d).view = t.view.AddDate y m d := by
  rw [t.AddDate_fixed h, Zoned.Time.view_ofView _ _ h]
  exact (Timkit.Time.AddDate_loc _ _ _ _).trans (t.view_loc h)

theorem Zoned.TimeKit.kit_ofView_view (tk : Zoned.TimeKit) :
    Zoned.TimeKit.ofView tk.Time.loc tk.view = tk := rfl

theorem Zoned.TimeKit.kit_view_ofView (l : Zoned.Location) (k : Timkit.TimeKit) (h : l.Fixed)
    (hk : k.Time.loc = l.first) : (Zoned.TimeKit.ofView l k).view = k := by
  have := Zoned.Time.view_ofView l k.Time h hk
  unfold Zoned.TimeKit.view Zoned.TimeKit.viewAt Zoned.TimeKit.ofView
  simp only []
  unfold Zoned.Time.view at this
  rw [this]

theorem Zoned.TimeKit.view_SetTime (tk : Zoned.TimeKit) (t : Zoned.Time) :
    (tk.SetTime t).view = tk.view.SetTime t.view := rfl

theorem Zoned.TimeKit.SetTime_ofView (tk : Zoned.TimeKit) (l : Zoned.Location) (v : Timkit.Time) :
    tk.SetTime (Zoned.Time.ofView l v) = Zoned.TimeKit.ofView l (tk.view.SetTime v) := rfl

/-- A calendar addition on a value in a location without transitions. -/
theorem Zoned.TimeKit.SetTime_AddDate (tk : Zoned.TimeKit) (h : tk.Time.loc.Fixed)
    (y m d : Int) :
    tk.SetTime (tk.Time.AddDate y m d)
      = Zoned.TimeKit.ofView tk.Time.loc (tk.view.SetTime (tk.view.Time.AddDate y m d)) := by
  rw [tk.Time.AddDate_fixed h]
  rfl

/-- Two values in the same location that the first embedding sees as the same are the same. -/
theorem Zoned.TimeKit.eq_of_view {a b : Zoned.TimeKit} (hl : a.Time.loc = b.Time.loc)
    (hv : a.view = b.view) : a = b := by
  rw [← a.kit_ofView_view, ← b.kit_ofView_view, hl, hv]

theorem Zoned.TimeKit.kit_view_AddDate (tk : Zoned.TimeKit) (h : tk.Time.loc.Fixed) (y m d : Int) :
    (tk.SetTime (tk.Time.AddDate y m d)).view = tk.view.SetTime (tk.view.Time.AddDate y m d) := by
  rw [Zoned.TimeKit.view_SetTime, tk.Time.view_AddDate h]
  rfl

theorem Zoned.TimeKit.view_AddMonths (tk : Zoned.TimeKit) (h : tk.Time.loc.Fixed) (n : Int) :
    (tk.AddMonths n).view = tk.view.AddMonths n := tk.kit_view_AddDate h 0 n 0

theorem Zoned.TimeKit.view_AddYears (tk : Zoned.TimeKit) (h : tk.Time.loc.Fixed) (n : Int) :
    (tk.AddYears n).view = tk.view.AddYears n := tk.kit_view_AddDate h n 0 0

theorem Zoned.TimeKit.view_AddDays (tk : Zoned.TimeKit) (h : tk.Time.loc.Fixed) (n : Int) :
    (tk.AddDays n).view = tk.view.AddDays n := tk.kit_view_AddDate h 0 0 n

theorem Zoned.wrap_mul_small (c n : Int) (hc : 0 ≤ c ∧ c ≤ 1000) (hn : Zoned.Small n) :
    Zoned.wrap (c * n) = c * n := by
  unfold Zoned.Small at hn
  obtain ⟨c0, c1⟩ := hc
  obtain ⟨n0, n1⟩ := hn
  have h1 : c * n ≤ 1000 * 1000000000 := by nlinarith
  have h2 : -(1000 * 1000000000) ≤ c * n := by nlinarith
  exact Zoned.wrap_of_range (by omega) (by omega)

theorem Zoned.wrap_neg_small (n : Int) (hn : Zoned.Small n) : Zoned.wrap (-n) = -n := by
  unfold Zoned.Small at hn
  exact Zoned.wrap_of_range (by omega) (by omega)

theorem Zoned.small_neg (n : Int) (hn : Zoned.Small n) : Zoned.Small (-n) := by
  unfold Zoned.Small at hn ⊢
  omega

theorem Zoned.TimeKit.view_AddQuarters (tk : Zoned.TimeKit) (h : tk.Time.loc.Fixed) (n : Int)
    (hn : Zoned.Small n) : (tk.AddQuarters n).view = tk.view.AddQuarters n := by
  unfold Zoned.TimeKit.AddQuarters monthsPerQuarter
  rw [Zoned.wrap_mul_small 3 n (by decide) hn]
  exact tk.kit_view_AddDate h 0 (3 * n) 0

theorem Zoned.TimeKit.view_AddCenturies (tk : Zoned.TimeKit) (h : tk.Time.loc.Fixed) (n : Int)
    (hn : Zoned.Small n) : (tk.AddCenturies n).view = tk.view.AddCenturies n := by
  unfold Zoned.TimeKit.AddCenturies yearsPerCenturies
  rw [Zoned.wrap_mul_small 100 n (by decide) hn]
  exact tk.kit_view_AddDate h (100 * n) 0 0

theorem Zoned.TimeKit.view_AddWeeks (tk : Zoned.TimeKit) (h : tk.Time.loc.Fixed) (n : Int)
    (hn : Zoned.Small n) : (tk.AddWeeks n).view = tk.view.AddWeeks n := by
  unfold Zoned.TimeKit.AddWeeks daysPerWeek
  rw [Zoned.wrap_mul_small 7 n (by decide) hn]
  exact tk.kit_view_AddDate h 0 0 (7 * n)

/-- An operation that the first embedding inverts is inverted in a location without
transitions. -/
theorem Zoned.TimeKit.roundtrip_of_view (tk : Zoned.TimeKit)
    (f g : Zoned.TimeKit → Zoned.TimeKit) (f0 g0 : Timkit.TimeKit → Timkit.TimeKit)
    (hf : ∀ k : Zoned.TimeKit, k.Time.loc.Fixed → (f k).view = f0 k.view)
    (hg : ∀ k : Zoned.TimeKit, k.Time.loc.Fixed → (g k).view = g0 k.view)
    (lf : ∀ k : Zoned.TimeKit, (f k).Time.loc = k.Time.loc)
    (lg : ∀ k : Zoned.TimeKit, (g k).Time.loc = k.Time.loc)
    (h : tk.Time.loc.Fixed) (h0 : g0 (f0 tk.view) = tk.view) : g (f tk) = tk := by
  apply Zoned.TimeKit.eq_of_view
  · rw [lg, lf]
  · rw [hg _ (by rw [lf]; exact h), hf _ h, h0]

/-- The fields of a value are those of its view. -/
theorem Zoned.TimeKit.fields_view (k : Zoned.TimeKit) :
    k.Time.Year = k.view.Time.Year ∧ k.Time.Month = k.view.Time.Month ∧
    k.Time.Day = k.view.Time.Day ∧ k.Time.Hour = k.view.Time.Hour ∧
    k.Time.Minute = k.view.Time.Minute ∧ k.Time.Second = k.view.Time.Second ∧
    k.Time.Nanosecond = k.view.Time.Nanosecond ∧ k.Time.Weekday = k.view.Time.Weekday ∧
    k.Time.absDay = k.view.Time.absDay :=
  ⟨rfl, rfl, rfl, rfl, rfl, rfl, rfl, rfl, rfl⟩

theorem Zoned.TimeKit.valid_view (k : Zoned.TimeKit) (hv : k.Time.Valid) : k.view.Time.Valid :=
  ⟨hv.1, hv.2⟩

/-- The addition of a whole number of seconds, in every location. -/
theorem Zoned.Time.zoned_Add_seconds (t : Zoned.Time) (hv : t.Valid) (k : Int) :
    t.Add (k * 1000000000) = { t with unix := t.unix + k } := by
  rw [t.Add_viewAt 0, Timkit.Time.Add_seconds (t.viewAt 0) hv]
  rfl

/-- Adding `a` then `b` times 10^9 nanoseconds with `a + b = 0` gives the instant back, in
every location. -/
theorem Zoned.TimeKit.zoned_add_roundtrip (tk : Zoned.TimeKit) (hv : tk.Time.Valid) (a b : Int)
    (h : a + b = 0) :
    (tk.SetTime (tk.Time.Add (a * 1000000000))).SetTime
      ((tk.SetTime (tk.Time.Add (a * 1000000000))).Time.Add (b * 1000000000)) = tk := by
  have e1 := tk.Time.zoned_Add_seconds hv a
  have hv2 : ({ tk.Time with unix := tk.Time.unix + a } : Zoned.Time).Valid := hv
  have e2 := Zoned.Time.zoned_Add_seconds _ hv2 b
  have hb : b = -a := by omega
  subst hb
  show tk.SetTime ((tk.Time.Add (a * 1000000000)).Add (-a * 1000000000)) = tk
  rw [e1, e2]
  simp only [add_neg_cancel_right]
  rfl

theorem Zoned.TimeKit.Quarter_view (tk : Zoned.TimeKit) : tk.Quarter = tk.view.Quarter := rfl

theorem Zoned.TimeKit.view_Location (tk : Zoned.TimeKit) (h : tk.Time.loc.Fixed) :
    tk.view.Time.Location = tk.Time.loc.first := tk.Time.view_loc h

/-- The value built by `time.Date` from fields of the receiver, in a location without
transitions. -/
theorem Zoned.TimeKit.SetTime_Date (tk : Zoned.TimeKit) (h : tk.Time.loc.Fixed)
    (y m d hh mi s ns : Int) :
    tk.SetTime (Zoned.Date y m d hh mi s ns tk.Time.Location)
      = Zoned.TimeKit.ofView tk.Time.loc
          (tk.view.SetTime (Timkit.Date y m d hh mi s ns tk.view.Time.Location)) ∧
    (tk.SetTime (Zoned.Date y m d hh mi s ns tk.Time.Location)).view
      = tk.view.SetTime (Timkit.Date y m d hh mi s ns tk.view.Time.Location) := by
  have e : tk.SetTime (Zoned.Date y m d hh mi s ns tk.Time.Location)
      = Zoned.TimeKit.ofView tk.Time.loc
          (tk.view.SetTime (Timkit.Date y m d hh mi s ns tk.view.Time.Location)) := by
    rw [tk.view_Location h]
    show tk.SetTime (Zoned.Date y m d hh mi s ns tk.Time.loc) = _
    rw [Zoned.Date_fixed _ _ _ _ _ _ _ _ h]
    rfl
  refine ⟨e, ?_⟩
  rw [e, Zoned.TimeKit.kit_view_ofView _ _ h]
  exact tk.view_Location h

theorem Zoned.TimeKit.view_StartOfQuarter (tk : Zoned.TimeKit) (h : tk.Time.loc.Fixed) :
    tk.StartOfQuarter.view = tk.view.StartOfQuarter :=
  (tk.SetTime_Date h _ _ _ _ _ _ _).2

theorem Zoned.TimeKit.view_EndOfQuarter (tk : Zoned.TimeKit) (h : tk.Time.loc.Fixed) :
    tk.EndOfQuarter.view = tk.view.EndOfQuarter := by
  have hd : (Zoned.Date tk.Time.Year (tk.Quarter * monthsPerQuarter) 1 23 59 59 0
      tk.Time.Location).view
      = Timkit.Date tk.view.Time.Year (tk.view.Quarter * monthsPerQuarter) 1 23 59 59 0
          tk.view.Time.Location := by
    rw [tk.view_Location h]
    show (Zoned.Date tk.Time.Year (tk.Quarter * monthsPerQuarter) 1 23 59 59 0 tk.Time.loc).view
      = _
    rw [Zoned.Date_fixed _ _ _ _ _ _ _ _ h, Zoned.Time.view_ofView _ _ h (Date_loc _ _ _ _ _ _ _ _)]
    rfl
  have hf : (Zoned.Date tk.Time.Year (tk.Quarter * monthsPerQuarter) 1 23 59 59 0
      tk.Time.Location).loc.Fixed := h
  unfold Zoned.TimeKit.EndOfQuarter Timkit.TimeKit.EndOfQuarter
  simp only []
  rw [Zoned.TimeKit.view_SetTime, Zoned.Time.view_AddDate _ hf, hd]

theorem Zoned.TimeKit.weekLoop_stop (target step : Int) (t : Zoned.Time) :
    Zoned.TimeKit.weekLoop target step 0 t = if t.Weekday ≠ target then none else some t := by
  rw [Zoned.TimeKit.weekLoop]

theorem Zoned.TimeKit.weekLoop_move (target step : Int) (fuel : Nat) (t : Zoned.Time) :
    Zoned.TimeKit.weekLoop target step (fuel + 1) t =
      if t.Weekday ≠ target then Zoned.TimeKit.weekLoop target step fuel (t.AddDate 0 0 step)
      else some t := by
  rw [Zoned.TimeKit.weekLoop]

/-- In a location without transitions the week loop runs as in the first embedding. -/
theorem Zoned.TimeKit.weekLoop_view (target step : Int) :
    ∀ (fuel : Nat) (t : Zoned.Time), t.loc.Fixed →
      Zoned.TimeKit.weekLoop target step fuel t
        = (Timkit.TimeKit.weekLoop target step fuel t.view).map (Zoned.Time.ofView t.loc) := by
  intro fuel
  induction fuel with
  | zero =>
    intro t _
    rw [Zoned.TimeKit.weekLoop_stop, Timkit.TimeKit.weekLoop_zero]
    have hw : t.Weekday = t.view.Weekday := rfl
    rw [hw]
    split_ifs
    · rfl
    · simp only [Option.map_some', Zoned.Time.ofView_view]
  | succ n ih =>
    intro t ht
    rw [Zoned.TimeKit.weekLoop_move, Timkit.TimeKit.weekLoop_succ]
    have hw : t.Weekday = t.view.Weekday := rfl
    rw [hw]
    split_ifs
    · have hl : (t.AddDate 0 0 step).loc = t.loc := rfl
      rw [ih (t.AddDate 0 0 step) (by rw [hl]; exact ht), t.view_AddDate ht, hl]
    · simp only [Option.map_some', Zoned.Time.ofView_view]

/-- In a location without transitions `StartOfWeek` and `EndOfWeek` are those of the first
embedding. -/
theorem Zoned.TimeKit.week_fixed (tk : Zoned.TimeKit) (h : tk.Time.loc.Fixed) (fuel : Nat) :
    Zoned.TimeKit.StartOfWeek fuel tk
      = (Timkit.TimeKit.StartOfWeek fuel tk.view).map (Zoned.TimeKit.ofView tk.Time.loc) ∧
    Zoned.TimeKit.EndOfWeek fuel tk
      = (Timkit.TimeKit.EndOfWeek fuel tk.view).map (Zoned.TimeKit.ofView tk.Time.loc) := by
  have key : ∀ (target step hh mi s : Int),
      (Zoned.TimeKit.weekLoop target step fuel
          (Zoned.Date tk.Time.Year tk.Time.Month tk.Time.Day hh mi s 0 tk.Time.Location)).map
        tk.SetTime
      = ((Timkit.TimeKit.weekLoop target step fuel
          (Timkit.Date tk.view.Time.Year tk.view.Time.Month tk.view.Time.Day hh mi s 0
            tk.view.Time.Location)).map tk.view.SetTime).map
          (Zoned.TimeKit.ofView tk.Time.loc) := by
    intro target step hh mi s
    have hf : (Zoned.Date tk.Time.Year tk.Time.Month tk.Time.Day hh mi s 0
        tk.Time.Location).loc.Fixed := h
    have hd : (Zoned.Date tk.Time.Year tk.Time.Month tk.Time.Day hh mi s 0
        tk.Time.Location).view
        = Timkit.Date tk.view.Time.Year tk.view.Time.Month tk.view.Time.Day hh mi s 0
            tk.view.Time.Location := by
      rw [tk.view_Location h]
      show (Zoned.Date tk.Time.Year tk.Time.Month tk.Time.Day hh mi s 0 tk.Time.loc).view = _
      rw [Zoned.Date_fixed _ _ _ _ _ _ _ _ h,
        Zoned.Time.view_ofView _ _ h (Date_loc _ _ _ _ _ _ _ _)]
      rfl
    rw [Zoned.TimeKit.weekLoop_view target step fuel _ hf, hd, Option.map_map, Option.map_map]
    rfl
  exact ⟨key _ _ 0 0 0, key _ _ 23 59 59⟩

theorem Zoned.TimeKit.addWeekdaysLoop_stop (step wd : Int) (tk : Zoned.TimeKit) :
    Zoned.TimeKit.addWeekdaysLoop step 0 wd tk = if wd > 0 then none else some tk := by
  rw [Zoned.TimeKit.addWeekdaysLoop]

theorem Zoned.TimeKit.addWeekdaysLoop_move (step wd : Int) (fuel : Nat) (tk : Zoned.TimeKit) :
    Zoned.TimeKit.addWeekdaysLoop step (fuel + 1) wd tk =
      if wd > 0 then
        Zoned.TimeKit.addWeekdaysLoop step fuel
          (if (tk.AddDays step).IsWeekday = true then Zoned.wrap (wd - 1) else wd)
          (tk.AddDays step)
      else some tk := by
  rw [Zoned.TimeKit.addWeekdaysLoop]

theorem Zoned.TimeKit.IsWeekday_view (tk : Zoned.TimeKit) : tk.IsWeekday = tk.view.IsWeekday :=
  rfl

/-- A move by days in a location without transitions. -/
theorem Zoned.TimeKit.AddDays_ofView (tk : Zoned.TimeKit) (h : tk.Time.loc.Fixed) (d : Int) :
    tk.AddDays d = Zoned.TimeKit.ofView tk.Time.loc (tk.view.AddDays d) :=
  tk.SetTime_AddDate h 0 0 d

/-- In a location without transitions the loop of `AddWeekdays` runs as in the first
embedding, for a count within the 64-bit range. -/
theorem Zoned.TimeKit.addWeekdaysLoop_view (step : Int) :
    ∀ (fuel : Nat) (wd : Int) (tk : Zoned.TimeKit), tk.Time.loc.Fixed →
      wd ≤ 9223372036854775807 →
      Zoned.TimeKit.addWeekdaysLoop step fuel wd tk
        = (Timkit.TimeKit.addWeekdaysLoop step fuel wd tk.view).map
            (Zoned.TimeKit.ofView tk.Time.loc) := by
  intro fuel
  induction fuel with
  | zero =>
    intro wd tk _ _
    rw [Zoned.TimeKit.addWeekdaysLoop_stop, Timkit.TimeKit.addWeekdaysLoop_zero]
    split_ifs
    · rfl
    · simp only [Option.map_some', Zoned.TimeKit.kit_ofView_view]
  | succ n ih =>
    intro wd tk ht hwd
    rw [Zoned.TimeKit.addWeekdaysLoop_move, Timkit.TimeKit.addWeekdaysLoop_succ]
    split_ifs with h1 h2 h3 h3
    · have hl : (tk.AddDays step).Time.loc = tk.Time.loc := rfl
      rw [Zoned.wrap_of_range (x := wd - 1) (by omega) (by omega),
        ih (wd - 1) (tk.AddDays step) (by rw [hl]; exact ht) (by omega),
        tk.view_AddDays ht, hl]
    · rw [(tk.AddDays step).IsWeekday_view, tk.view_AddDays ht] at h2
      exact absurd h2 h3
    · rw [(tk.AddDays step).IsWeekday_view, tk.view_AddDays ht] at h2
      exact absurd h3 h2
    · have hl : (tk.AddDays step).Time.loc = tk.Time.loc := rfl
      rw [ih wd (tk.AddDays step) (by rw [hl]; exact ht) hwd, tk.view_AddDays ht, hl]
    · simp only [Option.map_some', Zoned.TimeKit.kit_ofView_view]

/-- In a location without transitions and for a count of at most 10^9 in magnitude,
`AddWeekdays` is that of the first embedding. -/
theorem Zoned.TimeKit.AddWeekdays_view (fuel : Nat) (tk : Zoned.TimeKit) (W : Int)
    (h : tk.Time.loc.Fixed) (hW : Zoned.Small W) :
    Zoned.TimeKit.AddWeekdays fuel tk W
      = (Timkit.TimeKit.AddWeekdays fuel tk.view W).map (Zoned.TimeKit.ofView tk.Time.loc) := by
  have hs := hW
  unfold Zoned.Small at hs
  unfold Zoned.TimeKit.AddWeekdays Timkit.TimeKit.AddWeekdays
  split_ifs
  · rw [Zoned.wrap_neg_small W hW]
    exact Zoned.TimeKit.addWeekdaysLoop_view (-1) fuel (-W) tk h (by omega)
  · exact Zoned.TimeKit.addWeekdaysLoop_view 1 fuel W tk h (by omega)

/-- The fields of a move by days in a location without transitions. -/
theorem Zoned.TimeKit.AddDays_fields (tk : Zoned.TimeKit) (h : tk.Time.loc.Fixed) (d : Int) :
    (tk.AddDays d).Time.absDay = (tk.view.AddDays d).Time.absDay ∧
    (tk.AddDays d).Time.Hour = (tk.view.AddDays d).Time.Hour ∧
    (tk.AddDays d).Time.Minute = (tk.view.AddDays d).Time.Minute ∧
    (tk.AddDays d).Time.Second = (tk.view.AddDays d).Time.Second ∧
    (tk.AddDays d).Time.Nanosecond = (tk.view.AddDays d).Time.Nanosecond ∧
    (tk.AddDays d).IsWeekday = (tk.view.AddDays d).IsWeekday := by
  obtain ⟨_, _, _, fH, fMi, fS, fN, _, fA⟩ := (tk.AddDays d).fields_view
  have fW := (tk.AddDays d).IsWeekday_view
  rw [tk.view_AddDays h d] at fH fMi fS fN fA fW
  exact ⟨fA, fH, fMi, fS, fN, fW⟩

/-- The helper `absoluteValue` on a value that fits a 64-bit integer with its negation. -/
theorem Zoned.absoluteValue_fits (abs : Bool) (v : Int) (hv : Zoned.Fits v) :
    Zoned.absoluteValue abs v = Timkit.absoluteValue abs v := by
  unfold Zoned.Fits at hv
  unfold Zoned.absoluteValue Timkit.absoluteValue
  split_ifs
  · exact Zoned.wrap_of_range (by omega) (by omega)
  · rfl

theorem Zoned.absoluteValue_signed (v : Int) : Zoned.absoluteValue false v = v := by
  unfold Zoned.absoluteValue
  simp only [Bool.false_eq_true, false_and, if_false]

/-- The value of `DiffInSeconds`: the wrapped difference of the Unix seconds, through
`absoluteValue`. -/
theorem Zoned.TimeKit.DiffInSeconds_wrap (now : Int) (tk t : Zoned.TimeKit) (abs : Bool) :
    tk.DiffInSeconds now (some t) abs
      = Zoned.absoluteValue abs (Zoned.wrap (t.Time.unix - tk.Time.unix)) := rfl

/-- When the difference of the Unix seconds fits, `DiffInSeconds` is that of the first
embedding. -/
theorem Zoned.TimeKit.DiffInSeconds_fits (now : Int) (tk t : Zoned.TimeKit) (abs : Bool)
    (h : Zoned.Fits (t.Time.unix - tk.Time.unix)) :
    tk.DiffInSeconds now (some t) abs
      = Timkit.absoluteValue abs (t.Time.unix - tk.Time.unix) := by
  have h' := h
  unfold Zoned.Fits at h'
  rw [Zoned.TimeKit.DiffInSeconds_wrap, Zoned.wrap_of_range (by omega) (by omega),
    Zoned.absoluteValue_fits abs _ h]

/-- Swapping the operands of the signed `DiffInSeconds` changes its sign when the difference
fits. -/
theorem Zoned.TimeKit.DiffInSeconds_swap_fits (now : Int) (tk t : Zoned.TimeKit)
    (h : Zoned.Fits (t.Time.Unix - tk.Time.Unix)) :
    tk.DiffInSeconds now (some t) false = -(t.DiffInSeconds now (some tk) false) := by
  have hu : ∀ x : Zoned.TimeKit, x.Time.Unix = x.Time.unix := fun _ => rfl
  rw [hu, hu] at h
  have h' : Zoned.Fits (tk.Time.unix - t.Time.unix) := by
    unfold Zoned.Fits at h ⊢
    omega
  rw [Zoned.TimeKit.DiffInSeconds_fits now tk t false h,
    Zoned.TimeKit.DiffInSeconds_fits now t tk false h', absoluteValue_false, absoluteValue_false]
  omega

/-- The value `countMonthDifference` computes, from year, month and day of the two
instants. -/
theorem Zoned.countMonthDifference_formula (t1 t2 : Zoned.Time) (abs : Bool) :
    Zoned.countMonthDifference t1 t2 abs = Zoned.absoluteValue abs
      (12 * (t1.Year - t2.Year) + (t1.Month - t2.Month) - (if t1.Day < t2.Day then 1 else 0)) := by
  have h := Timkit.countMonthDifference_eq t1.view t2.view false
  rw [absoluteValue_false] at h
  unfold Timkit.countMonthDifference at h
  simp only [absoluteValue_false] at h
  unfold Zoned.countMonthDifference
  simp only []
  congr 1

/-- The copy of a value has the year, month and day of the value, in its own location and in
UTC. -/
theorem Zoned.TimeKit.Copy_fields (tk : Zoned.TimeKit) :
    tk.Copy.Time.Location = tk.Time.Location ∧
    tk.Copy.Time.Year = tk.Time.Year ∧ tk.Copy.Time.Month = tk.Time.Month ∧
    tk.Copy.Time.Day = tk.Time.Day ∧
    (tk.Copy.Time.In Zoned.UTC).Year = (tk.Time.In Zoned.UTC).Year ∧
    (tk.Copy.Time.In Zoned.UTC).Month = (tk.Time.In Zoned.UTC).Month ∧
    (tk.Copy.Time.In Zoned.UTC).Day = (tk.Time.In Zoned.UTC).Day :=
  ⟨rfl, rfl, rfl, rfl, rfl, rfl, rfl⟩

/-- The value of `DiffInMonths`: from the fields in the common location when the two
location values are the same, and from the fields in UTC when they are not. -/
theorem Zoned.TimeKit.DiffInMonths_formula (now : Int) (tk t : Zoned.TimeKit) (abs : Bool) :
    (tk.Time.Location = t.Time.Location →
      tk.DiffInMonths now (some t) abs = Zoned.absoluteValue abs
        (12 * (tk.Time.Year - t.Time.Year) + (tk.Time.Month - t.Time.Month)
          - (if tk.Time.Day < t.Time.Day then 1 else 0))) ∧
    (tk.Time.Location ≠ t.Time.Location →
      tk.DiffInMonths now (some t) abs = Zoned.absoluteValue abs
        (12 * ((tk.Time.In Zoned.UTC).Year - (t.Time.In Zoned.UTC).Year)
          + ((tk.Time.In Zoned.UTC).Month - (t.Time.In Zoned.UTC).Month)
          - (if (tk.Time.In Zoned.UTC).Day < (t.Time.In Zoned.UTC).Day then 1 else 0))) := by
  obtain ⟨a0, a1, a2, a3, a4, a5, a6⟩ := tk.Copy_fields
  obtain ⟨b0, b1, b2, b3, b4, b5, b6⟩ := t.Copy_fields
  constructor
  · intro hl
    unfold Zoned.TimeKit.DiffInMonths Zoned.TimeKit.orNow
    simp only []
    rw [if_neg (by rw [a0, b0]; exact not_not.mpr hl), Zoned.countMonthDifference_formula,
      a1, a2, a3, b1, b2, b3]
  · intro hl
    unfold Zoned.TimeKit.DiffInMonths Zoned.TimeKit.orNow
    simp only []
    rw [if_pos (by rw [a0, b0]; exact hl), Zoned.countMonthDifference_formula,
      a4, a5, a6, b4, b5, b6]

theorem Zoned.TimeKit.diffFilteredLoop_stop (now : Int) (start : Zoned.TimeKit)
    (duration step : Int) (f : Zoned.Filter) (e : Zoned.TimeKit) (d : Int) :
    Zoned.TimeKit.diffFilteredLoop now start duration step f 0 e d =
      if step = 0 then some (Except.error "integer divide by zero")
      else if Zoned.wrap (quo (start.DiffInSeconds now (some e) true) step) > 0 then none
      else some (Except.ok d) := by
  rw [Zoned.TimeKit.diffFilteredLoop]

theorem Zoned.TimeKit.diffFilteredLoop_move (now : Int) (start : Zoned.TimeKit)
    (duration step : Int) (f : Zoned.Filter) (fuel : Nat) (e : Zoned.TimeKit) (d : Int) :
    Zoned.TimeKit.diffFilteredLoop now start duration step f (fuel + 1) e d =
      if step = 0 then some (Except.error "integer divide by zero")
      else if Zoned.wrap (quo (start.DiffInSeconds now (some e) true) step) > 0 then
        Zoned.TimeKit.diffFilteredLoop now start duration step f fuel
          (e.SetTime (e.Time.Add (Zoned.wrap (-duration))))
          (if f e = true then Zoned.wrap (d + 1) else d)
      else some (Except.ok d) := by
  rw [Zoned.TimeKit.diffFilteredLoop]

/-- The walk of `DiffFiltered` by a whole number `s` of seconds from a point at or after
`start` runs as in the first embedding, seen under any offset `o`, as long as the gap and
the count stay far from the ends of the 64-bit range. -/
theorem Zoned.TimeKit.diffFilteredLoop_viewAt (now : Int) (start : Zoned.TimeKit) (o : Int)
    (f : Zoned.Filter) (g : Timkit.Filter) (s : Int) (hs : 0 < s) (hs2 : s ≤ 9000000000)
    (l : Zoned.Location)
    (hfg : ∀ z : Zoned.TimeKit, z.Time.loc = l → f z = g (z.viewAt o)) :
    ∀ (fuel : Nat) (e : Zoned.TimeKit) (d : Int), e.Time.loc = l → e.Time.Valid →
      start.Time.unix ≤ e.Time.unix → e.Time.unix - start.Time.unix ≤ 4000000000000000000 →
      0 ≤ d → d + (e.Time.unix - start.Time.unix) / s ≤ 4000000000000000000 →
      Zoned.TimeKit.diffFilteredLoop now start (s * 1000000000) s f fuel e d
        = Timkit.TimeKit.diffFilteredLoop now (start.viewAt o) (s * 1000000000) s g fuel
            (e.viewAt o) d := by
  have test : ∀ e : Zoned.TimeKit, start.Time.unix ≤ e.Time.unix →
      e.Time.unix - start.Time.unix ≤ 4000000000000000000 →
      Zoned.wrap (quo (start.DiffInSeconds now (some e) true) s)
        = (e.Time.unix - start.Time.unix) / s ∧
      quo ((start.viewAt o).DiffInSeconds now (some (e.viewAt o)) true) s
        = (e.Time.unix - start.Time.unix) / s ∧
      0 ≤ (e.Time.unix - start.Time.unix) / s ∧
      (e.Time.unix - start.Time.unix) / s ≤ e.Time.unix - start.Time.unix := by
    intro e h1 h2
    have hg : 0 ≤ e.Time.unix - start.Time.unix := by omega
    have hq0 := Int.ediv_nonneg hg (le_of_lt hs)
    have hq1 : (e.Time.unix - start.Time.unix) / s ≤ e.Time.unix - start.Time.unix :=
      Int.ediv_le_self _ hg
    have e1 : start.DiffInSeconds now (some e) true = e.Time.unix - start.Time.unix := by
      rw [Zoned.TimeKit.DiffInSeconds_fits now start e true (by unfold Zoned.Fits; omega),
        absoluteValue_true, abs_of_nonneg hg]
    have e2 : (start.viewAt o).DiffInSeconds now (some (e.viewAt o)) true
        = e.Time.unix - start.Time.unix := by
      rw [Timkit.TimeKit.DiffInSeconds_abs]
      exact abs_of_nonneg hg
    rw [e1, e2, quo_of_nonneg hg (le_of_lt hs)]
    exact ⟨Zoned.wrap_of_range (by omega) (by omega), rfl, hq0, hq1⟩
  intro fuel
  induction fuel with
  | zero =>
    intro e d _ _ h1 h2 _ _
    obtain ⟨t1, t2, _, _⟩ := test e h1 h2
    rw [Zoned.TimeKit.diffFilteredLoop_stop, Timkit.TimeKit.diffFilteredLoop_zero, t1, t2]
  | succ n ih =>
    intro e d hl hv h1 h2 hd hdb
    obtain ⟨t1, t2, t3, t4⟩ := test e h1 h2
    rw [Zoned.TimeKit.diffFilteredLoop_move, Timkit.TimeKit.diffFilteredLoop_succ, t1, t2,
      if_neg (ne_of_gt hs), if_neg (ne_of_gt hs)]
    by_cases hpos : (e.Time.unix - start.Time.unix) / s > 0
    · rw [if_pos hpos, if_pos hpos]
      have hge : s ≤ e.Time.unix - start.Time.unix := by
        have := (Int.le_ediv_iff_mul_le hs).1
          (show 1 ≤ (e.Time.unix - start.Time.unix) / s by omega)
        omega
      have hdiv : (e.Time.unix + (-s) - start.Time.unix) / s
          = (e.Time.unix - start.Time.unix) / s - 1 := by
        have := Int.add_mul_ediv_right (e.Time.unix - start.Time.unix) (-1) (ne_of_gt hs)
        rw [show e.Time.unix + (-s) - start.Time.unix
          = e.Time.unix - start.Time.unix + (-1) * s by ring, this]
        omega
      have hw : Zoned.wrap (-(s * 1000000000)) = (-s) * 1000000000 := by
        rw [Zoned.wrap_of_range (by omega) (by omega)]
        ring
      have hadd : e.Time.Add ((-s) * 1000000000) = { e.Time with unix := e.Time.unix + (-s) } :=
        e.Time.zoned_Add_seconds hv (-s)
      have hadd0 : (e.viewAt o).Time.Add (-(s * 1000000000))
          = { (e.viewAt o).Time with unix := e.Time.unix + (-s) } := by
        rw [show -(s * 1000000000) = (-s) * 1000000000 by ring]
        exact Timkit.Time.Add_seconds (e.viewAt o).Time hv (-s)
      have hd1 : Zoned.wrap (d + 1) = d + 1 := Zoned.wrap_of_range (by omega) (by omega)
      rw [hw, hadd, hadd0, hd1, ← hfg e hl]
      have hnext := ih (e.SetTime { e.Time with unix := e.Time.unix + (-s) })
        (if f e = true then d + 1 else d) hl hv
        (by show start.Time.unix ≤ e.Time.unix + (-s); omega)
        (by show e.Time.unix + (-s) - start.Time.unix ≤ 4000000000000000000; omega)
        (by split_ifs <;> omega)
        (by
          show (if f e = true then d + 1 else d) + (e.Time.unix + (-s) - start.Time.unix) / s
            ≤ 4000000000000000000
          rw [hdiv]
          split_ifs <;> omega)
      rw [hnext]
      rfl
    · rw [if_neg hpos, if_neg hpos]

/-- The copies `DiffFiltered` works on, seen under an offset. -/
theorem Zoned.TimeKit.Copy_viewAt (tk : Zoned.TimeKit) (o : Int) :
    tk.Copy.viewAt o = (tk.viewAt o).Copy ∧ tk.Copy.Time.unix = tk.Time.unix ∧
    tk.Copy.Time.loc = tk.Time.loc ∧ tk.Copy.Time.Valid ∧
    (∀ u : Zoned.TimeKit, tk.Copy.Time.After u.Copy.Time
      = (tk.viewAt o).Copy.Time.After (u.viewAt o).Copy.Time) :=
  ⟨rfl, rfl, rfl, ⟨le_refl (0 : Int), show (0 : Int) < 1000000000 by decide⟩, fun _ => rfl⟩

/-- For two instants within 10^15 seconds of the epoch, a unit of a whole number `s` of
seconds that `Duration.Seconds` converts exactly and fuel for every whole unit of the gap, `DiffFiltered` runs as in the first
embedding, seen under any offset `o`, with a predicate that agrees on the location of the
instant that walks (the later one). -/
theorem Zoned.TimeKit.DiffFiltered_viewAt (now : Int) (tk t : Zoned.TimeKit) (o : Int)
    (f : Zoned.Filter) (g : Timkit.Filter) (abs : Bool) (fuel : Nat) (s : Int)
    (hs : 0 < s) (hs2 : s ≤ 9000000000)
    (hsec : (Zoned.Seconds (s * Timkit.Second)).toInt64 = s)
    (h1 : tk.Time.InRange) (h2 : t.Time.InRange)
    (hfuel : |t.Time.unix - tk.Time.unix| / s ≤ fuel)
    (hfg : ∀ z : Zoned.TimeKit,
      z.Time.loc = (if t.Time.unix < tk.Time.unix then tk.Time.loc else t.Time.loc) →
      f z = g (z.viewAt o)) :
    tk.DiffFiltered fuel now (some t) (s * Timkit.Second) f abs
      = Timkit.TimeKit.DiffFiltered fuel now (tk.viewAt o) (some (t.viewAt o))
          (s * Timkit.Second) g abs := by
  unfold Zoned.Time.InRange at h1 h2
  obtain ⟨a1, a2, a3, a4, a5⟩ := tk.Copy_viewAt o
  obtain ⟨b1, b2, b3, b4, _⟩ := t.Copy_viewAt o
  have hstep : quo (s * Timkit.Second) Timkit.Second = s := by
    unfold quo Timkit.Second
    exact Int.mul_tdiv_cancel _ (by decide)
  have hgapdiv : ∀ x : Int, 0 ≤ x → x / s ≤ x := fun x hx => Int.ediv_le_self _ hx
  unfold Zoned.TimeKit.DiffFiltered Timkit.TimeKit.DiffFiltered Zoned.TimeKit.orNow
    Timkit.TimeKit.orNow
  simp only []
  rw [hsec, hstep, show s * Timkit.Second = s * 1000000000 from rfl, a5 t, ← a1, ← b1]
  by_cases hafter : (tk.Copy.viewAt o).Time.After (t.Copy.viewAt o).Time = true
  · have hlt : t.Time.unix < tk.Time.unix := by
      unfold Timkit.Time.After at hafter
      have := of_decide_eq_true hafter
      have e1 : (tk.Copy.viewAt o).Time.unix = tk.Time.unix := rfl
      have e2 : (t.Copy.viewAt o).Time.unix = t.Time.unix := rfl
      have e3 : (tk.Copy.viewAt o).Time.nsec = 0 := rfl
      have e4 : (t.Copy.viewAt o).Time.nsec = 0 := rfl
      rw [e1, e2, e3, e4] at this
      omega
    rw [if_pos hlt] at hfg
    have habs : |t.Time.unix - tk.Time.unix| = tk.Time.unix - t.Time.unix := by
      rw [abs_of_neg (by omega)]; omega
    rw [habs] at hfuel
    have hq := hgapdiv (tk.Time.unix - t.Time.unix) (by omega)
    rw [hafter]
    simp only [if_true, Zoned.swap, Timkit.swap]
    rw [Zoned.TimeKit.diffFilteredLoop_viewAt now t.Copy o f g s hs hs2 tk.Time.loc hfg fuel
      tk.Copy 0 a3 a4 (by rw [a2, b2]; omega) (by rw [a2, b2]; omega) (le_refl _)
      (by rw [a2, b2]; omega)]
    obtain ⟨r, hr, r1, r2, _⟩ := Timkit.TimeKit.diffFilteredLoop_count now (t.Copy.viewAt o) g s
      hs fuel (tk.Copy.viewAt o) 0 a4 (by show t.Time.unix ≤ tk.Time.unix; omega)
      (by show (tk.Time.unix - t.Time.unix) / s ≤ fuel; exact hfuel)
    have r2 : r ≤ 0 + (tk.Time.unix - t.Time.unix) / s := r2
    rw [hr]
    simp only []
    rw [Zoned.wrap_of_range (by omega) (by omega),
      Zoned.absoluteValue_fits abs _ (by unfold Zoned.Fits; omega)]
  · have hle : tk.Time.unix ≤ t.Time.unix := by
      by_contra hc
      apply hafter
      unfold Timkit.Time.After
      exact decide_eq_true (Or.inl (by show tk.Time.unix > t.Time.unix; omega))
    rw [if_neg (by omega)] at hfg
    have habs : |t.Time.unix - tk.Time.unix| = t.Time.unix - tk.Time.unix :=
      abs_of_nonneg (by omega)
    rw [habs] at hfuel
    have hq := hgapdiv (t.Time.unix - tk.Time.unix) (by omega)
    rw [Bool.not_eq_true] at hafter
    rw [hafter]
    simp only [Bool.false_eq_true, if_false]
    rw [Zoned.TimeKit.diffFilteredLoop_viewAt now tk.Copy o f g s hs hs2 t.Time.loc hfg fuel
      t.Copy 0 b3 b4 (by rw [a2, b2]; omega) (by rw [a2, b2]; omega) (le_refl _)
      (by rw [a2, b2]; omega)]
    obtain ⟨r, hr, r1, r2, _⟩ := Timkit.TimeKit.diffFilteredLoop_count now (tk.Copy.viewAt o) g s
      hs fuel (t.Copy.viewAt o) 0 b4 (by show tk.Time.unix ≤ t.Time.unix; omega)
      (by show (t.Time.unix - tk.Time.unix) / s ≤ fuel; exact hfuel)
    have r2 : r ≤ 0 + (t.Time.unix - tk.Time.unix) / s := r2
    rw [hr]
    simp only []
    rw [Zoned.absoluteValue_fits abs _ (by unfold Zoned.Fits; omega)]

/-- When the difference of the Unix seconds fits, `DiffInDays` and `DiffInHours` are those
of the first embedding. -/
theorem Zoned.TimeKit.DiffInDays_fits (now : Int) (tk t : Zoned.TimeKit) (abs : Bool)
    (o : Int) (h : Zoned.Fits (t.Time.unix - tk.Time.unix)) :
    tk.DiffInDays now (some t) abs
      = Timkit.TimeKit.DiffInDays now (tk.viewAt o) (some (t.viewAt o)) abs ∧
    tk.DiffInHours now (some t) abs
      = Timkit.TimeKit.DiffInHours now (tk.viewAt o) (some (t.viewAt o)) abs := by
  have e := Zoned.TimeKit.DiffInSeconds_fits now tk t abs h
  have d1 : tk.DiffInDays now (some t) abs
      = quo (quo (quo (tk.DiffInSeconds now (some t) abs) 60) 60) 24 := rfl
  have d2 : tk.DiffInHours now (some t) abs
      = quo (quo (tk.DiffInSeconds now (some t) abs) 60) 60 := rfl
  rw [d1, d2, e]
  exact ⟨rfl, rfl⟩

/-! ## Claims -/

/-- Claim C1: for every year `y`, `AddMonthsNoOverflow(1)` applied to January 31st of `y`
(at 15:04:05) yields December 31st of year `y - 1`, not the last day of February of `y`:
the naive addition rolls over into March, and the replacement date is taken from the
instant before the addition. -/
theorem C1_addMonthsNoOverflow_jan31 (y : Int) :
    ((NewTimeKit (Date y 1 31 15 4 5 0 0)).AddMonthsNoOverflow 1).Time
      = Date (y - 1) 12 31 15 4 5 0 0 ∧
    ((NewTimeKit (Date y 1 31 15 4 5 0 0)).AddMonthsNoOverflow 1).Time.Year = y - 1 ∧
    ((NewTimeKit (Date y 1 31 15 4 5 0 0)).AddMonthsNoOverflow 1).Time.Month = 12 ∧
    ((NewTimeKit (Date y 1 31 15 4 5 0 0)).AddMonthsNoOverflow 1).Time.Day = 31 := by
  have hdec : daysIn (y - 1) 12 = 31 := by
    unfold daysIn
    simp only [db11, db12, Int.reduceSub, Int.reduceEq, false_and, if_false]
  obtain ⟨fY, fM, fD, fH, fMi, fS, fN, fL⟩ := Date_fields y 1 31 15 4 5 0 0 (by decide)
    ⟨by decide, by rw [daysIn_jan]⟩ (by decide) (by decide) (by decide) (by decide)
  have hv := Date_valid y 1 31 15 4 5 0 0
  -- the naive addition lands on March 2nd or 3rd
  have hnaive : ((Date y 1 31 15 4 5 0 0).AddDate 0 1 0).Day ≠ 31 := by
    unfold Time.AddDate Time.Nanosecond Time.Location
    rw [fY, fM, fD, fH, fMi, fS, fN, fL]
    obtain ⟨w1, _⟩ := (Date (y + 0) (1 + 1) (31 + 0) 15 4 5 0 0).of_wall
      (daysFromCivil y 3 (if isLeap y = true then 2 else 3)) (15 * 3600 + 4 * 60 + 5)
      (by
        rw [Date_eq]
        simp only [Int.reduceAdd, Int.reduceSub, Int.reduceDiv, Int.reduceMod, add_zero,
          Int.reduceMul]
        unfold daysFromCivil
        simp only [db0, db1, db2, Int.reduceSub, Int.reduceLE, ge_iff_le, and_false, if_false,
          and_true]
        split_ifs <;> omega)
      (by decide) (by decide)
    have hd3 : daysIn y 3 = 31 := by
      unfold daysIn
      simp only [db2, db3, Int.reduceSub, Int.reduceEq, false_and, if_false]
    obtain ⟨_, _, c3⟩ := (Date (y + 0) (1 + 1) (31 + 0) 15 4 5 0 0).civil_of_absDay y 3
      (if isLeap y = true then 2 else 3) (by decide) (by decide) (by split_ifs <;> decide)
      (by rw [hd3]; split_ifs <;> decide) w1
    rw [c3]
    split_ifs <;> decide
  have hres : ((NewTimeKit (Date y 1 31 15 4 5 0 0)).AddMonthsNoOverflow 1).Time
      = Date (y - 1) 12 31 15 4 5 0 0 := by
    unfold TimeKit.AddMonthsNoOverflow TimeKit.LastDayOfPreMonth TimeKit.SetTime
    simp only [NewTimeKit_Time, fD]
    rw [if_pos (fun h => hnaive h.symm)]
    rw [Time.AddDate_days _ hv, Date_eq, Date_eq]
    simp only [Int.reduceAdd, Int.reduceSub, Int.reduceDiv, Int.reduceMod, add_zero,
      Int.reduceMul, Int.reduceNeg]
    have hs := daysSinceEpoch_succ (y - 1)
    rw [show y - 1 + 1 = y by omega] at hs
    unfold daysFromCivil
    simp only [db0, db11, Int.reduceSub, Int.reduceLE, ge_iff_le, and_false, if_false, and_true,
      Time.mk.injEq]
    split_ifs at hs ⊢ <;> omega
  rw [hres]
  obtain ⟨gY, gM, gD, _⟩ := Date_fields (y - 1) 12 31 15 4 5 0 0 (by decide)
    ⟨by decide, by rw [hdec]⟩ (by decide) (by decide) (by decide) (by decide)
  exact ⟨rfl, gY, gM, gD⟩

/-- Claim C2, amended: when the two operands carry the same location value, the signed
`DiffInMonths` equals `12 * (y1 - y2) + (m1 - m2) - (1 if d1 < d2 else 0)` with year, month
and day of the two instants in that location; when their location values are distinct, even
for the same zone, it equals that number with year, month and day of the two instants in
UTC.  The absolute result is the magnitude of that number whenever the number fits a 64-bit
integer together with its negation.  For 2021-01-02 and 2020-09-18, both in UTC, the absolute
result is 3. -/
theorem C2_diffInMonths_by_location (now : Int) (tk t : Zoned.TimeKit) :
    (tk.Time.Location = t.Time.Location →
      tk.DiffInMonths now (some t) false
        = 12 * (tk.Time.Year - t.Time.Year) + (tk.Time.Month - t.Time.Month)
            - (if tk.Time.Day < t.Time.Day then 1 else 0) ∧
      (Zoned.Fits (12 * (tk.Time.Year - t.Time.Year) + (tk.Time.Month - t.Time.Month)
            - (if tk.Time.Day < t.Time.Day then 1 else 0)) →
        tk.DiffInMonths now (some t) true
          = |12 * (tk.Time.Year - t.Time.Year) + (tk.Time.Month - t.Time.Month)
              - (if tk.Time.Day < t.Time.Day then 1 else 0)|)) ∧
    (tk.Time.Location ≠ t.Time.Location →
      tk.DiffInMonths now (some t) false
        = 12 * ((tk.Time.In Zoned.UTC).Year - (t.Time.In Zoned.UTC).Year)
            + ((tk.Time.In Zoned.UTC).Month - (t.Time.In Zoned.UTC).Month)
            - (if (tk.Time.In Zoned.UTC).Day < (t.Time.In Zoned.UTC).Day then 1 else 0) ∧
      (Zoned.Fits (12 * ((tk.Time.In Zoned.UTC).Year - (t.Time.In Zoned.UTC).Year)
            + ((tk.Time.In Zoned.UTC).Month - (t.Time.In Zoned.UTC).Month)
            - (if (tk.Time.In Zoned.UTC).Day < (t.Time.In Zoned.UTC).Day then 1 else 0)) →
        tk.DiffInMonths now (some t) true
          = |12 * ((tk.Time.In Zoned.UTC).Year - (t.Time.In Zoned.UTC).Year)
              + ((tk.Time.In Zoned.UTC).Month - (t.Time.In Zoned.UTC).Month)
              - (if (tk.Time.In Zoned.UTC).Day < (t.Time.In Zoned.UTC).Day then 1 else 0)|)) ∧
    (Zoned.NewTimeKit (Zoned.Date 2021 1 2 15 4 5 0 Zoned.UTC)).DiffInMonths 0
      (some (Zoned.NewTimeKit (Zoned.Date 2020 9 18 10 30 40 0 Zoned.UTC))) true = 3 := by
  refine ⟨fun hl => ?_, fun hl => ?_, by decide⟩
  · rw [(Zoned.TimeKit.DiffInMonths_formula now tk t false).1 hl,
      (Zoned.TimeKit.DiffInMonths_formula now tk t true).1 hl, Zoned.absoluteValue_signed]
    refine ⟨rfl, fun hf => ?_⟩
    rw [Zoned.absoluteValue_fits true _ hf, absoluteValue_true]
  · rw [(Zoned.TimeKit.DiffInMonths_formula now tk t false).2 hl,
      (Zoned.TimeKit.DiffInMonths_formula now tk t true).2 hl, Zoned.absoluteValue_signed]
    refine ⟨rfl, fun hf => ?_⟩
    rw [Zoned.absoluteValue_fits true _ hf, absoluteValue_true]

set_option maxRecDepth 100000 in
/-- Claim C2 as stated fails: 2021-03-01 02:00:00 and 2021-02-01 02:00:00, each in a location
of its own made for the offset of eight hours east of UTC, are dates of the same zone with
`12 * (y1 - y2) + (m1 - m2) - (1 if d1 < d2 else 0) = 1`, and `DiffInMonths` between them is
0: the two location values differ, so the dates are read in UTC, where they are 2021-02-28
and 2021-01-31. -/
theorem C2_diffInMonths_by_location_counterexample :
    (Zoned.Date 2021 3 1 2 0 0 0 (Zoned.FixedZone 7 28800)).offset
      = (Zoned.Date 2021 2 1 2 0 0 0 (Zoned.FixedZone 8 28800)).offset ∧
    12 * ((Zoned.Date 2021 3 1 2 0 0 0 (Zoned.FixedZone 7 28800)).Year
          - (Zoned.Date 2021 2 1 2 0 0 0 (Zoned.FixedZone 8 28800)).Year)
        + ((Zoned.Date 2021 3 1 2 0 0 0 (Zoned.FixedZone 7 28800)).Month
          - (Zoned.Date 2021 2 1 2 0 0 0 (Zoned.FixedZone 8 28800)).Month)
        - (if (Zoned.Date 2021 3 1 2 0 0 0 (Zoned.FixedZone 7 28800)).Day
            < (Zoned.Date 2021 2 1 2 0 0 0 (Zoned.FixedZone 8 28800)).Day then 1 else 0) = 1 ∧
    (Zoned.NewTimeKit (Zoned.Date 2021 3 1 2 0 0 0 (Zoned.FixedZone 7 28800))).DiffInMonths 0
      (some (Zoned.NewTimeKit (Zoned.Date 2021 2 1 2 0 0 0 (Zoned.FixedZone 8 28800)))) false = 0 ∧
    (Zoned.NewTimeKit (Zoned.Date 2021 3 1 2 0 0 0 (Zoned.FixedZone 7 28800))).DiffInMonths 0
      (some (Zoned.NewTimeKit (Zoned.Date 2021 2 1 2 0 0 0 (Zoned.FixedZone 7 28800)))) false = 1 ∧
    ((Zoned.Date 2021 3 1 2 0 0 0 (Zoned.FixedZone 7 28800)).In Zoned.UTC).Day = 28 ∧
    ((Zoned.Date 2021 2 1 2 0 0 0 (Zoned.FixedZone 8 28800)).In Zoned.UTC).Day = 31 := by
  decide

/-- Claim C3, amended: in a location with a fixed UTC offset, for a valid instant within
10^15 seconds of 1970 and a count `n` of at most 10^9 in magnitude, `AddMonths(n)` followed
by `AddMonths(-n)` gives the original value back whenever `AddMonths(n)` kept the day of the
month; likewise for `AddQuarters`, `AddYears` and `AddCenturies`.  A day of the month of at
most 28 is always kept. -/
theorem C3_calendar_roundtrip (tk : Zoned.TimeKit) (n : Int) (hv : tk.Time.Valid)
    (hfix : tk.Time.Location.Fixed) (_hr : tk.Time.InRange) (hn : Zoned.Small n) :
    ((tk.AddMonths n).Time.Day = tk.Time.Day → (tk.AddMonths n).AddMonths (-n) = tk) ∧
    ((tk.AddQuarters n).Time.Day = tk.Time.Day → (tk.AddQuarters n).AddQuarters (-n) = tk) ∧
    ((tk.AddYears n).Time.Day = tk.Time.Day → (tk.AddYears n).AddYears (-n) = tk) ∧
    ((tk.AddCenturies n).Time.Day = tk.Time.Day → (tk.AddCenturies n).AddCenturies (-n) = tk) ∧
    (tk.Time.Day ≤ 28 →
      (tk.AddMonths n).Time.Day = tk.Time.Day ∧ (tk.AddQuarters n).Time.Day = tk.Time.Day ∧
      (tk.AddYears n).Time.Day = tk.Time.Day ∧ (tk.AddCenturies n).Time.Day = tk.Time.Day) := by
  obtain ⟨o1, o2, o3, o4, o5⟩ := calendar_add_roundtrip tk.view n (tk.valid_view hv)
  have hn' := Zoned.small_neg n hn
  have dM : (tk.AddMonths n).Time.Day = (tk.view.AddMonths n).Time.Day := by
    rw [(tk.AddMonths n).fields_view.2.2.1, tk.view_AddMonths hfix n]
  have dQ : (tk.AddQuarters n).Time.Day = (tk.view.AddQuarters n).Time.Day := by
    rw [(tk.AddQuarters n).fields_view.2.2.1, tk.view_AddQuarters hfix n hn]
  have dY : (tk.AddYears n).Time.Day = (tk.view.AddYears n).Time.Day := by
    rw [(tk.AddYears n).fields_view.2.2.1, tk.view_AddYears hfix n]
  have dC : (tk.AddCenturies n).Time.Day = (tk.view.AddCenturies n).Time.Day := by
    rw [(tk.AddCenturies n).fields_view.2.2.1, tk.view_AddCenturies hfix n hn]
  have d0 : tk.Time.Day = tk.view.Time.Day := tk.fields_view.2.2.1
  refine ⟨fun h => ?_, fun h => ?_, fun h => ?_, fun h => ?_, fun h => ?_⟩
  · exact tk.roundtrip_of_view (fun k => k.AddMonths n) (fun k => k.AddMonths (-n))
      (fun k => k.AddMonths n) (fun k => k.AddMonths (-n))
      (fun k hk => k.view_AddMonths hk n) (fun k hk => k.view_AddMonths hk (-n))
      (fun _ => rfl) (fun _ => rfl) hfix (o1 (by rw [← dM, ← d0]; exact h))
  · exact tk.roundtrip_of_view (fun k => k.AddQuarters n) (fun k => k.AddQuarters (-n))
      (fun k => k.AddQuarters n) (fun k => k.AddQuarters (-n))
      (fun k hk => k.view_AddQuarters hk n hn) (fun k hk => k.view_AddQuarters hk (-n) hn')
      (fun _ => rfl) (fun _ => rfl) hfix (o2 (by rw [← dQ, ← d0]; exact h))
  · exact tk.roundtrip_of_view (fun k => k.AddYears n) (fun k => k.AddYears (-n))
      (fun k => k.AddYears n) (fun k => k.AddYears (-n))
      (fun k hk => k.view_AddYears hk n) (fun k hk => k.view_AddYears hk (-n))
      (fun _ => rfl) (fun _ => rfl) hfix (o3 (by rw [← dY, ← d0]; exact h))
  · exact tk.roundtrip_of_view (fun k => k.AddCenturies n) (fun k => k.AddCenturies (-n))
      (fun k => k.AddCenturies n) (fun k => k.AddCenturies (-n))
      (fun k hk => k.view_AddCenturies hk n hn) (fun k hk => k.view_AddCenturies hk (-n) hn')
      (fun _ => rfl) (fun _ => rfl) hfix (o4 (by rw [← dC, ← d0]; exact h))
  · rw [dM, dQ, dY, dC, d0]
    exact o5 h

set_option maxRecDepth 100000 in
/-- Claim C3 as stated fails: in UTC one month after 2021-01-31 is 2021-03-03, and one month
before that is 2021-02-03; one year after 2020-02-29 is 2021-03-01, and one year before that
is 2020-03-01.  In New York one month after 2021-02-14 02:30:00 is 2021-03-14 01:30:00,
because 02:30 does not exist on that day, and one month before that is 2021-02-14
01:30:00. -/
theorem C3_calendar_roundtrip_counterexample :
    ((Zoned.NewTimeKit (Zoned.Date 2021 1 31 15 4 5 0 Zoned.UTC)).AddMonths 1).AddMonths (-1)
      = Zoned.NewTimeKit (Zoned.Date 2021 2 3 15 4 5 0 Zoned.UTC) ∧
    ((Zoned.NewTimeKit (Zoned.Date 2021 1 31 15 4 5 0 Zoned.UTC)).AddMonths 1).AddMonths (-1)
      ≠ Zoned.NewTimeKit (Zoned.Date 2021 1 31 15 4 5 0 Zoned.UTC) ∧
    ((Zoned.NewTimeKit (Zoned.Date 2020 2 29 15 4 5 0 Zoned.UTC)).AddYears 1).AddYears (-1)
      ≠ Zoned.NewTimeKit (Zoned.Date 2020 2 29 15 4 5 0 Zoned.UTC) ∧
    ((Zoned.NewTimeKit (Zoned.Date 2021 2 14 2 30 0 0 Zoned.NewYork)).AddMonths 1)
      = Zoned.NewTimeKit (Zoned.Date 2021 3 14 1 30 0 0 Zoned.NewYork) ∧
    ((Zoned.NewTimeKit (Zoned.Date 2021 2 14 2 30 0 0 Zoned.NewYork)).AddMonths 1).AddMonths (-1)
      = Zoned.NewTimeKit (Zoned.Date 2021 2 14 1 30 0 0 Zoned.NewYork) := by decide

set_option maxRecDepth 100000 in
/-- Claim C3 as amended, at 2021-01-02 15:04:05 UTC and `n = 7`. -/
theorem C3_calendar_roundtrip_witness :
    (Zoned.NewTimeKit (Zoned.Date 2021 1 2 15 4 5 0 Zoned.UTC)).Time.Valid ∧
    (Zoned.NewTimeKit (Zoned.Date 2021 1 2 15 4 5 0 Zoned.UTC)).Time.Location.Fixed ∧
    (Zoned.NewTimeKit (Zoned.Date 2021 1 2 15 4 5 0 Zoned.UTC)).Time.InRange ∧
    Zoned.Small 7 ∧
    (((Zoned.NewTimeKit (Zoned.Date 2021 1 2 15 4 5 0 Zoned.UTC)).AddMonths 7).AddMonths (-7)
      = Zoned.NewTimeKit (Zoned.Date 2021 1 2 15 4 5 0 Zoned.UTC)) :=
  ⟨by decide, by decide, by decide, by decide,
    (C3_calendar_roundtrip (Zoned.NewTimeKit (Zoned.Date 2021 1 2 15 4 5 0 Zoned.UTC)) 7
      (by decide) (by decide) (by decide) (by decide)).1 (by decide)⟩

/-- Claim C4, amended: for a valid instant within 10^15 seconds of 1970, in every location,
`AddSeconds(n)` followed by `AddSeconds(-n)` or by `SubSeconds(n)` gives the original value
back whenever the duration of `n` seconds fits a 64-bit count of nanoseconds, and likewise
for `AddMinutes` and `AddHours`; in a location with a fixed UTC offset and for `n` of at
most 10^9 in magnitude the same holds for `AddDays` and `AddWeeks`. -/
theorem C4_unit_roundtrip (tk : Zoned.TimeKit) (n : Int) (hv : tk.Time.Valid)
    (_hr : tk.Time.InRange) :
    (Zoned.Fits (n * Second) →
      (tk.AddSeconds n).AddSeconds (-n) = tk ∧ (tk.AddSeconds n).SubSeconds n = tk) ∧
    (Zoned.Fits (n * Minute) →
      (tk.AddMinutes n).AddMinutes (-n) = tk ∧ (tk.AddMinutes n).SubMinutes n = tk) ∧
    (Zoned.Fits (n * Hour) →
      (tk.AddHours n).AddHours (-n) = tk ∧ (tk.AddHours n).SubHours n = tk) ∧
    (tk.Time.Location.Fixed → Zoned.Small n →
      (tk.AddDays n).AddDays (-n) = tk ∧ (tk.AddDays n).SubDays n = tk) ∧
    (tk.Time.Location.Fixed → Zoned.Small n →
      (tk.AddWeeks n).AddWeeks (-n) = tk ∧ (tk.AddWeeks n).SubWeeks n = tk) := by
  obtain ⟨_, _, _, ⟨od, _⟩, ⟨ow, _⟩⟩ := fixed_unit_add_roundtrip tk.view n (tk.valid_view hv)
  refine ⟨fun hf => ?_, fun hf => ?_, fun hf => ?_, fun hfix hn => ?_, fun hfix hn => ?_⟩
  · unfold Zoned.Fits Second at hf
    have hs : (tk.AddSeconds n).AddSeconds (-n) = tk := by
      unfold Zoned.TimeKit.AddSeconds Second
      simp only []
      rw [Zoned.wrap_of_range (x := n * 1000000000) (by omega) (by omega),
        Zoned.wrap_of_range (x := -n * 1000000000) (by omega) (by omega)]
      exact tk.zoned_add_roundtrip hv n (-n) (by omega)
    refine ⟨hs, ?_⟩
    unfold Zoned.TimeKit.SubSeconds
    rw [Zoned.wrap_of_range (x := -n) (by omega) (by omega)]
    exact hs
  · unfold Zoned.Fits Minute Second at hf
    have hs : (tk.AddMinutes n).AddMinutes (-n) = tk := by
      unfold Zoned.TimeKit.AddMinutes Minute Second
      simp only []
      rw [Zoned.wrap_of_range (x := n * (60 * 1000000000)) (by omega) (by omega),
        Zoned.wrap_of_range (x := -n * (60 * 1000000000)) (by omega) (by omega),
        show n * (60 * 1000000000) = (n * 60) * 1000000000 by omega,
        show -n * (60 * 1000000000) = (-n * 60) * 1000000000 by omega]
      exact tk.zoned_add_roundtrip hv (n * 60) (-n * 60) (by omega)
    refine ⟨hs, ?_⟩
    unfold Zoned.TimeKit.SubMinutes
    rw [Zoned.wrap_of_range (x := -n) (by omega) (by omega)]
    exact hs
  · unfold Zoned.Fits Hour Minute Second at hf
    have hs : (tk.AddHours n).AddHours (-n) = tk := by
      unfold Zoned.TimeKit.AddHours Hour Minute Second
      simp only []
      rw [Zoned.wrap_of_range (x := n * (60 * (60 * 1000000000))) (by omega) (by omega),
        Zoned.wrap_of_range (x := -n * (60 * (60 * 1000000000))) (by omega) (by omega),
        show n * (60 * (60 * 1000000000)) = (n * 3600) * 1000000000 by omega,
        show -n * (60 * (60 * 1000000000)) = (-n * 3600) * 1000000000 by omega]
      exact tk.zoned_add_roundtrip hv (n * 3600) (-n * 3600) (by omega)
    refine ⟨hs, ?_⟩
    unfold Zoned.TimeKit.SubHours
    rw [Zoned.wrap_of_range (x := -n) (by omega) (by omega)]
    exact hs
  · have hs : (tk.AddDays n).AddDays (-n) = tk :=
      tk.roundtrip_of_view (fun k => k.AddDays n) (fun k => k.AddDays (-n))
        (fun k => k.AddDays n) (fun k => k.AddDays (-n))
        (fun k hk => k.view_AddDays hk n) (fun k hk => k.view_AddDays hk (-n))
        (fun _ => rfl) (fun _ => rfl) hfix od
    refine ⟨hs, ?_⟩
    unfold Zoned.TimeKit.SubDays
    rw [Zoned.wrap_neg_small n hn]
    exact hs
  · have hn' := Zoned.small_neg n hn
    have hs : (tk.AddWeeks n).AddWeeks (-n) = tk :=
      tk.roundtrip_of_view (fun k => k.AddWeeks n) (fun k => k.AddWeeks (-n))
        (fun k => k.AddWeeks n) (fun k => k.AddWeeks (-n))
        (fun k hk => k.view_AddWeeks hk n hn) (fun k hk => k.view_AddWeeks hk (-n) hn')
        (fun _ => rfl) (fun _ => rfl) hfix ow
    refine ⟨hs, ?_⟩
    unfold Zoned.TimeKit.SubWeeks
    rw [Zoned.wrap_neg_small n hn]
    exact hs

set_option maxRecDepth 100000 in
/-- Claim C4 as stated fails: in New York one day after 2021-03-13 02:30:00 is 2021-03-14
01:30:00, because 02:30 does not exist on that day, and one day before that is 2021-03-13
01:30:00.  In UTC, the duration of 2^50 hours wraps around to the least 64-bit count of
nanoseconds, and so does that of -2^50 hours: `AddHours(2^50)` followed by `AddHours(-2^50)`
moves 2021-01-02 15:04:05 back twice, to 1436-06-14 15:29:31.290448384. -/
theorem C4_unit_roundtrip_counterexample :
    (Zoned.NewTimeKit (Zoned.Date 2021 3 13 2 30 0 0 Zoned.NewYork)).AddDays 1
      = Zoned.NewTimeKit (Zoned.Date 2021 3 14 1 30 0 0 Zoned.NewYork) ∧
    ((Zoned.NewTimeKit (Zoned.Date 2021 3 13 2 30 0 0 Zoned.NewYork)).AddDays 1).AddDays (-1)
      = Zoned.NewTimeKit (Zoned.Date 2021 3 13 1 30 0 0 Zoned.NewYork) ∧
    ((Zoned.NewTimeKit (Zoned.Date 2021 3 13 2 30 0 0 Zoned.NewYork)).AddDays 1).AddDays (-1)
      ≠ Zoned.NewTimeKit (Zoned.Date 2021 3 13 2 30 0 0 Zoned.NewYork) ∧
    Zoned.wrap (1125899906842624 * Hour) = -9223372036854775808 ∧
    Zoned.wrap (-1125899906842624 * Hour) = -9223372036854775808 ∧
    ((Zoned.NewTimeKit (Zoned.Date 2021 1 2 15 4 5 0 Zoned.UTC)).AddHours
        1125899906842624).AddHours (-1125899906842624)
      = Zoned.NewTimeKit (Zoned.Date 1436 6 14 15 29 31 290448384 Zoned.UTC) := by decide

set_option maxRecDepth 100000 in
/-- Claim C4 as amended, at 2021-01-02 15:04:05 UTC and `n = 16`. -/
theorem C4_unit_roundtrip_witness :
    (Zoned.NewTimeKit (Zoned.Date 2021 1 2 15 4 5 0 Zoned.UTC)).Time.Valid ∧
    (Zoned.NewTimeKit (Zoned.Date 2021 1 2 15 4 5 0 Zoned.UTC)).Time.InRange ∧
    Zoned.Fits (16 * Hour) ∧
    (((Zoned.NewTimeKit (Zoned.Date 2021 1 2 15 4 5 0 Zoned.UTC)).AddHours 16).AddHours (-16)
      = Zoned.NewTimeKit (Zoned.Date 2021 1 2 15 4 5 0 Zoned.UTC)) :=
  ⟨by decide, by decide, by decide,
    ((C4_unit_roundtrip (Zoned.NewTimeKit (Zoned.Date 2021 1 2 15 4 5 0 Zoned.UTC)) 16
      (by decide) (by decide)).2.2.1 (by decide)).1⟩

/-- Claim C5, amended: in a location with a fixed UTC offset, with the default weekend
{Saturday, Sunday}, for a valid instant within 10^15 seconds of 1970 and a count `W` of at
most 10^9 in magnitude, `AddWeekdays(W)` returns within `3 * |W|` runs of its loop body and
moves the instant by `k` whole days in the direction of the sign of `W`, the time of day
unchanged, where `k` is the least number of days such that exactly `|W|` of the `k` days
stepped onto are weekdays; `AddWeekdays(0)` changes nothing and for `W ≠ 0` the result is a
weekday.  From Saturday 2021-01-02 15:04:05 UTC, five weekdays lead to Friday 2021-01-08
15:04:05. -/
theorem C5_addWeekdays_days (tk : Zoned.TimeKit) (W : Int) (hv : tk.Time.Valid)
    (hw : tk.weekendDays = [Saturday, Sunday]) (hfix : tk.Time.Location.Fixed)
    (_hr : tk.Time.InRange) (hW : Zoned.Small W) :
    (∃ k : Nat,
      (∀ fuel : Nat, 3 * W.natAbs ≤ fuel →
        Zoned.TimeKit.AddWeekdays fuel tk W = some (tk.AddDays (W.sign * k))) ∧
      (tk.AddDays (W.sign * k)).Time.absDay = tk.Time.absDay + W.sign * k ∧
      (tk.AddDays (W.sign * k)).Time.Hour = tk.Time.Hour ∧
      (tk.AddDays (W.sign * k)).Time.Minute = tk.Time.Minute ∧
      (tk.AddDays (W.sign * k)).Time.Second = tk.Time.Second ∧
      (tk.AddDays (W.sign * k)).Time.Nanosecond = tk.Time.Nanosecond ∧
      (List.range k).countP (fun i : Nat => (tk.AddDays (W.sign * ((i : Int) + 1))).IsWeekday)
        = W.natAbs ∧
      (∀ j : Nat, j < k →
        (List.range j).countP (fun i : Nat => (tk.AddDays (W.sign * ((i : Int) + 1))).IsWeekday)
          < W.natAbs) ∧
      (W = 0 → tk.AddDays (W.sign * k) = tk) ∧
      (W ≠ 0 → (tk.AddDays (W.sign * k)).IsWeekday = true)) ∧
    (Zoned.NewTimeKit (Zoned.Date 2021 1 2 15 4 5 0 Zoned.UTC)).Time.Weekday = Saturday ∧
    Zoned.TimeKit.AddWeekdays 15 (Zoned.NewTimeKit (Zoned.Date 2021 1 2 15 4 5 0 Zoned.UTC)) 5
      = some (Zoned.NewTimeKit (Zoned.Date 2021 1 8 15 4 5 0 Zoned.UTC)) ∧
    (Zoned.NewTimeKit (Zoned.Date 2021 1 8 15 4 5 0 Zoned.UTC)).Time.Weekday = Friday := by
  have hfix' : tk.Time.loc.Fixed := hfix
  obtain ⟨⟨k, hrun, a1, a2, a3, a4, a5, a6, a7, a8, a9⟩, _⟩ :=
    addWeekdays_days tk.view W (tk.valid_view hv) hw
  obtain ⟨_, _, _, fH, fMi, fS, fN, _, fA⟩ := tk.fields_view
  have hfun : (fun i : Nat => (tk.AddDays (W.sign * ((i : Int) + 1))).IsWeekday)
      = (fun i : Nat => (tk.view.AddDays (W.sign * ((i : Int) + 1))).IsWeekday) := by
    funext i
    exact (tk.AddDays_fields hfix' _).2.2.2.2.2
  obtain ⟨dA, dH, dMi, dS, dN, dW⟩ := tk.AddDays_fields hfix' (W.sign * k)
  refine ⟨⟨k, ?_, ?_, ?_, ?_, ?_, ?_, ?_, ?_, ?_, ?_⟩, by decide, by decide, by decide⟩
  · intro fuel hf
    rw [Zoned.TimeKit.AddWeekdays_view fuel tk W hfix' hW, hrun fuel hf, tk.AddDays_ofView hfix']
    rfl
  · rw [dA, fA]; exact a1
  · rw [dH, fH]; exact a2
  · rw [dMi, fMi]; exact a3
  · rw [dS, fS]; exact a4
  · rw [dN, fN]; exact a5
  · rw [hfun]; exact a6
  · rw [hfun]; exact a7
  · intro h0
    rw [tk.AddDays_ofView hfix', a8 h0]
    rfl
  · intro h0
    rw [dW]; exact a9 h0

set_option maxRecDepth 100000 in
/-- Claim C5 as stated fails: in New York one weekday after Friday 2021-03-12 02:30:00 is
Monday 2021-03-15 01:30:00, because the walk passes Sunday 2021-03-14, on which 02:30 does
not exist: the time of day has changed.  And for the least 64-bit count `W`, the negation of
`W` wraps around to `W`, the loop does not run, and Saturday 2021-01-02 stays as it is, a
weekend day. -/
theorem C5_addWeekdays_days_counterexample :
    (Zoned.NewTimeKit (Zoned.Date 2021 3 12 2 30 0 0 Zoned.NewYork)).Time.Weekday = Friday ∧
    Zoned.TimeKit.AddWeekdays 3 (Zoned.NewTimeKit (Zoned.Date 2021 3 12 2 30 0 0 Zoned.NewYork)) 1
      = some (Zoned.NewTimeKit (Zoned.Date 2021 3 15 1 30 0 0 Zoned.NewYork)) ∧
    (Zoned.Date 2021 3 15 1 30 0 0 Zoned.NewYork).Hour = 1 ∧
    Zoned.TimeKit.AddWeekdays 0 (Zoned.NewTimeKit (Zoned.Date 2021 1 2 15 4 5 0 Zoned.UTC))
        (-9223372036854775808)
      = some (Zoned.NewTimeKit (Zoned.Date 2021 1 2 15 4 5 0 Zoned.UTC)) ∧
    (Zoned.NewTimeKit (Zoned.Date 2021 1 2 15 4 5 0 Zoned.UTC)).IsWeekday = false := by decide

set_option maxRecDepth 100000 in
/-- Claim C5 as amended, at Saturday 2021-01-02 15:04:05 UTC with `W = 5`. -/
theorem C5_addWeekdays_days_witness :
    (Zoned.NewTimeKit (Zoned.Date 2021 1 2 15 4 5 0 Zoned.UTC)).Time.Valid ∧
    (Zoned.NewTimeKit (Zoned.Date 2021 1 2 15 4 5 0 Zoned.UTC)).weekendDays
      = [Saturday, Sunday] ∧
    (Zoned.NewTimeKit (Zoned.Date 2021 1 2 15 4 5 0 Zoned.UTC)).Time.Location.Fixed ∧
    (Zoned.NewTimeKit (Zoned.Date 2021 1 2 15 4 5 0 Zoned.UTC)).Time.InRange ∧
    Zoned.Small 5 ∧
    Zoned.TimeKit.AddWeekdays 15 (Zoned.NewTimeKit (Zoned.Date 2021 1 2 15 4 5 0 Zoned.UTC)) 5
      = some (Zoned.NewTimeKit (Zoned.Date 2021 1 8 15 4 5 0 Zoned.UTC)) :=
  ⟨by decide, by decide, by decide, by decide, by decide,
    (C5_addWeekdays_days (Zoned.NewTimeKit (Zoned.Date 2021 1 2 15 4 5 0 Zoned.UTC)) 5
      (by decide) (by decide) (by decide) (by decide) (by decide)).2.2.1⟩

/-- Claim C6, amended: in a location with a fixed UTC offset, for an instant within 10^15
seconds of 1970 and a week start that is one of the seven weekdays, `StartOfWeek` returns
after at most 6 backward steps of one day, at 00:00:00 on the latest date that is not after
the date of the instant and falls on the week-start day, which is 0 to 6 days back;
`EndOfWeek` returns at 23:59:59 on the earliest date not before the date of the instant that
falls on the week-end day.  From 2021-01-02 in UTC with the week starting on Monday the
result is 2020-12-28 00:00:00. -/
theorem C6_week_bounds (tk : Zoned.TimeKit) (hfix : tk.Time.Location.Fixed)
    (_hr : tk.Time.InRange) :
    ((0 ≤ tk.weekStartAt ∧ tk.weekStartAt ≤ 6) →
      ∃ (r : Zoned.TimeKit) (k : Nat), k ≤ 6 ∧
        (∀ fuel : Nat, k ≤ fuel → Zoned.TimeKit.StartOfWeek fuel tk = some r) ∧
        r.Time.absDay = tk.Time.absDay - k ∧
        r.Time.Hour = 0 ∧ r.Time.Minute = 0 ∧ r.Time.Second = 0 ∧ r.Time.Nanosecond = 0 ∧
        r.Time.Location = tk.Time.Location ∧
        r.Time.Weekday = tk.weekStartAt ∧
        (∀ u : Zoned.Time, u.absDay ≤ tk.Time.absDay → u.Weekday = tk.weekStartAt →
          u.absDay ≤ r.Time.absDay)) ∧
    ((0 ≤ tk.weekEndAt ∧ tk.weekEndAt ≤ 6) →
      ∃ (r : Zoned.TimeKit) (k : Nat), k ≤ 6 ∧
        (∀ fuel : Nat, k ≤ fuel → Zoned.TimeKit.EndOfWeek fuel tk = some r) ∧
        r.Time.absDay = tk.Time.absDay + k ∧
        r.Time.Hour = 23 ∧ r.Time.Minute = 59 ∧ r.Time.Second = 59 ∧ r.Time.Nanosecond = 0 ∧
        r.Time.Location = tk.Time.Location ∧
        r.Time.Weekday = tk.weekEndAt ∧
        (∀ u : Zoned.Time, tk.Time.absDay ≤ u.absDay → u.Weekday = tk.weekEndAt →
          r.Time.absDay ≤ u.absDay)) ∧
    (Zoned.NewTimeKit (Zoned.Date 2021 1 2 15 4 5 0 Zoned.UTC)).weekStartAt = Monday ∧
    Zoned.TimeKit.StartOfWeek 6 (Zoned.NewTimeKit (Zoned.Date 2021 1 2 15 4 5 0 Zoned.UTC))
      = some (Zoned.NewTimeKit (Zoned.Date 2020 12 28 0 0 0 0 Zoned.UTC)) := by
  obtain ⟨os, oe, _, _⟩ := week_boundaries tk.view
  have hfix' : tk.Time.loc.Fixed := hfix
  have hl0 : tk.view.Time.Location = tk.Time.loc.first := tk.view_Location hfix'
  refine ⟨fun ht => ?_, fun ht => ?_, by decide, by decide⟩
  · obtain ⟨r, k, hk, hrun, r1, r2, r3, r4, r5, r6, r7, r8⟩ := os ht
    have hv : (Zoned.TimeKit.ofView tk.Time.loc r).view = r :=
      Zoned.TimeKit.kit_view_ofView _ _ hfix' (r6.trans hl0)
    obtain ⟨_, _, _, fH, fMi, fS, fN, fW, fA⟩ := (Zoned.TimeKit.ofView tk.Time.loc r).fields_view
    rw [hv] at fH fMi fS fN fW fA
    refine ⟨Zoned.TimeKit.ofView tk.Time.loc r, k, hk, ?_, ?_, ?_, ?_, ?_, ?_, rfl, ?_, ?_⟩
    · intro fuel hf
      rw [(tk.week_fixed hfix' fuel).1, hrun fuel hf]
      rfl
    · rw [fA, r1]; rfl
    · rw [fH, r2]
    · rw [fMi, r3]
    · rw [fS, r4]
    · rw [fN, r5]
    · rw [fW, r7]; rfl
    · intro u hu hw
      rw [fA]
      exact r8 u.view hu hw
  · obtain ⟨r, k, hk, hrun, r1, r2, r3, r4, r5, r6, r7, r8⟩ := oe ht
    have hv : (Zoned.TimeKit.ofView tk.Time.loc r).view = r :=
      Zoned.TimeKit.kit_view_ofView _ _ hfix' (r6.trans hl0)
    obtain ⟨_, _, _, fH, fMi, fS, fN, fW, fA⟩ := (Zoned.TimeKit.ofView tk.Time.loc r).fields_view
    rw [hv] at fH fMi fS fN fW fA
    refine ⟨Zoned.TimeKit.ofView tk.Time.loc r, k, hk, ?_, ?_, ?_, ?_, ?_, ?_, rfl, ?_, ?_⟩
    · intro fuel hf
      rw [(tk.week_fixed hfix' fuel).2, hrun fuel hf]
      rfl
    · rw [fA, r1]; rfl
    · rw [fH, r2]
    · rw [fMi, r3]
    · rw [fS, r4]
    · rw [fN, r5]
    · rw [fW, r7]; rfl
    · intro u hu hw
      rw [fA]
      exact r8 u.view hu hw

set_option maxRecDepth 100000 in
/-- Claim C6 as stated fails: in Havana the clocks went from 00:00 to 01:00 on Sunday
2021-03-14, so midnight does not exist on that day; for 2021-03-14 12:00:00 with the week
starting on Sunday, `StartOfWeek` yields 2021-03-07 23:00:00, a week before the date of the
instant and at hour 23. -/
theorem C6_week_bounds_counterexample :
    (Zoned.NewTimeKit (Zoned.Date 2021 3 14 12 0 0 0 Zoned.Havana)).Time.Weekday = Sunday ∧
    Zoned.TimeKit.StartOfWeek 6
        ((Zoned.NewTimeKit (Zoned.Date 2021 3 14 12 0 0 0 Zoned.Havana)).SetWeekStartsAt Sunday)
      = some ((Zoned.NewTimeKit (Zoned.Date 2021 3 7 23 0 0 0 Zoned.Havana)).SetWeekStartsAt
          Sunday) ∧
    (Zoned.Date 2021 3 7 23 0 0 0 Zoned.Havana).Hour = 23 ∧
    (Zoned.Date 2021 3 7 23 0 0 0 Zoned.Havana).absDay
      = (Zoned.Date 2021 3 14 12 0 0 0 Zoned.Havana).absDay - 7 := by decide

set_option maxRecDepth 100000 in
/-- Claim C6 as amended, at 2021-01-02 15:04:05 UTC with the default week start, Monday. -/
theorem C6_week_bounds_witness :
    (Zoned.NewTimeKit (Zoned.Date 2021 1 2 15 4 5 0 Zoned.UTC)).Time.Location.Fixed ∧
    (Zoned.NewTimeKit (Zoned.Date 2021 1 2 15 4 5 0 Zoned.UTC)).Time.InRange ∧
    (0 ≤ (Zoned.NewTimeKit (Zoned.Date 2021 1 2 15 4 5 0 Zoned.UTC)).weekStartAt ∧
      (Zoned.NewTimeKit (Zoned.Date 2021 1 2 15 4 5 0 Zoned.UTC)).weekStartAt ≤ 6) ∧
    ∃ (r : Zoned.TimeKit) (k : Nat), k ≤ 6 ∧
      (∀ fuel : Nat, k ≤ fuel →
        Zoned.TimeKit.StartOfWeek fuel (Zoned.NewTimeKit (Zoned.Date 2021 1 2 15 4 5 0 Zoned.UTC))
          = some r) ∧
      r.Time.Weekday = (Zoned.NewTimeKit (Zoned.Date 2021 1 2 15 4 5 0 Zoned.UTC)).weekStartAt :=
  ⟨by decide, by decide, by decide, by
    obtain ⟨r, k, hk, hl, _, _, _, _, _, _, hw, _⟩ :=
      (C6_week_bounds (Zoned.NewTimeKit (Zoned.Date 2021 1 2 15 4 5 0 Zoned.UTC)) (by decide)
        (by decide)).1 (by decide)
    exact ⟨r, k, hk, hl, hw⟩⟩

/-- Claim C7: for every instant, `EndOfMonth` yields the last day of the month of the
instant, in the same year and month, but at 00:00:00 and not at 23:59:59; from
2021-01-02 15:04:05 it yields 2021-01-31 00:00:00.  `StartOfMonth` yields the first day of
the month at 00:00:00. -/
theorem C7_endOfMonth_clock (tk : TimeKit) :
    tk.EndOfMonth.Time.Year = tk.Time.Year ∧ tk.EndOfMonth.Time.Month = tk.Time.Month ∧
    tk.EndOfMonth.Time.Day = daysIn tk.Time.Year tk.Time.Month ∧
    tk.EndOfMonth.Time.Hour = 0 ∧ tk.EndOfMonth.Time.Minute = 0 ∧
    tk.EndOfMonth.Time.Second = 0 ∧
    (tk.EndOfMonth.Time.Hour, tk.EndOfMonth.Time.Minute, tk.EndOfMonth.Time.Second)
      ≠ (23, 59, 59) ∧
    (tk.StartOfMonth.Time.Year = tk.Time.Year ∧ tk.StartOfMonth.Time.Month = tk.Time.Month ∧
      tk.StartOfMonth.Time.Day = 1 ∧ tk.StartOfMonth.Time.Hour = 0 ∧
      tk.StartOfMonth.Time.Minute = 0 ∧ tk.StartOfMonth.Time.Second = 0) ∧
    (NewTimeKit (Date 2021 1 2 15 4 5 0 0)).EndOfMonth
      = NewTimeKit (Date 2021 1 31 0 0 0 0 0) := by
  obtain ⟨m1, m12, _, _, _⟩ := tk.Time.civil_spec
  have hb := daysIn_bounds tk.Time.Year tk.Time.Month m1 m12
  obtain ⟨fY, fM, fD, fH, fMi, fS, _, _⟩ := Date_fields tk.Time.Year tk.Time.Month
    (daysIn tk.Time.Year tk.Time.Month) 0 0 0 0 tk.Time.Location ⟨m1, m12⟩
    ⟨by omega, le_refl _⟩ (by decide) (by decide) (by decide) (by decide)
  obtain ⟨gY, gM, gD, gH, gMi, gS, _, _⟩ := Date_fields tk.Time.Year tk.Time.Month 1 0 0 0 0
    tk.Time.Location ⟨m1, m12⟩ ⟨by decide, by omega⟩ (by decide) (by decide) (by decide) (by decide)
  rw [TimeKit.EndOfMonth_eq, TimeKit.SetTime_Time]
  refine ⟨fY, fM, fD, fH, fMi, fS, ?_, ⟨gY, gM, gD, gH, gMi, gS⟩, by decide⟩
  rw [fH, fMi, fS]
  decide

/-- Claim C8: `StartOfCentury` yields January 1st 00:00:00 of year `y - y % 100` and
`EndOfCentury` December 31st 23:59:59 of year `y - 1 - y % 100 + 100`, with Go's remainder,
which takes the sign of `y`.  In 2021 these are 2000-01-01 00:00:00 and 2099-12-31 23:59:59.
For the year -50 they are 0000-01-01 and 0099-12-31, not -0100-01-01 and -0001-12-31: the
start of the century then lies after the instant. -/
theorem C8_century_boundaries (tk : TimeKit) :
    (tk.StartOfCentury.Time.Year = tk.Time.Year - rem tk.Time.Year 100 ∧
      tk.StartOfCentury.Time.Month = 1 ∧ tk.StartOfCentury.Time.Day = 1 ∧
      tk.StartOfCentury.Time.Hour = 0 ∧ tk.StartOfCentury.Time.Minute = 0 ∧
      tk.StartOfCentury.Time.Second = 0) ∧
    (tk.EndOfCentury.Time.Year = tk.Time.Year - 1 - rem tk.Time.Year 100 + 100 ∧
      tk.EndOfCentury.Time.Month = 12 ∧ tk.EndOfCentury.Time.Day = 31 ∧
      tk.EndOfCentury.Time.Hour = 23 ∧ tk.EndOfCentury.Time.Minute = 59 ∧
      tk.EndOfCentury.Time.Second = 59) ∧
    ((NewTimeKit (Date 2021 1 2 15 4 5 0 0)).StartOfCentury
        = NewTimeKit (Date 2000 1 1 0 0 0 0 0) ∧
      (NewTimeKit (Date 2021 1 2 15 4 5 0 0)).EndOfCentury
        = NewTimeKit (Date 2099 12 31 23 59 59 0 0)) ∧
    ((NewTimeKit (Date (-50) 1 2 15 4 5 0 0)).Time.Year = -50 ∧
      (NewTimeKit (Date (-50) 1 2 15 4 5 0 0)).StartOfCentury
        = NewTimeKit (Date 0 1 1 0 0 0 0 0) ∧
      (NewTimeKit (Date (-50) 1 2 15 4 5 0 0)).StartOfCentury.Time.Year = 0 ∧
      (NewTimeKit (Date (-50) 1 2 15 4 5 0 0)).StartOfCentury.Time.After
        (NewTimeKit (Date (-50) 1 2 15 4 5 0 0)).Time = true ∧
      (NewTimeKit (Date (-50) 1 2 15 4 5 0 0)).EndOfCentury
        = NewTimeKit (Date 99 12 31 23 59 59 0 0) ∧
      (NewTimeKit (Date (-50) 1 2 15 4 5 0 0)).EndOfCentury.Time.Year = 99) := by
  obtain ⟨fY, fM, fD, fH, fMi, fS, _, _⟩ := Date_fields (tk.Time.Year - rem tk.Time.Year 100) 1 1
    0 0 0 0 tk.Time.Location (by decide) ⟨by decide, by rw [daysIn_jan]; decide⟩ (by decide)
    (by decide) (by decide) (by decide)
  obtain ⟨gY, gM, gD, gH, gMi, gS, _, _⟩ := Date_fields
    (tk.Time.Year - 1 - rem tk.Time.Year 100 + 100) 12 31 23 59 59 0 tk.Time.Location
    (by decide) ⟨by decide, by rw [daysIn_dec]⟩ (by decide) (by decide) (by decide) (by decide)
  exact ⟨⟨fY, fM, fD, fH, fMi, fS⟩, ⟨gY, gM, gD, gH, gMi, gS⟩, by decide, by decide⟩

/-- Claim C9, amended: whenever the difference of the Unix seconds of the two instants fits
a 64-bit integer together with its negation, `DiffInSeconds(other, false)` is the Unix
seconds of `other` minus those of the receiver; it is positive exactly when `other` has the
greater count of Unix seconds, which implies that `other` is the later instant, and it is
the negation of the result with the operands swapped.  `DiffInSeconds(other, true)` is the
magnitude of that difference and is never negative. -/
theorem C9_diffInSeconds_fits (now : Int) (tk t : Zoned.TimeKit)
    (h : Zoned.Fits (t.Time.Unix - tk.Time.Unix)) :
    tk.DiffInSeconds now (some t) false = t.Time.Unix - tk.Time.Unix ∧
    (0 < tk.DiffInSeconds now (some t) false ↔ tk.Time.Unix < t.Time.Unix) ∧
    (0 < tk.DiffInSeconds now (some t) false → t.Time.After tk.Time = true) ∧
    (t.Time.After tk.Time = true → 0 ≤ tk.DiffInSeconds now (some t) false) ∧
    tk.DiffInSeconds now (some t) false = -(t.DiffInSeconds now (some tk) false) ∧
    tk.DiffInSeconds now (some t) true = |t.Time.Unix - tk.Time.Unix| ∧
    0 ≤ tk.DiffInSeconds now (some t) true := by
  have hu : ∀ x : Zoned.TimeKit, x.Time.Unix = x.Time.unix := fun _ => rfl
  rw [hu, hu] at h ⊢
  have h' : Zoned.Fits (tk.Time.unix - t.Time.unix) := by
    unfold Zoned.Fits at h ⊢
    omega
  rw [Zoned.TimeKit.DiffInSeconds_fits now tk t false h,
    Zoned.TimeKit.DiffInSeconds_fits now tk t true h,
    Zoned.TimeKit.DiffInSeconds_fits now t tk false h', absoluteValue_false, absoluteValue_false,
    absoluteValue_true]
  refine ⟨rfl, by omega, ?_, ?_, by omega, rfl, abs_nonneg _⟩
  · intro hp
    unfold Zoned.Time.After
    exact decide_eq_true (Or.inl (by omega))
  · intro ha
    unfold Zoned.Time.After at ha
    have := of_decide_eq_true ha
    omega

set_option maxRecDepth 100000 in
/-- Claim C9 as stated fails: an instant half a second after 1970-01-01 00:00:00 is later
than that instant, and the difference in seconds is 0, which is not positive.  And between
the instants 2^62 seconds after and 2^62 seconds before 1970 the 64-bit difference wraps
around: the absolute result is the least 64-bit integer, a negative number, and the signed
results in the two directions are equal instead of opposite. -/
theorem C9_diffInSeconds_fits_counterexample :
    ((Zoned.NewTimeKit (Zoned.Time.mk 0 500000000 Zoned.UTC)).Time.After
        (Zoned.NewTimeKit (Zoned.Time.mk 0 0 Zoned.UTC)).Time = true ∧
      (Zoned.NewTimeKit (Zoned.Time.mk 0 0 Zoned.UTC)).DiffInSeconds 0
        (some (Zoned.NewTimeKit (Zoned.Time.mk 0 500000000 Zoned.UTC))) false = 0) ∧
    (Zoned.NewTimeKit (Zoned.Time.mk 4611686018427387904 0 Zoned.UTC)).DiffInSeconds 0
      (some (Zoned.NewTimeKit (Zoned.Time.mk (-4611686018427387904) 0 Zoned.UTC))) true
        = -9223372036854775808 ∧
    (Zoned.NewTimeKit (Zoned.Time.mk 4611686018427387904 0 Zoned.UTC)).DiffInSeconds 0
      (some (Zoned.NewTimeKit (Zoned.Time.mk (-4611686018427387904) 0 Zoned.UTC))) false
        = -9223372036854775808 ∧
    (Zoned.NewTimeKit (Zoned.Time.mk (-4611686018427387904) 0 Zoned.UTC)).DiffInSeconds 0
      (some (Zoned.NewTimeKit (Zoned.Time.mk 4611686018427387904 0 Zoned.UTC))) false
        = -9223372036854775808 := by decide

set_option maxRecDepth 100000 in
/-- Claim C9 as amended, between 2021-01-02 15:04:05 UTC and the instant 100 seconds
later. -/
theorem C9_diffInSeconds_fits_witness :
    Zoned.Fits ((Zoned.NewTimeKit (Zoned.Time.mk 1609599945 0 Zoned.UTC)).Time.Unix
      - (Zoned.NewTimeKit (Zoned.Time.mk 1609599845 0 Zoned.UTC)).Time.Unix) ∧
    (Zoned.NewTimeKit (Zoned.Time.mk 1609599845 0 Zoned.UTC)).DiffInSeconds 0
      (some (Zoned.NewTimeKit (Zoned.Time.mk 1609599945 0 Zoned.UTC))) false = 100 :=
  ⟨by decide, (C9_diffInSeconds_fits 0 (Zoned.NewTimeKit (Zoned.Time.mk 1609599845 0 Zoned.UTC))
    (Zoned.NewTimeKit (Zoned.Time.mk 1609599945 0 Zoned.UTC)) (by decide)).1.trans (by decide)⟩

/-- Claim C10, amended: for every pair of instants and either value of the flag,
`DiffInMinutes`, `DiffInHours` and `DiffInDays` are `DiffInSeconds` with the same flag
divided by 60, 3600 and 86400 with the quotient that truncates toward zero; whenever the
difference of the Unix seconds fits a 64-bit integer together with its negation, the signed
results change sign when the operands are swapped.  For a difference of -61 seconds the
result is -1 minute, where floor division gives -2. -/
theorem C10_diff_quotients (now : Int) (tk t : Zoned.TimeKit) (abs : Bool) :
    tk.DiffInMinutes now (some t) abs = quo (tk.DiffInSeconds now (some t) abs) 60 ∧
    tk.DiffInHours now (some t) abs = quo (tk.DiffInSeconds now (some t) abs) 3600 ∧
    tk.DiffInDays now (some t) abs = quo (tk.DiffInSeconds now (some t) abs) 86400 ∧
    (Zoned.Fits (t.Time.Unix - tk.Time.Unix) →
      tk.DiffInMinutes now (some t) false = -(t.DiffInMinutes now (some tk) false) ∧
      tk.DiffInHours now (some t) false = -(t.DiffInHours now (some tk) false) ∧
      tk.DiffInDays now (some t) false = -(t.DiffInDays now (some tk) false)) ∧
    ((Zoned.NewTimeKit (Zoned.Time.mk 61 0 Zoned.UTC)).DiffInSeconds 0
        (some (Zoned.NewTimeKit (Zoned.Time.mk 0 0 Zoned.UTC))) false = -61 ∧
      (Zoned.NewTimeKit (Zoned.Time.mk 61 0 Zoned.UTC)).DiffInMinutes 0
        (some (Zoned.NewTimeKit (Zoned.Time.mk 0 0 Zoned.UTC))) false = -1 ∧
      (-61 : Int) / 60 = -2) := by
  have hm : ∀ (a : Zoned.TimeKit) (b : Option Zoned.TimeKit) (f : Bool),
      a.DiffInMinutes now b f = quo (a.DiffInSeconds now b f) 60 := fun _ _ _ => rfl
  have hh : ∀ (a : Zoned.TimeKit) (b : Option Zoned.TimeKit) (f : Bool),
      a.DiffInHours now b f = quo (a.DiffInSeconds now b f) 3600 := by
    intro a b f
    have e : a.DiffInHours now b f = quo (quo (a.DiffInSeconds now b f) 60) 60 := rfl
    rw [e, quo_60_60]
  have hd : ∀ (a : Zoned.TimeKit) (b : Option Zoned.TimeKit) (f : Bool),
      a.DiffInDays now b f = quo (a.DiffInSeconds now b f) 86400 := by
    intro a b f
    have e : a.DiffInDays now b f = quo (quo (quo (a.DiffInSeconds now b f) 60) 60) 24 := rfl
    rw [e, quo_60_60, quo_3600_24]
  refine ⟨hm _ _ _, hh _ _ _, hd _ _ _, fun h => ?_, by decide⟩
  have hs : tk.DiffInSeconds now (some t) false = -(t.DiffInSeconds now (some tk) false) :=
    Zoned.TimeKit.DiffInSeconds_swap_fits now tk t h
  exact ⟨by rw [hm, hm, hs, quo_neg], by rw [hh, hh, hs, quo_neg], by rw [hd, hd, hs, quo_neg]⟩

set_option maxRecDepth 100000 in
/-- Claim C10 as stated fails: between the instants 2^62 seconds after and 2^62 seconds
before 1970 the 64-bit difference of the Unix seconds wraps around to the least 64-bit
integer in both directions, so the signed `DiffInMinutes`, `DiffInHours` and `DiffInDays`
are the same negative number in both directions instead of opposite numbers. -/
theorem C10_diff_quotients_counterexample :
    (Zoned.NewTimeKit (Zoned.Time.mk 4611686018427387904 0 Zoned.UTC)).DiffInMinutes 0
      (some (Zoned.NewTimeKit (Zoned.Time.mk (-4611686018427387904) 0 Zoned.UTC))) false
        = -153722867280912930 ∧
    (Zoned.NewTimeKit (Zoned.Time.mk (-4611686018427387904) 0 Zoned.UTC)).DiffInMinutes 0
      (some (Zoned.NewTimeKit (Zoned.Time.mk 4611686018427387904 0 Zoned.UTC))) false
        = -153722867280912930 ∧
    (Zoned.NewTimeKit (Zoned.Time.mk 4611686018427387904 0 Zoned.UTC)).DiffInDays 0
      (some (Zoned.NewTimeKit (Zoned.Time.mk (-4611686018427387904) 0 Zoned.UTC))) false
        = -106751991167300 ∧
    (Zoned.NewTimeKit (Zoned.Time.mk (-4611686018427387904) 0 Zoned.UTC)).DiffInDays 0
      (some (Zoned.NewTimeKit (Zoned.Time.mk 4611686018427387904 0 Zoned.UTC))) false
        = -106751991167300 := by decide

/-- Claim C11, amended: two instants within 10^15 seconds of the epoch whose Unix seconds
are exactly 7 * 86400 apart, the later of them in a location with one fixed offset:
`DiffInDaysFiltered` with the predicate `IsWeekday` and the absolute flag returns 5 within 7
runs of its loop body, whichever of the two is the receiver. -/
theorem C11_week_five_weekdays (now : Int) (tk t : Zoned.TimeKit) (fuel : Nat)
    (hf : 7 ≤ fuel) (h1 : tk.Time.InRange) (h2 : t.Time.InRange)
    (hfix : (if t.Time.Unix < tk.Time.Unix then tk.Time.Location else t.Time.Location).Fixed)
    (h : t.Time.Unix = tk.Time.Unix + 7 * 86400 ∨ tk.Time.Unix = t.Time.Unix + 7 * 86400) :
    tk.DiffInDaysFiltered fuel now (some t) (fun k => k.IsWeekday) true
      = some (Except.ok 5) := by
  have hu : ∀ x : Zoned.TimeKit, x.Time.Unix = x.Time.unix := fun _ => rfl
  have hl : ∀ x : Zoned.TimeKit, x.Time.Location = x.Time.loc := fun _ => rfl
  rw [hu, hu, hl, hl] at hfix
  have hgap : |t.Time.unix - tk.Time.unix| / 86400 ≤ fuel := by
    rw [hu, hu] at h
    have : |t.Time.unix - tk.Time.unix| = 604800 := by
      rcases h with h | h
      · rw [h, abs_of_nonneg (by omega)]; omega
      · rw [h, abs_of_neg (by omega)]; omega
    rw [this]
    have : (604800 : Int) / 86400 = 7 := by decide
    omega
  have hday : Timkit.Hour * hoursPerDay = 86400 * Timkit.Second := by decide
  have hsim := Zoned.TimeKit.DiffFiltered_viewAt now tk t
    (if t.Time.unix < tk.Time.unix then tk.Time.loc else t.Time.loc).first
    (fun k => k.IsWeekday) (fun k => k.IsWeekday) true fuel 86400 (by decide) (by decide)
    (by decide) h1 h2 hgap (by
      intro z hz
      rw [← hz] at hfix ⊢
      show z.IsWeekday = (z.viewAt z.Time.loc.first).IsWeekday
      rw [← z.Time.offset_fixed hfix]
      rfl)
  unfold Zoned.TimeKit.DiffInDaysFiltered
  rw [hday, hsim]
  have old := week_has_five_weekdays now
    (tk.viewAt (if t.Time.unix < tk.Time.unix then tk.Time.loc else t.Time.loc).first)
    (t.viewAt (if t.Time.unix < tk.Time.unix then tk.Time.loc else t.Time.loc).first)
    fuel hf h
  unfold Timkit.TimeKit.DiffInDaysFiltered at old
  rw [hday] at old
  exact old

set_option maxRecDepth 100000 in
/-- Counterexample to C11 as stated: in New York the clocks go back on 2021-11-07.  The
instants 2021-11-02 00:30 and 2021-11-08 23:30 there are exactly 7 * 86400 seconds apart;
the walk back from the later one in steps of 24 hours tests Monday 8th 23:30, Sunday 7th
23:30, Sunday 7th 00:30, Saturday 6th 00:30, Friday 5th, Thursday 4th and Wednesday 3rd
00:30, four weekdays, and the result is 4 with either of the two as the receiver. -/
theorem C11_week_five_weekdays_counterexample :
    (Zoned.NewTimeKit (Zoned.Date 2021 11 8 23 30 0 0 Zoned.NewYork)).Time.Unix
      = (Zoned.NewTimeKit (Zoned.Date 2021 11 2 0 30 0 0 Zoned.NewYork)).Time.Unix
          + 7 * 86400 ∧
    (Zoned.NewTimeKit (Zoned.Date 2021 11 2 0 30 0 0 Zoned.NewYork)).DiffInDaysFiltered 7 0
      (some (Zoned.NewTimeKit (Zoned.Date 2021 11 8 23 30 0 0 Zoned.NewYork)))
      (fun k => k.IsWeekday) true = some (Except.ok 4) ∧
    (Zoned.NewTimeKit (Zoned.Date 2021 11 8 23 30 0 0 Zoned.NewYork)).DiffInDaysFiltered 7 0
      (some (Zoned.NewTimeKit (Zoned.Date 2021 11 2 0 30 0 0 Zoned.NewYork)))
      (fun k => k.IsWeekday) true = some (Except.ok 4) := by
  decide

set_option maxRecDepth 100000 in
/-- Claim C11 for Monday 2021-01-04 and Monday 2021-01-11, both at 15:04:05 UTC. -/
theorem C11_week_five_weekdays_witness :
    (7 ≤ 7) ∧
    (Zoned.NewTimeKit (Zoned.Date 2021 1 4 15 4 5 0 Zoned.UTC)).Time.InRange ∧
    (Zoned.NewTimeKit (Zoned.Date 2021 1 11 15 4 5 0 Zoned.UTC)).Time.InRange ∧
    ((Zoned.NewTimeKit (Zoned.Date 2021 1 11 15 4 5 0 Zoned.UTC)).Time.Unix
      = (Zoned.NewTimeKit (Zoned.Date 2021 1 4 15 4 5 0 Zoned.UTC)).Time.Unix + 7 * 86400) ∧
    (Zoned.NewTimeKit (Zoned.Date 2021 1 4 15 4 5 0 Zoned.UTC)).DiffInDaysFiltered 7 0
      (some (Zoned.NewTimeKit (Zoned.Date 2021 1 11 15 4 5 0 Zoned.UTC)))
      (fun k => k.IsWeekday) true = some (Except.ok 5) :=
  ⟨by decide, by decide, by decide, by decide,
    C11_week_five_weekdays 0 (Zoned.NewTimeKit (Zoned.Date 2021 1 4 15 4 5 0 Zoned.UTC))
      (Zoned.NewTimeKit (Zoned.Date 2021 1 11 15 4 5 0 Zoned.UTC)) 7 (by decide) (by decide)
      (by decide) (by decide) (Or.inl (by decide))⟩

/-- Claim C12: for every weekday `e`, `NewOptions(OptionSetWeekEndAt(e))` leaves the week-end
day at the default Sunday and sets the week-start day to `e`, whereas `SetWeekEndsAt(e)`
sets the week-end day and keeps the week-start day.  With `e` = Saturday the value built
has week start Saturday and week end Sunday. -/
theorem C12_optionSetWeekEndAt (now : Time) (e : Int) :
    (NewOptions now [OptionSetWeekEndAt e]).weekEndAt = Sunday ∧
    (NewOptions now [OptionSetWeekEndAt e]).weekStartAt = e ∧
    ((NewOptions now []).SetWeekEndsAt e).weekEndAt = e ∧
    ((NewOptions now []).SetWeekEndsAt e).weekStartAt = Monday ∧
    (NewOptions (Date 2021 1 2 15 4 5 0 0) [OptionSetWeekEndAt Saturday]).weekEndAt ≠ Saturday ∧
    (NewOptions (Date 2021 1 2 15 4 5 0 0) [OptionSetWeekEndAt Saturday]).weekStartAt ≠ Monday ∧
    TimeKit.EndOfWeek 6 (NewOptions (Date 2021 1 2 15 4 5 0 0) [OptionSetWeekEndAt Saturday])
      = some ((NewOptions (Date 2021 1 2 15 4 5 0 0) [OptionSetWeekEndAt Saturday]).SetTime
          (Date 2021 1 3 23 59 59 0 0)) ∧
    (Date 2021 1 3 23 59 59 0 0).Weekday = Sunday ∧
    TimeKit.StartOfWeek 6 (NewOptions (Date 2021 1 2 15 4 5 0 0) [OptionSetWeekEndAt Saturday])
      = some ((NewOptions (Date 2021 1 2 15 4 5 0 0) [OptionSetWeekEndAt Saturday]).SetTime
          (Date 2021 1 2 0 0 0 0 0)) ∧
    (Date 2021 1 2 0 0 0 0 0).Weekday = Saturday :=
  ⟨rfl, rfl, rfl, rfl, by decide, by decide, by decide, by decide, by decide, by decide⟩

/-- Claim C13, amended: `Copy` returns a value with the Unix seconds and the location of the
original, a zero sub-second part, and the default format, weekend days, week start and week
end; its instant is the instant of the original when that has no sub-second part. -/
theorem C13_copy (tk : TimeKit) :
    tk.Copy.Time.Unix = tk.Time.Unix ∧ tk.Copy.Time.Location = tk.Time.Location ∧
    tk.Copy.Time.Nanosecond = 0 ∧
    tk.Copy.format = DefaultFormat ∧ tk.Copy.weekendDays = [Saturday, Sunday] ∧
    tk.Copy.weekStartAt = Monday ∧ tk.Copy.weekEndAt = Sunday ∧
    (tk.Time.Nanosecond = 0 → tk.Copy.Time = tk.Time) := by
  refine ⟨rfl, rfl, rfl, rfl, rfl, rfl, rfl, ?_⟩
  intro h
  cases tk with
  | mk t f w s e =>
    cases t with
    | mk u n l =>
      have hn : n = 0 := h
      subst hn
      rfl

/-- Claim C13 as stated fails: the copy of an instant half a second after
2021-01-02 15:04:05 is 2021-01-02 15:04:05 itself, half a second earlier. -/
theorem C13_copy_counterexample :
    (NewTimeKit (Date 2021 1 2 15 4 5 500000000 0)).Time.Valid ∧
    (NewTimeKit (Date 2021 1 2 15 4 5 500000000 0)).Copy.Time
      = Date 2021 1 2 15 4 5 0 0 ∧
    (NewTimeKit (Date 2021 1 2 15 4 5 500000000 0)).Copy.Time
      ≠ (NewTimeKit (Date 2021 1 2 15 4 5 500000000 0)).Time ∧
    (NewTimeKit (Date 2021 1 2 15 4 5 500000000 0)).Time.After
      (NewTimeKit (Date 2021 1 2 15 4 5 500000000 0)).Copy.Time = true := by decide

/-- Claim C13 as amended, at 2021-01-02 15:04:05 with no sub-second part. -/
theorem C13_copy_witness :
    (NewTimeKit (Date 2021 1 2 15 4 5 0 0)).Time.Nanosecond = 0 ∧
    (NewTimeKit (Date 2021 1 2 15 4 5 0 0)).Copy.Time = (NewTimeKit (Date 2021 1 2 15 4 5 0 0)).Time :=
  ⟨by decide, (C13_copy (NewTimeKit (Date 2021 1 2 15 4 5 0 0))).2.2.2.2.2.2.2 (by decide)⟩

/-- Claim C14, amended: `StartOfWeek` applied to an instant on 2021-01-08, a Friday, with the
week starting on Monday returns, after 4 backward steps of one day, 2021-01-04 00:00:00 in
the location of the instant. -/
theorem C14_startOfWeek_friday (tk : TimeKit) (fuel : Nat) (hy : tk.Time.Year = 2021)
    (hm : tk.Time.Month = 1) (hd : tk.Time.Day = 8) (hs : tk.weekStartAt = Monday)
    (hf : 4 ≤ fuel) :
    tk.Time.Weekday = Friday ∧
    TimeKit.StartOfWeek fuel tk
      = some (tk.SetTime (Date 2021 1 4 0 0 0 0 tk.Time.Location)) := by
  obtain ⟨_, _, _, _, e⟩ := tk.Time.civil_spec
  rw [hy, hm, hd] at e
  have hday : tk.Time.absDay = 18635 := by rw [← e]; decide
  have hw : tk.Time.Weekday = 5 := by
    unfold Time.Weekday; rw [hday]; decide
  refine ⟨hw, ?_⟩
  have hv0 : (Time.mk (tk.Time.absDay * 86400 + (0 * 3600 + 0 * 60 + 0) - tk.Time.loc) 0
      tk.Time.loc).Valid := ⟨le_refl (0 : Int), show (0 : Int) < 1000000000 by decide⟩
  obtain ⟨a0, _⟩ := (Time.mk (tk.Time.absDay * 86400 + (0 * 3600 + 0 * 60 + 0) - tk.Time.loc) 0
    tk.Time.loc).of_wall tk.Time.absDay 0 (by simp only []; omega) (by decide) (by decide)
  have hw0 : (Time.mk (tk.Time.absDay * 86400 + (0 * 3600 + 0 * 60 + 0) - tk.Time.loc) 0
      tk.Time.loc).Weekday = 5 := by
    unfold Time.Weekday; rw [a0, hday]; decide
  unfold TimeKit.StartOfWeek
  simp only []
  rw [Date_of_day, hs,
    TimeKit.weekLoop_spec Monday (-1) (Or.inr rfl) (by decide) fuel _ hv0
      (by rw [hw0]; unfold Monday; omega),
    hw0, Date_eq]
  simp only [Option.map_some', Option.some.injEq]
  unfold Time.Location
  congr 1
  rw [hday]
  simp only [Time.mk.injEq, and_true]
  unfold Monday
  have : daysFromCivil (2021 + (1 - 1) / 12) ((1 - 1) % 12 + 1) 1 = 18628 := by decide
  rw [this]
  omega

/-- Claim C14 as stated fails: from 2021-01-08 15:04:05 with the week starting on Monday,
`StartOfWeek` yields 2021-01-04 00:00:00 and not 2020-12-28 00:00:00, which is the result
for 2021-01-02. -/
theorem C14_startOfWeek_friday_counterexample :
    (NewTimeKit (Date 2021 1 8 15 4 5 0 0)).weekStartAt = Monday ∧
    (NewTimeKit (Date 2021 1 8 15 4 5 0 0)).Time.Weekday = Friday ∧
    TimeKit.StartOfWeek 6 (NewTimeKit (Date 2021 1 8 15 4 5 0 0))
      = some (NewTimeKit (Date 2021 1 4 0 0 0 0 0)) ∧
    TimeKit.StartOfWeek 6 (NewTimeKit (Date 2021 1 8 15 4 5 0 0))
      ≠ some (NewTimeKit (Date 2020 12 28 0 0 0 0 0)) ∧
    TimeKit.StartOfWeek 6 (NewTimeKit (Date 2021 1 2 15 4 5 0 0))
      = some (NewTimeKit (Date 2020 12 28 0 0 0 0 0)) := by decide

/-- Claim C14 as amended, at 2021-01-08 15:04:05 with the default week start. -/
theorem C14_startOfWeek_friday_witness :
    (NewTimeKit (Date 2021 1 8 15 4 5 0 0)).Time.Year = 2021 ∧
    (NewTimeKit (Date 2021 1 8 15 4 5 0 0)).Time.Month = 1 ∧
    (NewTimeKit (Date 2021 1 8 15 4 5 0 0)).Time.Day = 8 ∧
    (NewTimeKit (Date 2021 1 8 15 4 5 0 0)).weekStartAt = Monday ∧
    TimeKit.StartOfWeek 6 (NewTimeKit (Date 2021 1 8 15 4 5 0 0))
      = some ((NewTimeKit (Date 2021 1 8 15 4 5 0 0)).SetTime (Date 2021 1 4 0 0 0 0 0)) :=
  ⟨by decide, by decide, by decide, by decide,
    (C14_startOfWeek_friday (NewTimeKit (Date 2021 1 8 15 4 5 0 0)) 6 (by decide) (by decide)
      (by decide) (by decide) (by decide)).2⟩

/-- Claim C15, amended: in a location with a fixed UTC offset, with the default weekend
{Saturday, Sunday}, for a valid instant within 10^15 seconds of 1970 on a Monday to Friday
and a count `k` of at most 10^8 in magnitude, `AddWeekdays(5 * k)` returns within `7 * |k|`
runs of its loop body and yields what `AddDays(7 * k)` yields: the instant `7 * k` days away
at the same time of day. -/
theorem C15_five_weekdays_a_week (tk : Zoned.TimeKit) (k : Int) (fuel : Nat)
    (hv : tk.Time.Valid) (hw : tk.weekendDays = [Saturday, Sunday])
    (hday : Monday ≤ tk.Time.Weekday ∧ tk.Time.Weekday ≤ Friday)
    (hfix : tk.Time.Location.Fixed) (_hr : tk.Time.InRange)
    (hk : -100000000 ≤ k ∧ k ≤ 100000000) (hf : 7 * k.natAbs ≤ fuel) :
    Zoned.TimeKit.AddWeekdays fuel tk (5 * k) = some (tk.AddDays (7 * k)) ∧
    (tk.AddDays (7 * k)).Time.absDay = tk.Time.absDay + 7 * k ∧
    (tk.AddDays (7 * k)).Time.Hour = tk.Time.Hour ∧
    (tk.AddDays (7 * k)).Time.Minute = tk.Time.Minute ∧
    (tk.AddDays (7 * k)).Time.Second = tk.Time.Second ∧
    (tk.AddDays (7 * k)).Time.Nanosecond = tk.Time.Nanosecond := by
  have hfix' : tk.Time.loc.Fixed := hfix
  obtain ⟨_, _, _, fH, fMi, fS, fN, fW, fA⟩ := tk.fields_view
  obtain ⟨a0, a1, a2, a3, a4, a5⟩ :=
    five_weekdays_are_a_week tk.view k fuel (tk.valid_view hv) hw (by rw [← fW]; exact hday) hf
  obtain ⟨dA, dH, dMi, dS, dN, _⟩ := tk.AddDays_fields hfix' (7 * k)
  have hsmall : Zoned.Small (5 * k) := by
    unfold Zoned.Small
    omega
  refine ⟨?_, ?_, ?_, ?_, ?_, ?_⟩
  · rw [Zoned.TimeKit.AddWeekdays_view fuel tk (5 * k) hfix' hsmall, a0,
      tk.AddDays_ofView hfix']
    rfl
  · rw [dA, fA]; exact a1
  · rw [dH, fH]; exact a2
  · rw [dMi, fMi]; exact a3
  · rw [dS, fS]; exact a4
  · rw [dN, fN]; exact a5

set_option maxRecDepth 100000 in
/-- Claim C15 as stated fails: in New York five weekdays after Friday 2021-03-12 02:30:00 is
Friday 2021-03-19 01:30:00, because the walk passes Sunday 2021-03-14, on which 02:30 does
not exist, while seven days after it is 2021-03-19 02:30:00. -/
theorem C15_five_weekdays_a_week_counterexample :
    (Zoned.NewTimeKit (Zoned.Date 2021 3 12 2 30 0 0 Zoned.NewYork)).Time.Weekday = Friday ∧
    Zoned.TimeKit.AddWeekdays 7 (Zoned.NewTimeKit (Zoned.Date 2021 3 12 2 30 0 0 Zoned.NewYork)) 5
      = some (Zoned.NewTimeKit (Zoned.Date 2021 3 19 1 30 0 0 Zoned.NewYork)) ∧
    (Zoned.NewTimeKit (Zoned.Date 2021 3 12 2 30 0 0 Zoned.NewYork)).AddDays 7
      = Zoned.NewTimeKit (Zoned.Date 2021 3 19 2 30 0 0 Zoned.NewYork) ∧
    Zoned.NewTimeKit (Zoned.Date 2021 3 19 1 30 0 0 Zoned.NewYork)
      ≠ Zoned.NewTimeKit (Zoned.Date 2021 3 19 2 30 0 0 Zoned.NewYork) := by decide

set_option maxRecDepth 100000 in
/-- Claim C15 as amended, at Friday 2021-01-08 15:04:05 UTC with `k = 1`. -/
theorem C15_five_weekdays_a_week_witness :
    (Zoned.NewTimeKit (Zoned.Date 2021 1 8 15 4 5 0 Zoned.UTC)).Time.Valid ∧
    (Zoned.NewTimeKit (Zoned.Date 2021 1 8 15 4 5 0 Zoned.UTC)).weekendDays
      = [Saturday, Sunday] ∧
    (Zoned.NewTimeKit (Zoned.Date 2021 1 8 15 4 5 0 Zoned.UTC)).Time.Weekday = Friday ∧
    (Zoned.NewTimeKit (Zoned.Date 2021 1 8 15 4 5 0 Zoned.UTC)).Time.Location.Fixed ∧
    (Zoned.NewTimeKit (Zoned.Date 2021 1 8 15 4 5 0 Zoned.UTC)).Time.InRange ∧
    Zoned.TimeKit.AddWeekdays 7 (Zoned.NewTimeKit (Zoned.Date 2021 1 8 15 4 5 0 Zoned.UTC)) (5 * 1)
      = some ((Zoned.NewTimeKit (Zoned.Date 2021 1 8 15 4 5 0 Zoned.UTC)).AddDays (7 * 1)) ∧
    (Zoned.NewTimeKit (Zoned.Date 2021 1 8 15 4 5 0 Zoned.UTC)).AddDays (7 * 1)
      = Zoned.NewTimeKit (Zoned.Date 2021 1 15 15 4 5 0 Zoned.UTC) :=
  ⟨by decide, by decide, by decide, by decide, by decide,
    (C15_five_weekdays_a_week (Zoned.NewTimeKit (Zoned.Date 2021 1 8 15 4 5 0 Zoned.UTC)) 1 7
      (by decide) (by decide) (by decide) (by decide) (by decide) (by decide) (by decide)).1,
    by decide⟩

/-- Claim C16, amended: for every instant `Quarter` returns `q`, the month divided by 3 and
rounded up, between 1 and 4.  In a location with a fixed UTC offset and for an instant within
10^15 seconds of 1970, `StartOfQuarter` yields the 1st of month `(q - 1) * 3 + 1` of the year
of the instant at 00:00:00 and `EndOfQuarter` the last day of month `3 * q` of that year at
23:59:59, so the month of the instant lies between the months of the two results.  For
2021-01-02 in UTC they are 2021-01-01 00:00:00 and 2021-03-31 23:59:59. -/
theorem C16_quarter_bounds (tk : Zoned.TimeKit) :
    (tk.Quarter = (tk.Time.Month + 2) / 3 ∧ 1 ≤ tk.Quarter ∧ tk.Quarter ≤ 4 ∧
      3 * (tk.Quarter - 1) < tk.Time.Month ∧ tk.Time.Month ≤ 3 * tk.Quarter) ∧
    (tk.Time.Location.Fixed → tk.Time.InRange →
      (tk.StartOfQuarter.Time.Year = tk.Time.Year ∧
        tk.StartOfQuarter.Time.Month = (tk.Quarter - 1) * 3 + 1 ∧
        tk.StartOfQuarter.Time.Day = 1 ∧ tk.StartOfQuarter.Time.Hour = 0 ∧
        tk.StartOfQuarter.Time.Minute = 0 ∧ tk.StartOfQuarter.Time.Second = 0 ∧
        tk.StartOfQuarter.Time.Nanosecond = 0) ∧
      (tk.EndOfQuarter.Time.Year = tk.Time.Year ∧
        tk.EndOfQuarter.Time.Month = 3 * tk.Quarter ∧
        tk.EndOfQuarter.Time.Day = daysIn tk.Time.Year (3 * tk.Quarter) ∧
        tk.EndOfQuarter.Time.Hour = 23 ∧ tk.EndOfQuarter.Time.Minute = 59 ∧
        tk.EndOfQuarter.Time.Second = 59 ∧ tk.EndOfQuarter.Time.Nanosecond = 0) ∧
      (tk.StartOfQuarter.Time.Month ≤ tk.Time.Month ∧
        tk.Time.Month ≤ tk.EndOfQuarter.Time.Month)) ∧
    ((Zoned.NewTimeKit (Zoned.Date 2021 1 2 15 4 5 0 Zoned.UTC)).StartOfQuarter
        = Zoned.NewTimeKit (Zoned.Date 2021 1 1 0 0 0 0 Zoned.UTC) ∧
      (Zoned.NewTimeKit (Zoned.Date 2021 1 2 15 4 5 0 Zoned.UTC)).EndOfQuarter
        = Zoned.NewTimeKit (Zoned.Date 2021 3 31 23 59 59 0 Zoned.UTC)) := by
  obtain ⟨q, ⟨s1, s2, s3, s4, s5, s6, s7⟩, ⟨e1, e2, e3, e4, e5, e6, e7⟩, ⟨b1, b2⟩, _⟩ :=
    quarter_boundaries tk.view
  obtain ⟨fY, fM, _⟩ := tk.fields_view
  refine ⟨?_, fun hfix _ => ?_, by decide⟩
  · rw [tk.Quarter_view, fM]
    exact q
  · obtain ⟨aY, aM, aD, aH, aMi, aS, aN, _, _⟩ := tk.StartOfQuarter.fields_view
    obtain ⟨bY, bM, bD, bH, bMi, bS, bN, _, _⟩ := tk.EndOfQuarter.fields_view
    rw [tk.view_StartOfQuarter hfix] at aY aM aD aH aMi aS aN
    rw [tk.view_EndOfQuarter hfix] at bY bM bD bH bMi bS bN
    rw [aY, aM, aD, aH, aMi, aS, aN, bY, bM, bD, bH, bMi, bS, bN, tk.Quarter_view, fY, fM]
    exact ⟨⟨s1, s2, s3, s4, s5, s6, s7⟩, ⟨e1, e2, e3, e4, e5, e6, e7⟩, b1, b2⟩

set_option maxRecDepth 100000 in
/-- Claim C16 as stated fails: in Havana the clocks went from 00:00 to 01:00 on 2012-04-01,
so the start of the second quarter of 2012 does not exist; for 2012-05-15 12:00:00
`StartOfQuarter` yields 2012-03-31 23:00:00, in month 3 and at hour 23. -/
theorem C16_quarter_bounds_counterexample :
    (Zoned.NewTimeKit (Zoned.Date 2012 5 15 12 0 0 0 Zoned.Havana)).Quarter = 2 ∧
    (Zoned.NewTimeKit (Zoned.Date 2012 5 15 12 0 0 0 Zoned.Havana)).StartOfQuarter
      = Zoned.NewTimeKit (Zoned.Date 2012 3 31 23 0 0 0 Zoned.Havana) ∧
    (Zoned.NewTimeKit (Zoned.Date 2012 5 15 12 0 0 0 Zoned.Havana)).StartOfQuarter.Time.Month
      = 3 ∧
    (Zoned.NewTimeKit (Zoned.Date 2012 5 15 12 0 0 0 Zoned.Havana)).StartOfQuarter.Time.Day
      = 31 ∧
    (Zoned.NewTimeKit (Zoned.Date 2012 5 15 12 0 0 0 Zoned.Havana)).StartOfQuarter.Time.Hour
      = 23 := by decide

set_option maxRecDepth 100000 in
/-- Claim C16 as amended, at 2021-01-02 15:04:05 UTC. -/
theorem C16_quarter_bounds_witness :
    (Zoned.NewTimeKit (Zoned.Date 2021 1 2 15 4 5 0 Zoned.UTC)).Time.Location.Fixed ∧
    (Zoned.NewTimeKit (Zoned.Date 2021 1 2 15 4 5 0 Zoned.UTC)).Time.InRange ∧
    (Zoned.NewTimeKit (Zoned.Date 2021 1 2 15 4 5 0 Zoned.UTC)).StartOfQuarter.Time.Month
      = ((Zoned.NewTimeKit (Zoned.Date 2021 1 2 15 4 5 0 Zoned.UTC)).Quarter - 1) * 3 + 1 :=
  ⟨by decide, by decide,
    ((C16_quarter_bounds (Zoned.NewTimeKit (Zoned.Date 2021 1 2 15 4 5 0 Zoned.UTC))).2.1
      (by decide) (by decide)).1.2.1⟩

/-- Claim C17, amended: in a location with a fixed UTC offset, for a valid instant within
10^15 seconds of 1970 with day of the month at most 28 and a count `n` of at most 10^9 in
magnitude, `AddMonths(n)` keeps the day of the month and the time of day and yields a year
`y'` and a month `m'` between 1 and 12 with `12 * y' + m' = 12 * y + m + n`;
`AddYears(n)` adds `n` to the year and keeps everything else.  Seven months after 2021-01-02
15:04:05 UTC is 2021-08-02 15:04:05, and two years after it is 2023-01-02 15:04:05. -/
theorem C17_addMonths_keeps_fields (tk : Zoned.TimeKit) (n : Int) (hv : tk.Time.Valid)
    (hfix : tk.Time.Location.Fixed) (_hr : tk.Time.InRange) (_hn : Zoned.Small n)
    (h28 : tk.Time.Day ≤ 28) :
    ((tk.AddMonths n).Time.Day = tk.Time.Day ∧
      (tk.AddMonths n).Time.Hour = tk.Time.Hour ∧
      (tk.AddMonths n).Time.Minute = tk.Time.Minute ∧
      (tk.AddMonths n).Time.Second = tk.Time.Second ∧
      (tk.AddMonths n).Time.Nanosecond = tk.Time.Nanosecond ∧
      (tk.AddMonths n).Time.Location = tk.Time.Location ∧
      12 * (tk.AddMonths n).Time.Year + (tk.AddMonths n).Time.Month
        = 12 * tk.Time.Year + tk.Time.Month + n ∧
      1 ≤ (tk.AddMonths n).Time.Month ∧ (tk.AddMonths n).Time.Month ≤ 12) ∧
    ((tk.AddYears n).Time.Year = tk.Time.Year + n ∧
      (tk.AddYears n).Time.Month = tk.Time.Month ∧
      (tk.AddYears n).Time.Day = tk.Time.Day ∧
      (tk.AddYears n).Time.Hour = tk.Time.Hour ∧
      (tk.AddYears n).Time.Minute = tk.Time.Minute ∧
      (tk.AddYears n).Time.Second = tk.Time.Second ∧
      (tk.AddYears n).Time.Nanosecond = tk.Time.Nanosecond ∧
      (tk.AddYears n).Time.Location = tk.Time.Location) ∧
    ((Zoned.NewTimeKit (Zoned.Date 2021 1 2 15 4 5 0 Zoned.UTC)).AddMonths 7
        = Zoned.NewTimeKit (Zoned.Date 2021 8 2 15 4 5 0 Zoned.UTC) ∧
      (Zoned.NewTimeKit (Zoned.Date 2021 1 2 15 4 5 0 Zoned.UTC)).AddYears 2
        = Zoned.NewTimeKit (Zoned.Date 2023 1 2 15 4 5 0 Zoned.UTC)) := by
  obtain ⟨⟨a1, a2, a3, a4, a5, _, a7, a8, a9⟩, ⟨b1, b2, b3, b4, b5, b6, b7, _⟩, _⟩ :=
    addMonths_fields tk.view n (tk.valid_view hv) h28
  obtain ⟨fY, fM, fD, fH, fMi, fS, fN, _, _⟩ := tk.fields_view
  obtain ⟨mY, mM, mD, mH, mMi, mS, mN, _, _⟩ := (tk.AddMonths n).fields_view
  obtain ⟨yY, yM, yD, yH, yMi, yS, yN, _, _⟩ := (tk.AddYears n).fields_view
  rw [tk.view_AddMonths hfix n] at mY mM mD mH mMi mS mN
  rw [tk.view_AddYears hfix n] at yY yM yD yH yMi yS yN
  refine ⟨⟨?_, ?_, ?_, ?_, ?_, rfl, ?_, ?_, ?_⟩, ⟨?_, ?_, ?_, ?_, ?_, ?_, ?_, rfl⟩, ?_⟩
  · rw [mD, fD]; exact a1
  · rw [mH, fH]; exact a2
  · rw [mMi, fMi]; exact a3
  · rw [mS, fS]; exact a4
  · rw [mN, fN]; exact a5
  · rw [mY, mM, fY, fM]; exact a7
  · rw [mM]; exact a8
  · rw [mM]; exact a9
  · rw [yY, fY]; exact b1
  · rw [yM, fM]; exact b2
  · rw [yD, fD]; exact b3
  · rw [yH, fH]; exact b4
  · rw [yMi, fMi]; exact b5
  · rw [yS, fS]; exact b6
  · rw [yN, fN]; exact b7
  · decide

set_option maxRecDepth 100000 in
/-- Claim C17 as stated fails: in New York, 2021-02-14 02:30:00 has day of the month 14, and
one month later is 2021-03-14 01:30:00, because 02:30 does not exist on that day: the hour
is 1 and not 2. -/
theorem C17_addMonths_keeps_fields_counterexample :
    (Zoned.NewTimeKit (Zoned.Date 2021 2 14 2 30 0 0 Zoned.NewYork)).Time.Day = 14 ∧
    (Zoned.NewTimeKit (Zoned.Date 2021 2 14 2 30 0 0 Zoned.NewYork)).Time.Hour = 2 ∧
    ((Zoned.NewTimeKit (Zoned.Date 2021 2 14 2 30 0 0 Zoned.NewYork)).AddMonths 1).Time.Day
      = 14 ∧
    ((Zoned.NewTimeKit (Zoned.Date 2021 2 14 2 30 0 0 Zoned.NewYork)).AddMonths 1).Time.Hour
      = 1 := by decide

set_option maxRecDepth 100000 in
/-- Claim C17 as amended, at 2021-01-02 15:04:05 UTC and `n = 7`. -/
theorem C17_addMonths_keeps_fields_witness :
    (Zoned.NewTimeKit (Zoned.Date 2021 1 2 15 4 5 0 Zoned.UTC)).Time.Valid ∧
    (Zoned.NewTimeKit (Zoned.Date 2021 1 2 15 4 5 0 Zoned.UTC)).Time.Location.Fixed ∧
    (Zoned.NewTimeKit (Zoned.Date 2021 1 2 15 4 5 0 Zoned.UTC)).Time.InRange ∧
    Zoned.Small 7 ∧
    (Zoned.NewTimeKit (Zoned.Date 2021 1 2 15 4 5 0 Zoned.UTC)).Time.Day ≤ 28 ∧
    ((Zoned.NewTimeKit (Zoned.Date 2021 1 2 15 4 5 0 Zoned.UTC)).AddMonths 7).Time.Day
      = (Zoned.NewTimeKit (Zoned.Date 2021 1 2 15 4 5 0 Zoned.UTC)).Time.Day :=
  ⟨by decide, by decide, by decide, by decide, by decide,
    (C17_addMonths_keeps_fields (Zoned.NewTimeKit (Zoned.Date 2021 1 2 15 4 5 0 Zoned.UTC)) 7
      (by decide) (by decide) (by decide) (by decide) (by decide)).1.1⟩

/-- Claim C18: `AddQuarters(q)` gives the same value as `AddMonths(3 * q)` and
`AddCenturies(c)` the same as `AddYears(100 * c)`; one quarter after 2021-01-02 15:04:05 is
2021-04-02 15:04:05 and two centuries after it is 2221-01-02 15:04:05. -/
theorem C18_scaled_units (tk : TimeKit) (q c : Int) :
    tk.AddQuarters q = tk.AddMonths (3 * q) ∧
    tk.AddCenturies c = tk.AddYears (100 * c) ∧
    (NewTimeKit (Date 2021 1 2 15 4 5 0 0)).AddQuarters 1
      = NewTimeKit (Date 2021 4 2 15 4 5 0 0) ∧
    (NewTimeKit (Date 2021 1 2 15 4 5 0 0)).AddCenturies 2
      = NewTimeKit (Date 2221 1 2 15 4 5 0 0) :=
  ⟨rfl, rfl, by decide, by decide⟩

/-- Claim C19: `DiffFiltered` divides by zero when the unit is half a second, whatever the
instants, the predicate and the bound on the loop; with a unit of one and a half seconds
between two instants one second apart its loop never ends.  For a unit of a whole number
`s > 0` of seconds it returns within as many runs of the loop body as whole units fit in
the gap, and the magnitude of the result is at most that number. -/
theorem C19_diffFiltered_units (now : Int) (tk : TimeKit) (t : Option TimeKit) (f : Filter)
    (abs : Bool) (fuel : Nat) :
    tk.DiffFiltered fuel now t 500000000 f abs
      = some (Except.error "integer divide by zero") ∧
    (NewTimeKit (Time.mk 0 0 0)).DiffFiltered fuel now (some (NewTimeKit (Time.mk 1 0 0)))
      1500000000 f abs = none ∧
    (∀ (s : Int) (u : TimeKit), 0 < s → |u.Time.Unix - tk.Time.Unix| / s ≤ fuel →
      ∃ v : Int, tk.DiffFiltered fuel now (some u) (s * Second) f abs = some (Except.ok v) ∧
        |v| ≤ |u.Time.Unix - tk.Time.Unix| / s) := by
  refine ⟨?_, ?_, ?_⟩
  · unfold TimeKit.DiffFiltered
    simp only []
    rw [show quo 500000000 Second = 0 by decide, TimeKit.diffFilteredLoop_step_zero]
  · unfold TimeKit.DiffFiltered TimeKit.orNow
    simp only []
    rw [show quo 1500000000 Second = 1 by decide,
      show (NewTimeKit (Time.mk 0 0 0)).Copy.Time.After (NewTimeKit (Time.mk 1 0 0)).Copy.Time
        = false by decide]
    simp only [Bool.false_eq_true, if_false]
    cases fuel with
    | zero =>
      rw [TimeKit.diffFilteredLoop_zero, if_neg (by decide),
        if_pos (by rw [TimeKit.DiffInSeconds_abs]; decide)]
    | succ n =>
      rw [TimeKit.diffFilteredLoop_succ, if_neg (by decide),
        if_pos (by rw [TimeKit.DiffInSeconds_abs]; decide),
        TimeKit.diffFilteredLoop_overshoot now _ f n _ _
          (by rw [TimeKit.SetTime_Time]; decide) (by rw [TimeKit.SetTime_Time]; decide)]
  · intro s u hs hf
    obtain ⟨aT, _, aV⟩ := tk.Copy_Time
    obtain ⟨bT, _, bV⟩ := u.Copy_Time
    have hu : ∀ x : TimeKit, x.Time.Unix = x.Time.unix := fun _ => rfl
    rw [hu, hu] at hf ⊢
    have hstep : quo (s * Second) Second = s := by
      unfold quo Second
      exact Int.mul_tdiv_cancel _ (by decide)
    unfold TimeKit.DiffFiltered TimeKit.orNow
    simp only []
    rw [hstep, show s * Second = s * 1000000000 from rfl]
    by_cases hafter : tk.Copy.Time.After u.Copy.Time = true
    · have hlt : u.Time.unix < tk.Time.unix := by
        unfold Time.After at hafter
        rw [aT, bT] at hafter
        have := of_decide_eq_true hafter
        simp only [] at this
        omega
      have habs : |u.Time.unix - tk.Time.unix| = tk.Time.unix - u.Time.unix := by
        rw [abs_of_neg (by omega)]; omega
      rw [habs] at hf ⊢
      rw [hafter]
      simp only [if_true, swap]
      obtain ⟨r, hr, r1, r2⟩ := TimeKit.diffFilteredLoop_whole now u.Copy f s hs fuel tk.Copy 0
        aV (by rw [aT, bT]; simp only []; omega) (by rw [aT, bT]; simp only []; exact hf)
      rw [aT, bT] at r2
      simp only [] at r2
      rw [hr]
      refine ⟨absoluteValue abs (-r), rfl, ?_⟩
      cases abs
      · rw [absoluteValue_false, abs_neg, abs_of_nonneg r1]; omega
      · rw [absoluteValue_true, abs_abs, abs_neg, abs_of_nonneg r1]; omega
    · have hle : tk.Time.unix ≤ u.Time.unix := by
        by_contra hc
        apply hafter
        unfold Time.After
        rw [aT, bT]
        exact decide_eq_true (Or.inl (by simp only []; omega))
      have habs : |u.Time.unix - tk.Time.unix| = u.Time.unix - tk.Time.unix :=
        abs_of_nonneg (by omega)
      rw [habs] at hf ⊢
      rw [Bool.not_eq_true] at hafter
      rw [hafter]
      simp only [Bool.false_eq_true, if_false]
      obtain ⟨r, hr, r1, r2⟩ := TimeKit.diffFilteredLoop_whole now tk.Copy f s hs fuel u.Copy 0
        bV (by rw [aT, bT]; simp only []; omega) (by rw [aT, bT]; simp only []; exact hf)
      rw [aT, bT] at r2
      simp only [] at r2
      rw [hr]
      refine ⟨absoluteValue abs r, rfl, ?_⟩
      cases abs
      · rw [absoluteValue_false, abs_of_nonneg r1]; omega
      · rw [absoluteValue_true, abs_abs, abs_of_nonneg r1]; omega

set_option maxRecDepth 100000 in
/-- Claim C20: there are a date and a month count for which the day-of-month comparison of
`AddMonthsNoOverflow` misclassifies the naive addition `AddDate(0, n, 0)`: either the day of
the month of the naive result equals the original one although the result lies in a later
month than the target month, or it differs although the original day exists in the target
month.  The second case occurs: in Havana the clocks went from 00:00 to 01:00 on 2021-03-14,
so 00:30 does not exist on that day; one month after 2021-02-14 00:30:00 the naive result is
2021-03-13 23:30:00, whose day of the month 13 differs from 14 although March has a 14th,
and `AddMonthsNoOverflow(1)` yields 2021-01-31 00:30:00. -/
theorem C20_day_test_misclassifies :
    (∃ (t : Zoned.Time) (n : Int), t.Valid ∧
      (((t.AddDate 0 n 0).Day = t.Day ∧
          12 * (norm t.Year (t.Month + n - 1) 12).1 + ((norm t.Year (t.Month + n - 1) 12).2 + 1)
            < 12 * (t.AddDate 0 n 0).Year + (t.AddDate 0 n 0).Month) ∨
        ((t.AddDate 0 n 0).Day ≠ t.Day ∧
          t.Day ≤ daysIn (norm t.Year (t.Month + n - 1) 12).1
            ((norm t.Year (t.Month + n - 1) 12).2 + 1)))) ∧
    (Zoned.Date 2021 2 14 0 30 0 0 Zoned.Havana).AddDate 0 1 0
      = Zoned.Date 2021 3 13 23 30 0 0 Zoned.Havana ∧
    (Zoned.Date 2021 2 14 0 30 0 0 Zoned.Havana).Day = 14 ∧
    ((Zoned.Date 2021 2 14 0 30 0 0 Zoned.Havana).AddDate 0 1 0).Day = 13 ∧
    daysIn 2021 3 = 31 ∧
    (Zoned.NewTimeKit (Zoned.Date 2021 2 14 0 30 0 0 Zoned.Havana)).AddMonthsNoOverflow 1
      = Zoned.NewTimeKit (Zoned.Date 2021 1 31 0 30 0 0 Zoned.Havana) :=
  ⟨⟨Zoned.Date 2021 2 14 0 30 0 0 Zoned.Havana, 1, by decide, Or.inr (by decide)⟩, by decide⟩

/-- Claim C21, amended: for two instants within 10^15 seconds of the epoch, in any two
locations, and either value of the absolute flag, `DiffInDaysFiltered` with the predicate
that holds everywhere returns the value of `DiffInDays` and `DiffInHoursFiltered` the value
of `DiffInHours`, within as many runs of the loop body as whole days (hours) fit in the gap;
and for any predicate the result without the absolute flag is at most 0 when the receiver is
after the other instant and at least 0 when it is not. -/
theorem C21_filtered_all_true (now : Int) (tk t : Zoned.TimeKit) (abs : Bool)
    (f : Zoned.Filter) (fuel : Nat) (h1 : tk.Time.InRange) (h2 : t.Time.InRange) :
    (|t.Time.Unix - tk.Time.Unix| / 86400 ≤ fuel →
      tk.DiffInDaysFiltered fuel now (some t) (fun _ => true) abs
        = some (Except.ok (tk.DiffInDays now (some t) abs)) ∧
      ∃ v : Int, tk.DiffInDaysFiltered fuel now (some t) f false = some (Except.ok v) ∧
        (tk.Time.After t.Time = true → v ≤ 0) ∧ (tk.Time.After t.Time = false → 0 ≤ v)) ∧
    (|t.Time.Unix - tk.Time.Unix| / 3600 ≤ fuel →
      tk.DiffInHoursFiltered fuel now (some t) (fun _ => true) abs
        = some (Except.ok (tk.DiffInHours now (some t) abs)) ∧
      ∃ v : Int, tk.DiffInHoursFiltered fuel now (some t) f false = some (Except.ok v) ∧
        (tk.Time.After t.Time = true → v ≤ 0) ∧ (tk.Time.After t.Time = false → 0 ≤ v)) := by
  have hfits : Zoned.Fits (t.Time.unix - tk.Time.unix) := by
    unfold Zoned.Time.InRange at h1 h2
    unfold Zoned.Fits
    omega
  obtain ⟨dd, dh⟩ := Zoned.TimeKit.DiffInDays_fits now tk t abs 0 hfits
  have hday : Timkit.Hour * hoursPerDay = 86400 * Timkit.Second := by decide
  have hhour : Timkit.Hour = 3600 * Timkit.Second := by decide
  have hafter : tk.Time.After t.Time = (tk.viewAt 0).Time.After (t.viewAt 0).Time := rfl
  have sim : ∀ (s : Int) (p : Zoned.Filter) (b : Bool), 0 < s → s ≤ 9000000000 →
      (Zoned.Seconds (s * Timkit.Second)).toInt64 = s →
      |t.Time.unix - tk.Time.unix| / s ≤ fuel →
      tk.DiffFiltered fuel now (some t) (s * Timkit.Second) p b
        = Timkit.TimeKit.DiffFiltered fuel now (tk.viewAt 0) (some (t.viewAt 0))
            (s * Timkit.Second)
            (fun k => p (Zoned.TimeKit.ofView
              (if t.Time.unix < tk.Time.unix then tk.Time.loc else t.Time.loc) k)) b := by
    intro s p b hs hs2 hsec hfuel
    refine Zoned.TimeKit.DiffFiltered_viewAt now tk t 0 p _ b fuel s hs hs2 hsec h1 h2 hfuel ?_
    intro z hz
    rw [← hz]
    rfl
  have old := filtered_always_true now (tk.viewAt 0) (t.viewAt 0) abs
    (fun k => f (Zoned.TimeKit.ofView
      (if t.Time.unix < tk.Time.unix then tk.Time.loc else t.Time.loc) k)) fuel
  rw [hafter, dd, dh]
  constructor
  · intro hfuel
    have hsim1 := sim 86400 (fun _ => true) abs (by decide) (by decide) (by decide) hfuel
    have hsim2 := sim 86400 f false (by decide) (by decide) (by decide) hfuel
    unfold Zoned.TimeKit.DiffInDaysFiltered
    rw [hday, hsim1, hsim2]
    have := old.1 hfuel
    unfold Timkit.TimeKit.DiffInDaysFiltered at this
    rw [hday] at this
    exact this
  · intro hfuel
    have hsim1 := sim 3600 (fun _ => true) abs (by decide) (by decide) (by decide) hfuel
    have hsim2 := sim 3600 f false (by decide) (by decide) (by decide) hfuel
    unfold Zoned.TimeKit.DiffInHoursFiltered
    rw [hhour, hsim1, hsim2]
    have := old.2 hfuel
    unfold Timkit.TimeKit.DiffInHoursFiltered at this
    rw [hhour] at this
    exact this

set_option maxRecDepth 100000 in
/-- Counterexample to C21 as stated: with the receiver at Unix second 2^62 and the other
instant at -2^62, both in UTC, the difference of the Unix seconds wraps to -2^63, the loop
test of `DiffFiltered` is negative at once and `DiffInDaysFiltered` with the predicate that
holds everywhere returns 0 with either value of the flag, while `DiffInDays` returns
-106751991167300. -/
theorem C21_filtered_all_true_counterexample :
    (Zoned.NewTimeKit (Zoned.Time.mk 4611686018427387904 0 Zoned.UTC)).DiffInDaysFiltered 0 0
      (some (Zoned.NewTimeKit (Zoned.Time.mk (-4611686018427387904) 0 Zoned.UTC)))
      (fun _ => true) false = some (Except.ok 0) ∧
    (Zoned.NewTimeKit (Zoned.Time.mk 4611686018427387904 0 Zoned.UTC)).DiffInDays 0
      (some (Zoned.NewTimeKit (Zoned.Time.mk (-4611686018427387904) 0 Zoned.UTC))) false
      = -106751991167300 ∧
    (Zoned.NewTimeKit (Zoned.Time.mk 4611686018427387904 0 Zoned.UTC)).DiffInDaysFiltered 0 0
      (some (Zoned.NewTimeKit (Zoned.Time.mk (-4611686018427387904) 0 Zoned.UTC)))
      (fun _ => true) true = some (Except.ok 0) ∧
    (Zoned.NewTimeKit (Zoned.Time.mk 4611686018427387904 0 Zoned.UTC)).DiffInDays 0
      (some (Zoned.NewTimeKit (Zoned.Time.mk (-4611686018427387904) 0 Zoned.UTC))) true
      = -106751991167300 := by
  decide

set_option maxRecDepth 100000 in
/-- Instance of C21: the instant 2021-01-18 07:00:00 in New York as receiver and 2021-01-02
00:00:00 UTC as the other instant, 16 whole days earlier. -/
theorem C21_filtered_all_true_witness :
    (Zoned.NewTimeKit (Zoned.Date 2021 1 18 7 0 0 0 Zoned.NewYork)).Time.InRange ∧
    (Zoned.NewTimeKit (Zoned.Date 2021 1 2 0 0 0 0 Zoned.UTC)).Time.InRange ∧
    (Zoned.NewTimeKit (Zoned.Date 2021 1 18 7 0 0 0 Zoned.NewYork)).DiffInDaysFiltered 16 0
        (some (Zoned.NewTimeKit (Zoned.Date 2021 1 2 0 0 0 0 Zoned.UTC))) (fun _ => true) false
      = some (Except.ok ((Zoned.NewTimeKit (Zoned.Date 2021 1 18 7 0 0 0 Zoned.NewYork)).DiffInDays
        0 (some (Zoned.NewTimeKit (Zoned.Date 2021 1 2 0 0 0 0 Zoned.UTC))) false)) ∧
    (Zoned.NewTimeKit (Zoned.Date 2021 1 18 7 0 0 0 Zoned.NewYork)).DiffInDays 0
        (some (Zoned.NewTimeKit (Zoned.Date 2021 1 2 0 0 0 0 Zoned.UTC))) false = -16 :=
  ⟨by decide, by decide,
    ((C21_filtered_all_true 0 (Zoned.NewTimeKit (Zoned.Date 2021 1 18 7 0 0 0 Zoned.NewYork))
      (Zoned.NewTimeKit (Zoned.Date 2021 1 2 0 0 0 0 Zoned.UTC)) false (fun k => k.IsWeekday) 16
      (by decide) (by decide)).1 (by decide)).1, by decide⟩

/-- Claim C22, amended: the month difference is symmetric exactly when the two days of the
month are equal.  For two dates that carry the same location value, the two signed results
add up to 0 when the days of the month are equal and to -1 when they differ, and, for years
less than 10^12 apart, the two absolute results are equal exactly when the days of the month
are equal.  For two dates with distinct location values the same holds with the days of the
month and the years read in UTC. -/
theorem C22_diffInMonths_swap (now : Int) (a b : Zoned.TimeKit) :
    (a.Time.Location = b.Time.Location →
      a.DiffInMonths now (some b) false + b.DiffInMonths now (some a) false
        = (if a.Time.Day = b.Time.Day then 0 else -1) ∧
      ((-1000000000000 ≤ a.Time.Year - b.Time.Year ∧
          a.Time.Year - b.Time.Year ≤ 1000000000000) →
        (a.DiffInMonths now (some b) true = b.DiffInMonths now (some a) true
          ↔ a.Time.Day = b.Time.Day))) ∧
    (a.Time.Location ≠ b.Time.Location →
      a.DiffInMonths now (some b) false + b.DiffInMonths now (some a) false
        = (if (a.Time.In Zoned.UTC).Day = (b.Time.In Zoned.UTC).Day then 0 else -1) ∧
      ((-1000000000000 ≤ (a.Time.In Zoned.UTC).Year - (b.Time.In Zoned.UTC).Year ∧
          (a.Time.In Zoned.UTC).Year - (b.Time.In Zoned.UTC).Year ≤ 1000000000000) →
        (a.DiffInMonths now (some b) true = b.DiffInMonths now (some a) true
          ↔ (a.Time.In Zoned.UTC).Day = (b.Time.In Zoned.UTC).Day))) := by
  have key : ∀ (y1 y2 m1 m2 d1 d2 : Int), 1 ≤ m1 → m1 ≤ 12 → 1 ≤ m2 → m2 ≤ 12 →
      (Zoned.absoluteValue false (12 * (y1 - y2) + (m1 - m2) - (if d1 < d2 then 1 else 0))
        + Zoned.absoluteValue false (12 * (y2 - y1) + (m2 - m1) - (if d2 < d1 then 1 else 0))
        = (if d1 = d2 then 0 else -1)) ∧
      ((-1000000000000 ≤ y1 - y2 ∧ y1 - y2 ≤ 1000000000000) →
        (Zoned.absoluteValue true (12 * (y1 - y2) + (m1 - m2) - (if d1 < d2 then 1 else 0))
          = Zoned.absoluteValue true (12 * (y2 - y1) + (m2 - m1) - (if d2 < d1 then 1 else 0))
          ↔ d1 = d2)) := by
    intro y1 y2 m1 m2 d1 d2 h1 h2 h3 h4
    constructor
    · rw [Zoned.absoluteValue_signed, Zoned.absoluteValue_signed]
      split_ifs <;> omega
    · intro hy
      rw [Zoned.absoluteValue_fits true _ (by unfold Zoned.Fits; split_ifs <;> omega),
        Zoned.absoluteValue_fits true _ (by unfold Zoned.Fits; split_ifs <;> omega),
        absoluteValue_true, absoluteValue_true, abs_eq_abs]
      constructor
      · intro h
        split_ifs at h <;> omega
      · intro h
        split_ifs <;> omega
  constructor
  · intro hl
    obtain ⟨a1, a2, _⟩ := a.Time.view.civil_spec
    obtain ⟨b1, b2, _⟩ := b.Time.view.civil_spec
    rw [(Zoned.TimeKit.DiffInMonths_formula now a b false).1 hl,
      (Zoned.TimeKit.DiffInMonths_formula now b a false).1 hl.symm,
      (Zoned.TimeKit.DiffInMonths_formula now a b true).1 hl,
      (Zoned.TimeKit.DiffInMonths_formula now b a true).1 hl.symm]
    exact key _ _ _ _ _ _ a1 a2 b1 b2
  · intro hl
    obtain ⟨a1, a2, _⟩ := (a.Time.In Zoned.UTC).view.civil_spec
    obtain ⟨b1, b2, _⟩ := (b.Time.In Zoned.UTC).view.civil_spec
    rw [(Zoned.TimeKit.DiffInMonths_formula now a b false).2 hl,
      (Zoned.TimeKit.DiffInMonths_formula now b a false).2 (Ne.symm hl),
      (Zoned.TimeKit.DiffInMonths_formula now a b true).2 hl,
      (Zoned.TimeKit.DiffInMonths_formula now b a true).2 (Ne.symm hl)]
    exact key _ _ _ _ _ _ a1 a2 b1 b2

set_option maxRecDepth 100000 in
/-- Claim C22 as stated fails: between 2021-01-02 and 2021-01-18, both in UTC, the absolute
result is 1 with the earlier date as receiver and 0 with the later one, and the signed
results are -1 and 0.  Between 2021-01-31 and 2021-02-28 the absolute results are 1 and 0. -/
theorem C22_diffInMonths_swap_counterexample :
    (Zoned.NewTimeKit (Zoned.Date 2021 1 2 0 0 0 0 Zoned.UTC)).DiffInMonths 0
      (some (Zoned.NewTimeKit (Zoned.Date 2021 1 18 0 0 0 0 Zoned.UTC))) true = 1 ∧
    (Zoned.NewTimeKit (Zoned.Date 2021 1 18 0 0 0 0 Zoned.UTC)).DiffInMonths 0
      (some (Zoned.NewTimeKit (Zoned.Date 2021 1 2 0 0 0 0 Zoned.UTC))) true = 0 ∧
    (Zoned.NewTimeKit (Zoned.Date 2021 1 2 0 0 0 0 Zoned.UTC)).DiffInMonths 0
      (some (Zoned.NewTimeKit (Zoned.Date 2021 1 18 0 0 0 0 Zoned.UTC))) false = -1 ∧
    (Zoned.NewTimeKit (Zoned.Date 2021 1 18 0 0 0 0 Zoned.UTC)).DiffInMonths 0
      (some (Zoned.NewTimeKit (Zoned.Date 2021 1 2 0 0 0 0 Zoned.UTC))) false = 0 ∧
    (Zoned.NewTimeKit (Zoned.Date 2021 1 31 0 0 0 0 Zoned.UTC)).DiffInMonths 0
      (some (Zoned.NewTimeKit (Zoned.Date 2021 2 28 0 0 0 0 Zoned.UTC))) true = 1 ∧
    (Zoned.NewTimeKit (Zoned.Date 2021 2 28 0 0 0 0 Zoned.UTC)).DiffInMonths 0
      (some (Zoned.NewTimeKit (Zoned.Date 2021 1 31 0 0 0 0 Zoned.UTC))) true = 0 := by decide

/-- Claim C23: `EndOfCentury` is not idempotent.  From 0150-06-02 before the year 0 (year
-150) it gives the end of the year -1, and applied to that it gives the end of the year 99;
for every instant in a year of -100 or below the second application moves the year one
century forward.  For an instant in a year above -100 the second application of
`EndOfCentury` changes nothing, and for every instant a second application of
`StartOfCentury`, `StartOfYear`, `EndOfYear`, `StartOfQuarter`, `EndOfQuarter`,
`StartOfMonth`, `EndOfMonth`, `StartOfDay` and `EndOfDay` changes nothing.  For a week
start (week end) that is one of the seven weekdays `StartOfWeek` (`EndOfWeek`) returns
within 6 moves of its loop, and applied to its result it returns that result. -/
theorem C23_boundaries_twice (tk : TimeKit) :
    ((NewTimeKit (Date (-150) 6 2 15 4 5 0 0)).EndOfCentury.Time.Year = -1 ∧
      (NewTimeKit (Date (-150) 6 2 15 4 5 0 0)).EndOfCentury.EndOfCentury.Time.Year = 99) ∧
    (tk.Time.Year ≤ -100 →
      tk.EndOfCentury.EndOfCentury.Time.Year = tk.EndOfCentury.Time.Year + 100) ∧
    (-100 < tk.Time.Year → tk.EndOfCentury.EndOfCentury = tk.EndOfCentury) ∧
    tk.StartOfCentury.StartOfCentury = tk.StartOfCentury ∧
    tk.StartOfYear.StartOfYear = tk.StartOfYear ∧
    tk.EndOfYear.EndOfYear = tk.EndOfYear ∧
    tk.StartOfQuarter.StartOfQuarter = tk.StartOfQuarter ∧
    tk.EndOfQuarter.EndOfQuarter = tk.EndOfQuarter ∧
    tk.StartOfMonth.StartOfMonth = tk.StartOfMonth ∧
    tk.EndOfMonth.EndOfMonth = tk.EndOfMonth ∧
    tk.StartOfDay.StartOfDay = tk.StartOfDay ∧
    tk.EndOfDay.EndOfDay = tk.EndOfDay ∧
    ((0 ≤ tk.weekStartAt ∧ tk.weekStartAt ≤ 6) →
      ∃ r : TimeKit, (∀ fuel : Nat, 6 ≤ fuel → TimeKit.StartOfWeek fuel tk = some r) ∧
        ∀ fuel : Nat, TimeKit.StartOfWeek fuel r = some r) ∧
    ((0 ≤ tk.weekEndAt ∧ tk.weekEndAt ≤ 6) →
      ∃ r : TimeKit, (∀ fuel : Nat, 6 ≤ fuel → TimeKit.EndOfWeek fuel tk = some r) ∧
        ∀ fuel : Nat, TimeKit.EndOfWeek fuel r = some r) :=
  ⟨by decide, tk.EndOfCentury_twice.2.2, tk.EndOfCentury_twice.2.1, tk.StartOfCentury_idem,
    tk.StartOfYear_idem, tk.EndOfYear_idem, tk.StartOfQuarter_idem, tk.EndOfQuarter_idem,
    tk.StartOfMonth_idem, tk.EndOfMonth_idem, tk.StartOfDay_idem, tk.EndOfDay_idem,
    tk.week_idem.1, tk.week_idem.2⟩

end Timkit
